import Mathlib

/-!
MQTT packet codec

A shallow embedding of `connect.go` (the CONNECT control packet of the MQTT
codec) and of the helpers it calls.  Bytes are natural numbers, a byte string
is a `List Nat`, and a `bytes.Buffer` is the list of its unread bytes: reading
removes bytes from the front, writing appends at the end.  A Go function that
mutates its receiver and returns `(int, error)` becomes a function returning
the new receiver, the count and an optional error (`none` is Go's `nil`).

`connect.go` is translated line by line.  The fixed header, the primitive
codecs (`readLPBytes`, `writeLPBytes`, `readUint16`, `writeUint16`),
`ValidClientId` and the `SupportedVersions` table live in files that are not
among the sources; each of them is modelled from the specification and says so
in its doc comment.  The same holds for the PUBLISH and PUBREC messages, of
which only the tests are among the sources.
-/

namespace Mqtt

/-- Error values of the package: `io.EOF`, the two CONNACK return codes that
`connect.go` returns by name, and the anonymous errors built by `fmt.Errorf`
(identified by the place that raised them). -/
inductive Error where
  | EOF
  | ErrUnacceptableProtocolVersion
  | ErrIdentifierRejected
  | Errorf (place : String)
  deriving DecidableEq, Repr

/-- Modelled from the spec: packet type code of CONNECT (section 6, the
message-type declarations are not part of the given sources). -/
def CONNECT : Nat := 1

/-- Modelled from the spec: packet type code of PUBLISH (section 6). -/
def PUBLISH : Nat := 3

/-- Modelled from the spec: QoS code 0, at most once (section 6). -/
def QosAtMostOnce : Nat := 0

/-- Modelled from the spec: QoS code 1, at least once (section 6). -/
def QosAtLeastOnce : Nat := 1

/-- Modelled from the spec: QoS code 2, exactly once (section 6). -/
def QosExactlyOnce : Nat := 2

/-- Modelled from the spec: the largest Remaining Length, 268,435,455
(sections 3 and 6). -/
def maxRemainingLength : Nat := 268435455

/-- Modelled from the spec: the longest length-prefixed byte string, 65535
bytes (section 4.2). -/
def maxLPString : Nat := 65535

/-- The bytes of the Go string "MQIsdp". -/
def MQIsdp : List Nat := [77, 81, 73, 115, 100, 112]

/-- The bytes of the Go string "MQTT". -/
def MQTT : List Nat := [77, 81, 84, 84]

/-- Modelled from the spec: the supported protocol versions table, 3 to
"MQIsdp" and 4 to "MQTT", every other version unsupported (section 6).  The
result is Go's `verstr, ok := SupportedVersions[v]`, `none` for `ok = false`. -/
def SupportedVersions (v : Nat) : Option (List Nat) :=
  if v = 3 then some MQIsdp else if v = 4 then some MQTT else none

/-- One byte of the alphanumeric set 0-9, a-z, A-Z. -/
def isAlnum (b : Nat) : Bool :=
  (48 ≤ b && b ≤ 57) || (97 ≤ b && b ≤ 122) || (65 ≤ b && b ≤ 90)

/-- Modelled from the spec: `ValidClientId`, true when every byte of the
client identifier is in the alphanumeric set (section 4.4 step 6); the
function is not part of the given sources. -/
def ValidClientId (v : List Nat) : Bool := v.all isAlnum

/-! ## bytes.Buffer and the primitive codecs -/

/-- Go's `bytes.Buffer.ReadByte` on the unread bytes: the rest of the buffer,
the byte read and the error (`io.EOF` with byte 0 on an empty buffer). -/
def ReadByte (buf : List Nat) : List Nat × Nat × Option Error :=
  match buf with
  | [] => ([], 0, some Error.EOF)
  | b :: rest => (rest, b, none)

/-- Go's `bytes.Buffer.WriteByte`. -/
def WriteByte (buf : List Nat) (b : Nat) : List Nat := buf ++ [b]

/-- Modelled from the spec: `readUint16`, a 16-bit big-endian integer read from
the body buffer, failing when fewer than two bytes are left (sections 2 and
4.4 step 5); the function is not part of the given sources. -/
def readUint16 (buf : List Nat) : List Nat × Nat × Option Error :=
  match buf with
  | hi :: lo :: rest => (rest, hi * 256 + lo, none)
  | _ => (buf, 0, some (Error.Errorf "readUint16"))

/-- Modelled from the spec: `writeUint16`, the two big-endian bytes of a 16-bit
integer appended to the buffer (section 2); the function is not part of the
given sources. -/
def writeUint16 (buf : List Nat) (v : Nat) : List Nat × Option Error :=
  (buf ++ [v / 256 % 256, v % 256], none)

/-- Modelled from the spec: `readLPBytes`, a 2-byte big-endian length followed
by that many raw bytes; decoding fails if the declared length exceeds the
bytes actually available in the buffer (section 4.2).  Returns the rest of the
buffer, the bytes, the count of bytes consumed and the error; the function is
not part of the given sources. -/
def readLPBytes (buf : List Nat) : List Nat × List Nat × Nat × Option Error :=
  match buf with
  | hi :: lo :: rest =>
    let n := hi * 256 + lo
    if rest.length < n then (rest, [], 2, some (Error.Errorf "readLPBytes"))
    else (rest.drop n, rest.take n, 2 + n, none)
  | _ => (buf, [], 0, some (Error.Errorf "readLPBytes"))

/-- Modelled from the spec: `writeLPBytes`, a 2-byte big-endian length (0 to
65535) followed by the raw bytes, appended to the buffer; a longer byte string
has no length prefix and is refused (section 4.2).  Returns the buffer, the
count of bytes written and the error; the function is not part of the given
sources. -/
def writeLPBytes (buf : List Nat) (b : List Nat) : List Nat × Nat × Option Error :=
  if b.length > maxLPString then (buf, 0, some (Error.Errorf "writeLPBytes"))
  else (buf ++ [b.length / 256, b.length % 256] ++ b, 2 + b.length, none)

/-! ## Remaining Length and the fixed header -/

/-- Modelled from the spec: the Remaining-Length encoder, base 128 with a
continuation bit on every byte but the last, least significant group first,
minimal length (section 4.1).  The first argument bounds the number of
bytes. -/
def encodeRemlen : Nat → Nat → List Nat
  | 0, _ => []
  | k + 1, v => if v < 128 then [v] else (v % 128 + 128) :: encodeRemlen k (v / 128)

/-- Modelled from the spec: the Remaining-Length decoder, reading bytes until
the continuation bit is clear; fails on a fifth continuation byte or when the
source ends first (section 4.1).  Arguments: bytes still allowed, the weight
of the next group, the value so far, the count so far and the source; returns
the value, the number of bytes read and the rest of the source. -/
def decodeRemlen : Nat → Nat → Nat → Nat → List Nat → Option (Nat × Nat × List Nat)
  | 0, _, _, _, _ => none
  | _ + 1, _, _, _, [] => none
  | k + 1, w, acc, cnt, b :: rest =>
    if b < 128 then some (acc + b * w, cnt + 1, rest)
    else decodeRemlen k (w * 128) (acc + (b % 128) * w) (cnt + 1) rest

/-- Modelled from the spec: the `fixedHeader` embedded in every message, with
the Remaining Length (an `int32`, as `Encode` passes it), the packet type, the
4-bit flags (the field `flags` that the tests assign) and the `bytes.Buffer`
`buf` that `connect.go` reads the body from and writes the packet to
(section 3; the declaration is not part of the given sources). -/
structure fixedHeader where
  remlen : Int
  mtype : Nat
  flags : Nat
  buf : List Nat
  deriving DecidableEq, Repr

/-- Modelled from the spec: `fixedHeader.Type`, the packet type stored in the
header (section 3; the function is not part of the given sources). -/
def fixedHeader.Type (h : fixedHeader) : Nat := h.mtype

/-- Modelled from the spec: `fixedHeader.SetType`, which stores the packet type
(section 3; the function is not part of the given sources). -/
def fixedHeader.SetType (h : fixedHeader) (t : Nat) : fixedHeader := { h with mtype := t }

/-- Modelled from the spec: `SetRemainingLength`, which stores a Remaining
Length between 0 and 268,435,455 and refuses every other value (sections 3,
4.1 and 6); the function is not part of the given sources. -/
def fixedHeader.SetRemainingLength (h : fixedHeader) (remlen : Int) : fixedHeader × Option Error :=
  if remlen > (maxRemainingLength : Int) ∨ remlen < 0 then
    (h, some (Error.Errorf "SetRemainingLength"))
  else ({ h with remlen := remlen }, none)

/-- Modelled from the spec: `fixedHeader.Encode`, which starts the output
buffer with the type/flags byte followed by the Remaining-Length bytes
(section 4.3), failing on an unencodable Remaining Length (section 4.1).
Returns the header, the buffer as reader, the count of bytes written and the
error; the function is not part of the given sources. -/
def fixedHeader.Encode (h : fixedHeader) : fixedHeader × Option (List Nat) × Nat × Option Error :=
  if h.remlen > (maxRemainingLength : Int) ∨ h.remlen < 0 then
    (h, none, 0, some (Error.Errorf "fixedHeader.Encode"))
  else
    let out := ((h.mtype <<< 4 ||| h.flags) % 256) :: encodeRemlen 4 h.remlen.toNat
    ({ h with buf := out }, some out, out.length, none)

/-- Modelled from the spec: `fixedHeader.Decode`, which reads one byte and
splits it into the packet type (high nibble) and the flags (low nibble),
rejects a flags nibble that differs from the fixed pattern of a type other
than PUBLISH, decodes the Remaining Length and buffers exactly that many body
bytes, failing when the source ends first (sections 2, 4.3 and 5).  The table
of fixed patterns is not in the given sources and is the parameter
`DefaultFlags`.  Returns the header and the count of header bytes read. -/
def fixedHeader.Decode (DefaultFlags : Nat → Nat) (h : fixedHeader) (src : List Nat) :
    fixedHeader × Nat × Option Error :=
  match src with
  | [] => (h, 0, some Error.EOF)
  | b :: rest =>
    let h := { h with mtype := b >>> 4, flags := b &&& 15 }
    if h.mtype ≠ PUBLISH ∧ h.flags ≠ DefaultFlags h.mtype then
      (h, 1, some (Error.Errorf "fixedHeader.Decode: flags"))
    else
      match decodeRemlen 4 1 0 0 rest with
      | none => (h, 1, some (Error.Errorf "fixedHeader.Decode: remaining length"))
      | some (remlen, m, body) =>
        let h := { h with remlen := (remlen : Int) }
        if body.length < remlen then
          (h, 1 + m, some (Error.Errorf "fixedHeader.Decode: body"))
        else ({ h with buf := body.take remlen }, 1 + m, none)

/-! ## The CONNECT message -/

/-- The `ConnectMessage` struct: the embedded fixed header, the connect-flags
byte (7 username flag, 6 password flag, 5 will retain, 4-3 will QoS, 2 will
flag, 1 clean session, 0 reserved), the version byte, the 16-bit keep-alive
and the six byte strings. -/
structure ConnectMessage extends fixedHeader where
  connectFlags : Nat
  version : Nat
  keepAlive : Nat
  protoName : List Nat
  clientId : List Nat
  willTopic : List Nat
  willMessage : List Nat
  username : List Nat
  password : List Nat
  deriving DecidableEq, Repr

/-- Go's zero value `ConnectMessage{}` (a nil buffer and nil byte strings are
the empty list). -/
def ConnectMessage.zero : ConnectMessage :=
  { remlen := 0, mtype := 0, flags := 0, buf := [],
    connectFlags := 0, version := 0, keepAlive := 0, protoName := [],
    clientId := [], willTopic := [], willMessage := [], username := [], password := [] }

/-- `NewConnectMessage`: the zero value with the type set to CONNECT. -/
def NewConnectMessage : ConnectMessage :=
  let msg := ConnectMessage.zero
  { msg with tofixedHeader := msg.tofixedHeader.SetType CONNECT }

/-- `ConnectMessage.Version`. -/
def ConnectMessage.Version (msg : ConnectMessage) : Nat := msg.version

/-- `ConnectMessage.SetVersion`. -/
def ConnectMessage.SetVersion (msg : ConnectMessage) (v : Nat) : ConnectMessage × Option Error :=
  match SupportedVersions v with
  | none => (msg, some (Error.Errorf "connect/SetVersion"))
  | some _ => ({ msg with version := v }, none)

/-- `ConnectMessage.CleanSession`: bit 1 of the connect flags. -/
def ConnectMessage.CleanSession (msg : ConnectMessage) : Bool :=
  (msg.connectFlags >>> 1) &&& 1 == 1

/-- `ConnectMessage.SetCleanSession`. -/
def ConnectMessage.SetCleanSession (msg : ConnectMessage) (v : Bool) : ConnectMessage :=
  if v then { msg with connectFlags := msg.connectFlags ||| 2 }
  else { msg with connectFlags := msg.connectFlags &&& 253 }

/-- `ConnectMessage.WillFlag`: bit 2 of the connect flags. -/
def ConnectMessage.WillFlag (msg : ConnectMessage) : Bool :=
  (msg.connectFlags >>> 2) &&& 1 == 1

/-- `ConnectMessage.SetWillFlag`. -/
def ConnectMessage.SetWillFlag (msg : ConnectMessage) (v : Bool) : ConnectMessage :=
  if v then { msg with connectFlags := msg.connectFlags ||| 4 }
  else { msg with connectFlags := msg.connectFlags &&& 251 }

/-- `ConnectMessage.WillQos`: bits 3-4 of the connect flags. -/
def ConnectMessage.WillQos (msg : ConnectMessage) : Nat :=
  (msg.connectFlags >>> 3) &&& 3

/-- `ConnectMessage.SetWillQos`. -/
def ConnectMessage.SetWillQos (msg : ConnectMessage) (qos : Nat) : ConnectMessage × Option Error :=
  if qos ≠ QosAtMostOnce ∧ qos ≠ QosAtLeastOnce ∧ qos ≠ QosExactlyOnce then
    (msg, some (Error.Errorf "connect/SetWillQos"))
  else
    ({ msg with connectFlags := (msg.connectFlags &&& 231) ||| ((qos <<< 3) % 256) }, none)

/-- `ConnectMessage.WillRetain`: bit 5 of the connect flags. -/
def ConnectMessage.WillRetain (msg : ConnectMessage) : Bool :=
  (msg.connectFlags >>> 5) &&& 1 == 1

/-- `ConnectMessage.SetWillRetain`. -/
def ConnectMessage.SetWillRetain (msg : ConnectMessage) (v : Bool) : ConnectMessage :=
  if v then { msg with connectFlags := msg.connectFlags ||| 32 }
  else { msg with connectFlags := msg.connectFlags &&& 223 }

/-- `ConnectMessage.UsernameFlag`: bit 7 of the connect flags. -/
def ConnectMessage.UsernameFlag (msg : ConnectMessage) : Bool :=
  (msg.connectFlags >>> 7) &&& 1 == 1

/-- `ConnectMessage.SetUsernameFlag`. -/
def ConnectMessage.SetUsernameFlag (msg : ConnectMessage) (v : Bool) : ConnectMessage :=
  if v then { msg with connectFlags := msg.connectFlags ||| 128 }
  else { msg with connectFlags := msg.connectFlags &&& 127 }

/-- `ConnectMessage.PasswordFlag`: bit 6 of the connect flags. -/
def ConnectMessage.PasswordFlag (msg : ConnectMessage) : Bool :=
  (msg.connectFlags >>> 6) &&& 1 == 1

/-- `ConnectMessage.SetPasswordFlag`. -/
def ConnectMessage.SetPasswordFlag (msg : ConnectMessage) (v : Bool) : ConnectMessage :=
  if v then { msg with connectFlags := msg.connectFlags ||| 64 }
  else { msg with connectFlags := msg.connectFlags &&& 191 }

/-- `ConnectMessage.KeepAlive`. -/
def ConnectMessage.KeepAlive (msg : ConnectMessage) : Nat := msg.keepAlive

/-- `ConnectMessage.SetKeepAlive`. -/
def ConnectMessage.SetKeepAlive (msg : ConnectMessage) (v : Nat) : ConnectMessage :=
  { msg with keepAlive := v }

/-- `ConnectMessage.ClientId`. -/
def ConnectMessage.ClientId (msg : ConnectMessage) : List Nat := msg.clientId

/-- `ConnectMessage.SetClientId`. -/
def ConnectMessage.SetClientId (msg : ConnectMessage) (v : List Nat) : ConnectMessage × Option Error :=
  if v.length > 0 ∧ ¬ ValidClientId v then (msg, some Error.ErrIdentifierRejected)
  else ({ msg with clientId := v }, none)

/-- `ConnectMessage.WillTopic`. -/
def ConnectMessage.WillTopic (msg : ConnectMessage) : List Nat := msg.willTopic

/-- `ConnectMessage.SetWillTopic`. -/
def ConnectMessage.SetWillTopic (msg : ConnectMessage) (v : List Nat) : ConnectMessage :=
  let msg := { msg with willTopic := v }
  if v.length > 0 then msg.SetWillFlag true
  else if msg.willMessage.length = 0 then msg.SetWillFlag false
  else msg

/-- `ConnectMessage.WillMessage`. -/
def ConnectMessage.WillMessage (msg : ConnectMessage) : List Nat := msg.willMessage

/-- `ConnectMessage.SetWillMessage`. -/
def ConnectMessage.SetWillMessage (msg : ConnectMessage) (v : List Nat) : ConnectMessage :=
  let msg := { msg with willMessage := v }
  if v.length > 0 then msg.SetWillFlag true
  else if msg.willTopic.length = 0 then msg.SetWillFlag false
  else msg

/-- `ConnectMessage.Username`. -/
def ConnectMessage.Username (msg : ConnectMessage) : List Nat := msg.username

/-- `ConnectMessage.SetUsername`. -/
def ConnectMessage.SetUsername (msg : ConnectMessage) (v : List Nat) : ConnectMessage :=
  let msg := { msg with username := v }
  if v.length > 0 then msg.SetUsernameFlag true else msg.SetUsernameFlag false

/-- `ConnectMessage.Password`. -/
def ConnectMessage.Password (msg : ConnectMessage) : List Nat := msg.password

/-- `ConnectMessage.SetPassword`. -/
def ConnectMessage.SetPassword (msg : ConnectMessage) (v : List Nat) : ConnectMessage :=
  let msg := { msg with password := v }
  if v.length > 0 then msg.SetPasswordFlag true else msg.SetPasswordFlag false

/-- Go's conversion `int32(total)` of a non-negative `int`: the low 32 bits,
read as a signed number. -/
def toInt32 (n : Nat) : Int :=
  if n % 4294967296 < 2147483648 then ((n % 4294967296 : Nat) : Int)
  else ((n % 4294967296 : Nat) : Int) - 4294967296

/-- `ConnectMessage.encodeMessage`: appends the body to the buffer and returns
the message, the count of bytes written and the error. -/
def ConnectMessage.encodeMessage (msg : ConnectMessage) : ConnectMessage × Nat × Option Error :=
  let total := 0
  match SupportedVersions msg.version with
  | none => (msg, 0, some (Error.Errorf "connect/encodeVariableHeader"))
  | some verstr =>
  match writeLPBytes msg.buf verstr with
  | (buf, _, some err) => ({ msg with buf := buf }, 0, some err)
  | (buf, n, none) =>
  let msg := { msg with buf := buf }
  let total := total + n
  let msg := { msg with buf := WriteByte msg.buf msg.version }
  let total := total + 1
  let msg := { msg with buf := WriteByte msg.buf msg.connectFlags }
  let total := total + 1
  match writeUint16 msg.buf msg.keepAlive with
  | (buf, some err) => ({ msg with buf := buf }, total, some err)
  | (buf, none) =>
  let msg := { msg with buf := buf }
  let total := total + 2
  match writeLPBytes msg.buf msg.clientId with
  | (buf, n, some err) => ({ msg with buf := buf }, total + n, some err)
  | (buf, n, none) =>
  let msg := { msg with buf := buf }
  let total := total + n
  -- if this.WillFlag() { will topic, will message }
  let will : ConnectMessage × Nat × Option Error :=
    if msg.WillFlag then
      match writeLPBytes msg.buf msg.willTopic with
      | (buf, n, some err) => ({ msg with buf := buf }, total + n, some err)
      | (buf, n, none) =>
      let msg := { msg with buf := buf }
      let total := total + n
      match writeLPBytes msg.buf msg.willMessage with
      | (buf, n, some err) => ({ msg with buf := buf }, total + n, some err)
      | (buf, n, none) => ({ msg with buf := buf }, total + n, none)
    else (msg, total, none)
  match will with
  | (msg, total, some err) => (msg, total, some err)
  | (msg, total, none) =>
  -- if this.UsernameFlag() && len(this.username) > 0 { username }
  let user : ConnectMessage × Nat × Option Error :=
    if msg.UsernameFlag ∧ msg.username.length > 0 then
      match writeLPBytes msg.buf msg.username with
      | (buf, n, some err) => ({ msg with buf := buf }, total + n, some err)
      | (buf, n, none) => ({ msg with buf := buf }, total + n, none)
    else (msg, total, none)
  match user with
  | (msg, total, some err) => (msg, total, some err)
  | (msg, total, none) =>
  -- if this.PasswordFlag() && len(this.password) > 0 { password }
  if msg.PasswordFlag ∧ msg.password.length > 0 then
    match writeLPBytes msg.buf msg.password with
    | (buf, n, some err) => ({ msg with buf := buf }, total + n, some err)
    | (buf, n, none) => ({ msg with buf := buf }, total + n, none)
  else (msg, total, none)

/-- `ConnectMessage.decodeMessage`: reads the body from the buffer and returns
the message, the count of bytes read and the error. -/
def ConnectMessage.decodeMessage (msg : ConnectMessage) : ConnectMessage × Nat × Option Error :=
  let total := 0
  match readLPBytes msg.buf with
  | (buf, b, n, some err) => ({ msg with buf := buf, protoName := b }, total + n, some err)
  | (buf, b, n, none) =>
  let msg := { msg with buf := buf, protoName := b }
  let total := total + n
  match ReadByte msg.buf with
  | (buf, v, some err) => ({ msg with buf := buf, version := v }, total, some err)
  | (buf, v, none) =>
  let msg := { msg with buf := buf, version := v }
  let total := total + 1
  match SupportedVersions msg.version with
  | none => (msg, total, some Error.ErrUnacceptableProtocolVersion)
  | some verstr =>
  if verstr ≠ msg.protoName then (msg, total, some Error.ErrUnacceptableProtocolVersion) else
  match ReadByte msg.buf with
  | (buf, f, some err) => ({ msg with buf := buf, connectFlags := f }, total, some err)
  | (buf, f, none) =>
  let msg := { msg with buf := buf, connectFlags := f }
  let total := total + 1
  if msg.connectFlags &&& 1 ≠ 0 then
    (msg, total, some (Error.Errorf "connect/decodeMessage: reserved bit")) else
  if msg.WillQos > QosExactlyOnce then
    (msg, total, some (Error.Errorf "connect/decodeMessage: Invalid QoS level")) else
  if ¬ msg.WillFlag ∧ (msg.WillRetain ∨ msg.WillQos ≠ QosAtMostOnce) then
    (msg, total, some (Error.Errorf "connect/decodeMessage: Protocol violation")) else
  if msg.UsernameFlag ∧ ¬ msg.PasswordFlag then
    (msg, total, some (Error.Errorf "connect/decodeMessage: Username flag")) else
  match readUint16 msg.buf with
  | (buf, k, some err) => ({ msg with buf := buf, keepAlive := k }, total, some err)
  | (buf, k, none) =>
  let msg := { msg with buf := buf, keepAlive := k }
  let total := total + 2
  match readLPBytes msg.buf with
  | (buf, b, n, some err) => ({ msg with buf := buf, clientId := b }, total + n, some err)
  | (buf, b, n, none) =>
  let msg := { msg with buf := buf, clientId := b }
  let total := total + n
  if msg.clientId.length = 0 ∧ ¬ msg.CleanSession then
    (msg, total, some Error.ErrIdentifierRejected) else
  if msg.clientId.length > 0 ∧ ¬ ValidClientId msg.clientId then
    (msg, total, some Error.ErrIdentifierRejected) else
  -- if this.WillFlag() { will topic, will message }
  let will : ConnectMessage × Nat × Option Error :=
    if msg.WillFlag then
      match readLPBytes msg.buf with
      | (buf, b, n, some err) => ({ msg with buf := buf, willTopic := b }, total + n, some err)
      | (buf, b, n, none) =>
      let msg := { msg with buf := buf, willTopic := b }
      let total := total + n
      match readLPBytes msg.buf with
      | (buf, b, n, some err) => ({ msg with buf := buf, willMessage := b }, total + n, some err)
      | (buf, b, n, none) => ({ msg with buf := buf, willMessage := b }, total + n, none)
    else (msg, total, none)
  match will with
  | (msg, total, some err) => (msg, total, some err)
  | (msg, total, none) =>
  -- if this.UsernameFlag() && this.buf.Len() > 0 { username }
  let user : ConnectMessage × Nat × Option Error :=
    if msg.UsernameFlag ∧ msg.buf.length > 0 then
      match readLPBytes msg.buf with
      | (buf, b, n, some err) => ({ msg with buf := buf, username := b }, total + n, some err)
      | (buf, b, n, none) => ({ msg with buf := buf, username := b }, total + n, none)
    else (msg, total, none)
  match user with
  | (msg, total, some err) => (msg, total, some err)
  | (msg, total, none) =>
  -- if this.PasswordFlag() && this.buf.Len() > 0 { password }
  let pass : ConnectMessage × Nat × Option Error :=
    if msg.PasswordFlag ∧ msg.buf.length > 0 then
      match readLPBytes msg.buf with
      | (buf, b, n, some err) => ({ msg with buf := buf, password := b }, total + n, some err)
      | (buf, b, n, none) => ({ msg with buf := buf, password := b }, total + n, none)
    else (msg, total, none)
  match pass with
  | (msg, total, some err) => (msg, total, some err)
  | (msg, total, none) =>
  if msg.buf.length > 0 then
    (msg, total, some (Error.Errorf "connect/decodeMessage: Invalid buffer size"))
  else (msg, total, none)

/-- `ConnectMessage.Decode`: the fixed header is read from the source, then the
body from the buffer; returns the message, the count of bytes read and the
error.  `DefaultFlags` is the table of fixed flag patterns used by the fixed
header. -/
def ConnectMessage.Decode (DefaultFlags : Nat → Nat) (msg : ConnectMessage) (src : List Nat) :
    ConnectMessage × Nat × Option Error :=
  let total := 0
  match fixedHeader.Decode DefaultFlags msg.tofixedHeader src with
  | (h, n, some err) => ({ msg with tofixedHeader := h }, total + n, some err)
  | (h, n, none) =>
  let msg := { msg with tofixedHeader := h }
  let total := total + n
  match msg.decodeMessage with
  | (msg, n, some err) => (msg, total + n, some err)
  | (msg, n, none) => (msg, total + n, none)

/-- `ConnectMessage.Encode`: returns the message, the reader (the buffer, `none`
for Go's `nil`), the count of bytes encoded and the error. -/
def ConnectMessage.Encode (msg : ConnectMessage) :
    ConnectMessage × Option (List Nat) × Nat × Option Error :=
  if msg.Type ≠ CONNECT then (msg, none, 0, some (Error.Errorf "connect/Encode: Invalid message type"))
  else
  let total := 0
  match SupportedVersions msg.version with
  | none => (msg, none, 0, some (Error.Errorf "connect/Encode: Unsupported protocol version"))
  | some verstr =>
  let total := total + (2 + verstr.length + 1 + 1 + 2)
  let total := total + (2 + msg.clientId.length)
  let total := if msg.WillFlag then
    total + (2 + msg.willTopic.length + 2 + msg.willMessage.length) else total
  let total := if msg.UsernameFlag ∧ msg.username.length > 0 then
    total + (2 + msg.username.length) else total
  let total := if msg.PasswordFlag ∧ msg.password.length > 0 then
    total + (2 + msg.password.length) else total
  match msg.tofixedHeader.SetRemainingLength (toInt32 total) with
  | (_, some err) => (msg, none, 0, some err)
  | (h, none) =>
  let msg := { msg with tofixedHeader := h }
  let total := 0
  match msg.tofixedHeader.Encode with
  | (h, _, n, some err) => ({ msg with tofixedHeader := h }, none, total + n, some err)
  | (h, _, n, none) =>
  let msg := { msg with tofixedHeader := h }
  let total := total + n
  match msg.encodeMessage with
  | (msg, n, some err) => (msg, none, total + n, some err)
  | (msg, n, none) => (msg, some msg.buf, total + n, none)

/-! ## The parts of `decodeMessage` after the client identifier

`decodeMessage` ends with three optional sections and the check for leftover
bytes (lines 516-550).  They are stated here one by one, with the early return
between them as `andThen`; `decodeMessage_unfold` shows that `decodeMessage`
is, by definition, its first part followed by `decodeOptional`. -/

/-- Result of a decoding step: the message, the count so far and the error. -/
abbrev Res := ConnectMessage × Nat × Option Error

/-- Early return: a step that failed ends the function, otherwise the next step
runs on the message and count reached. -/
def andThen (r : Res) (k : ConnectMessage → Nat → Res) : Res :=
  match r with
  | (msg, total, some err) => (msg, total, some err)
  | (msg, total, none) => k msg total

/-- Lines 516-526: the will topic and will message, read when the will flag is
set. -/
def willStage (msg : ConnectMessage) (total : Nat) : Res :=
  if msg.WillFlag then
    match readLPBytes msg.buf with
    | (buf, b, n, some err) => ({ msg with buf := buf, willTopic := b }, total + n, some err)
    | (buf, b, n, none) =>
    let msg := { msg with buf := buf, willTopic := b }
    let total := total + n
    match readLPBytes msg.buf with
    | (buf, b, n, some err) => ({ msg with buf := buf, willMessage := b }, total + n, some err)
    | (buf, b, n, none) => ({ msg with buf := buf, willMessage := b }, total + n, none)
  else (msg, total, none)

/-- Lines 530-535: the username, read when the username flag is set and bytes
remain. -/
def userStage (msg : ConnectMessage) (total : Nat) : Res :=
  if msg.UsernameFlag ∧ msg.buf.length > 0 then
    match readLPBytes msg.buf with
    | (buf, b, n, some err) => ({ msg with buf := buf, username := b }, total + n, some err)
    | (buf, b, n, none) => ({ msg with buf := buf, username := b }, total + n, none)
  else (msg, total, none)

/-- Lines 539-544: the password, read when the password flag is set and bytes
remain. -/
def passStage (msg : ConnectMessage) (total : Nat) : Res :=
  if msg.PasswordFlag ∧ msg.buf.length > 0 then
    match readLPBytes msg.buf with
    | (buf, b, n, some err) => ({ msg with buf := buf, password := b }, total + n, some err)
    | (buf, b, n, none) => ({ msg with buf := buf, password := b }, total + n, none)
  else (msg, total, none)

/-- Lines 546-550: leftover bytes are an error. -/
def endStage (msg : ConnectMessage) (total : Nat) : Res :=
  if msg.buf.length > 0 then
    (msg, total, some (Error.Errorf "connect/decodeMessage: Invalid buffer size"))
  else (msg, total, none)

/-- Lines 516-550 of `decodeMessage`. -/
def decodeOptional (msg : ConnectMessage) (total : Nat) : Res :=
  andThen (willStage msg total) fun msg total =>
    andThen (userStage msg total) fun msg total =>
      andThen (passStage msg total) endStage

/-! ## The wire layout, in the words of the specification -/

/-- A length-prefixed byte string: a 2-byte big-endian length followed by the
raw bytes. -/
def lpBytes (b : List Nat) : List Nat := [b.length / 256, b.length % 256] ++ b

/-- The protocol name of the version's table entry: "MQIsdp" for 3, "MQTT" for
4. -/
def tableName (v : Nat) : List Nat := if v = 3 then MQIsdp else MQTT

/-- The optional sections of the CONNECT body: will topic and will message when
the will flag is set, the username when its flag is set and it is non-empty,
the password when its flag is set and it is non-empty. -/
def optionalLayout (msg : ConnectMessage) : List Nat :=
  (if msg.WillFlag then lpBytes msg.willTopic ++ lpBytes msg.willMessage else [])
    ++ ((if msg.UsernameFlag ∧ msg.username.length > 0 then lpBytes msg.username else [])
    ++ (if msg.PasswordFlag ∧ msg.password.length > 0 then lpBytes msg.password else []))

/-- The CONNECT body: protocol name, version byte, connect-flags byte,
keep-alive as 2 big-endian bytes, client id, then the optional sections. -/
def bodyLayout (msg : ConnectMessage) : List Nat :=
  lpBytes (tableName msg.version)
    ++ (msg.version :: msg.connectFlags :: (msg.keepAlive / 256 % 256) :: (msg.keepAlive % 256)
    :: (lpBytes msg.clientId ++ optionalLayout msg))

/-- The size of the CONNECT body as `Encode` computes it before writing. -/
def bodySize (msg : ConnectMessage) : Nat :=
  (2 + (tableName msg.version).length) + 1 + 1 + 2 + (2 + msg.clientId.length)
    + (if msg.WillFlag then 2 + msg.willTopic.length + 2 + msg.willMessage.length else 0)
    + (if msg.UsernameFlag ∧ msg.username.length > 0 then 2 + msg.username.length else 0)
    + (if msg.PasswordFlag ∧ msg.password.length > 0 then 2 + msg.password.length else 0)

/-- The bytes of the fixed header for a packet type, flags and Remaining
Length: the type/flags byte, then the Remaining-Length bytes. -/
def headerBytes (mtype flags remlen : Nat) : List Nat :=
  ((mtype <<< 4 ||| flags) % 256) :: encodeRemlen 4 remlen

/-- Every byte string of the message has at most 65535 bytes. -/
structure FieldsFit (msg : ConnectMessage) : Prop where
  clientId : msg.clientId.length ≤ 65535
  willTopic : msg.willTopic.length ≤ 65535
  willMessage : msg.willMessage.length ≤ 65535
  username : msg.username.length ≤ 65535
  password : msg.password.length ≤ 65535

/-- Every byte string that `encodeMessage` writes has at most 65535 bytes. -/
structure WrittenFit (msg : ConnectMessage) : Prop where
  clientId : msg.clientId.length ≤ 65535
  willTopic : msg.WillFlag = true → msg.willTopic.length ≤ 65535
  willMessage : msg.WillFlag = true → msg.willMessage.length ≤ 65535
  username : msg.UsernameFlag = true → msg.username.length ≤ 65535
  password : msg.PasswordFlag = true → msg.password.length ≤ 65535

/-- The connect-flags rules of the decoder (lines 478-492): reserved bit 0,
will QoS at most 2, will QoS 0 and will-retain clear when the will flag is
clear, password flag set whenever the username flag is set. -/
structure FlagRules (msg : ConnectMessage) : Prop where
  reserved : msg.connectFlags &&& 1 = 0
  qos : ¬ msg.WillQos > QosExactlyOnce
  will : ¬ (¬ msg.WillFlag ∧ (msg.WillRetain ∨ msg.WillQos ≠ QosAtMostOnce))
  user : ¬ (msg.UsernameFlag ∧ ¬ msg.PasswordFlag)

/-- The client-identifier rules of the decoder (lines 505-514): a zero-length
client id needs clean-session, a non-empty one must be alphanumeric. -/
structure ClientIdRules (msg : ConnectMessage) : Prop where
  empty : ¬ (msg.clientId.length = 0 ∧ ¬ msg.CleanSession)
  chars : ¬ (msg.clientId.length > 0 ∧ ¬ ValidClientId msg.clientId)

/-- The message that `decodeMessage` leaves when it reads the body of `p` into
`m`: every field read is that of `p`, the buffer is empty, and a field that no
section of the body carries keeps the value it had in `m`.  With the username
flag set and an empty username, a password in the body is read as the
username. -/
def decodedFrom (m p : ConnectMessage) : ConnectMessage :=
  { m with
    buf := []
    protoName := tableName p.version
    version := p.version
    connectFlags := p.connectFlags
    keepAlive := p.keepAlive / 256 % 256 * 256 + p.keepAlive % 256
    clientId := p.clientId
    willTopic := if p.WillFlag then p.willTopic else m.willTopic
    willMessage := if p.WillFlag then p.willMessage else m.willMessage
    username :=
      if p.UsernameFlag then
        if p.username.length > 0 then p.username
        else if p.PasswordFlag ∧ p.password.length > 0 then p.password else m.username
      else m.username
    password :=
      if p.PasswordFlag ∧ p.password.length > 0 ∧ ¬ (p.UsernameFlag ∧ ¬ p.username.length > 0)
      then p.password else m.password }

/-! ## Proof devices -/

/-- What the optional sections keep: on success the count grows by the bytes
taken from the buffer; a failure is never `ErrIdentifierRejected`. -/
def StepOk (msg : ConnectMessage) (total : Nat) (r : Res) : Prop :=
  (r.2.2 = none → r.2.1 + r.1.buf.length = total + msg.buf.length) ∧
    r.2.2 ≠ some Error.ErrIdentifierRejected

/-- The body size as `Encode` adds it up (lines 346-368). -/
def encodeTotal (msg : ConnectMessage) (verstr : List Nat) : Nat :=
  let total := 0
  let total := total + (2 + verstr.length + 1 + 1 + 2)
  let total := total + (2 + msg.clientId.length)
  let total := if msg.WillFlag then
    total + (2 + msg.willTopic.length + 2 + msg.willMessage.length) else total
  let total := if msg.UsernameFlag ∧ msg.username.length > 0 then
    total + (2 + msg.username.length) else total
  let total := if msg.PasswordFlag ∧ msg.password.length > 0 then
    total + (2 + msg.password.length) else total
  total

/-! ## The round-trip property -/

/-- The body that `encodeMessage` writes for `p`: the bytes it leaves in an
empty buffer. -/
def encodedBody (p : ConnectMessage) : List Nat :=
  (ConnectMessage.encodeMessage { p with buf := [] }).1.buf

/-- The messages of the round-trip claim: version 3 or 4, connect flags that
satisfy the decoder's rules, an alphanumeric client id (or an empty one with
clean-session), no will topic or message without the will flag, no username or
password without their flag, a 16-bit keep-alive and byte strings of at most
65535 bytes. -/
def RoundTripInput (p : ConnectMessage) : Prop :=
  (p.version = 3 ∨ p.version = 4) ∧
  p.connectFlags &&& 1 = 0 ∧
  p.WillQos ≤ 2 ∧
  (p.WillFlag = false → p.WillQos = 0 ∧ p.WillRetain = false) ∧
  (p.UsernameFlag = true → p.PasswordFlag = true) ∧
  ((p.clientId ≠ [] ∧ ValidClientId p.clientId = true) ∨
    (p.clientId = [] ∧ p.CleanSession = true)) ∧
  (p.WillFlag = false → p.willTopic = [] ∧ p.willMessage = []) ∧
  (p.UsernameFlag = false → p.username = []) ∧
  (p.PasswordFlag = false → p.password = []) ∧
  p.keepAlive < 65536 ∧
  p.clientId.length ≤ 65535 ∧ p.willTopic.length ≤ 65535 ∧ p.willMessage.length ≤ 65535 ∧
  p.username.length ≤ 65535 ∧ p.password.length ≤ 65535

instance (p : ConnectMessage) : Decidable (RoundTripInput p) := by
  unfold RoundTripInput; infer_instance

/-- Decoding the body written for `p` into a fresh message succeeds and gives
back the version, connect flags, keep-alive, client id, will topic, will
message, username and password of `p`. -/
def RoundTrips (p : ConnectMessage) : Prop :=
  (ConnectMessage.encodeMessage { p with buf := [] }).2.2 = none ∧
  (ConnectMessage.decodeMessage { NewConnectMessage with buf := encodedBody p }).2.2 = none ∧
  (ConnectMessage.decodeMessage { NewConnectMessage with buf := encodedBody p }).1.version
    = p.version ∧
  (ConnectMessage.decodeMessage { NewConnectMessage with buf := encodedBody p }).1.connectFlags
    = p.connectFlags ∧
  (ConnectMessage.decodeMessage { NewConnectMessage with buf := encodedBody p }).1.keepAlive
    = p.keepAlive ∧
  (ConnectMessage.decodeMessage { NewConnectMessage with buf := encodedBody p }).1.clientId
    = p.clientId ∧
  (ConnectMessage.decodeMessage { NewConnectMessage with buf := encodedBody p }).1.willTopic
    = p.willTopic ∧
  (ConnectMessage.decodeMessage { NewConnectMessage with buf := encodedBody p }).1.willMessage
    = p.willMessage ∧
  (ConnectMessage.decodeMessage { NewConnectMessage with buf := encodedBody p }).1.username
    = p.username ∧
  (ConnectMessage.decodeMessage { NewConnectMessage with buf := encodedBody p }).1.password
    = p.password

instance (p : ConnectMessage) : Decidable (RoundTrips p) := by
  unfold RoundTrips; infer_instance

/-! ## Sample messages -/

/-- A CONNECT message with every optional section: version 4, flags 0xCE
(username, password, will QoS 1, will flag, clean session), keep-alive 10,
client id "ab", will topic "t", will message "m", username "u", password
"x". -/
def sampleConnect : ConnectMessage :=
  { NewConnectMessage with
    version := 4, connectFlags := 206, keepAlive := 10, clientId := [97, 98],
    willTopic := [116], willMessage := [109], username := [117], password := [120] }

/-- A CONNECT message with both credential flags set, an empty username and
the password "x": version 4, flags 0xC2, keep-alive 10, client id "ab". -/
def passwordOnly : ConnectMessage :=
  { NewConnectMessage with
    version := 4, connectFlags := 194, keepAlive := 10, clientId := [97, 98],
    username := [], password := [120] }

/-- The bytes `Encode` returns for `passwordOnly`: the fixed header 0x10, 17 and
the 17 body bytes. -/
def passwordOnlyBytes : List Nat :=
  [16, 17, 0, 4, 77, 81, 84, 84, 4, 194, 0, 10, 0, 2, 97, 98, 0, 1, 120]

/-- The bytes `Encode` returns for `sampleConnect`: the fixed header 0x10, 26
and the 26 body bytes. -/
def sampleConnectBytes : List Nat :=
  [16, 26, 0, 4, 77, 81, 84, 84, 4, 206, 0, 10, 0, 2, 97, 98, 0, 1, 116, 0, 1, 109, 0, 1, 117,
    0, 1, 120]

/-- A fresh message whose buffer holds the body: protocol name "MQTT", version
`v`, connect-flags byte `f`, keep-alive 10 and an empty client id. -/
def emptyIdBody (v f : Nat) : ConnectMessage :=
  { NewConnectMessage with buf := lpBytes MQTT ++ v :: f :: 0 :: 10 :: (lpBytes [] ++ []) }

/-! ## The PUBLISH and PUBREC messages

Neither `publish.go` nor `pubrec.go` is among the sources; only their tests
are.  Both messages are modelled from the specification (sections 3, 4.5 and
4.6) and from what the tests call and expect. -/

/-- Modelled from the spec: packet type code of PUBREC (section 6). -/
def PUBREC : Nat := 5

/-- One of the two wildcard bytes of topic filters, '#' (35) and '+' (43). -/
def isWildcard (b : Nat) : Bool := b == 35 || b == 43

/-- Modelled from the spec: a topic name is valid when it contains no wildcard
character (sections 3 and 4.5). -/
def ValidTopic (t : List Nat) : Bool := t.all fun b => !isWildcard b

/-- Modelled from the spec: `PublishMessage`, the fixed header (whose flags pack
retain in bit 0, QoS in bits 1-2 and dup in bit 3), the topic name, the 16-bit
packet id and the payload (section 3; the declaration is not part of the given
sources). -/
structure PublishMessage extends fixedHeader where
  topic : List Nat
  packetId : Nat
  payload : List Nat
  deriving DecidableEq, Repr

/-- Go's zero value `PublishMessage{}`. -/
def PublishMessage.zero : PublishMessage :=
  { remlen := 0, mtype := 0, flags := 0, buf := [], topic := [], packetId := 0, payload := [] }

/-- Modelled from the spec: `NewPublishMessage`, a fresh message of type PUBLISH
(called by the tests; section 3). -/
def NewPublishMessage : PublishMessage :=
  let msg := PublishMessage.zero
  { msg with tofixedHeader := msg.tofixedHeader.SetType PUBLISH }

/-- Modelled from the spec: `Dup`, bit 3 of the header flags (section 4.5). -/
def PublishMessage.Dup (msg : PublishMessage) : Bool := (msg.flags >>> 3) &&& 1 == 1

/-- Modelled from the spec: `SetDup`, which sets or clears bit 3 of the header
flags (section 4.5). -/
def PublishMessage.SetDup (msg : PublishMessage) (v : Bool) : PublishMessage :=
  if v then { msg with flags := msg.flags ||| 8 } else { msg with flags := msg.flags &&& 247 }

/-- Modelled from the spec: `Retain`, bit 0 of the header flags (section 4.5). -/
def PublishMessage.Retain (msg : PublishMessage) : Bool := msg.flags &&& 1 == 1

/-- Modelled from the spec: `SetRetain`, which sets or clears bit 0 of the
header flags (section 4.5). -/
def PublishMessage.SetRetain (msg : PublishMessage) (v : Bool) : PublishMessage :=
  if v then { msg with flags := msg.flags ||| 1 } else { msg with flags := msg.flags &&& 254 }

/-- Modelled from the spec: `QoS`, bits 1-2 of the header flags (section 4.5). -/
def PublishMessage.QoS (msg : PublishMessage) : Nat := (msg.flags >>> 1) &&& 3

/-- Modelled from the spec: `SetQoS`, which stores a QoS of 0, 1 or 2 in bits
1-2 of the header flags and rejects every other value (sections 4.5 and 6). -/
def PublishMessage.SetQoS (msg : PublishMessage) (qos : Nat) : PublishMessage × Option Error :=
  if qos ≠ QosAtMostOnce ∧ qos ≠ QosAtLeastOnce ∧ qos ≠ QosExactlyOnce then
    (msg, some (Error.Errorf "publish/SetQoS"))
  else ({ msg with flags := (msg.flags &&& 249) ||| ((qos <<< 1) % 256) }, none)

/-- Modelled from the spec: `Topic`, the topic name (section 3). -/
def PublishMessage.Topic (msg : PublishMessage) : List Nat := msg.topic

/-- Modelled from the spec: `SetTopic`, which fails on a topic that contains a
wildcard character and stores any other topic (section 6). -/
def PublishMessage.SetTopic (msg : PublishMessage) (v : List Nat) : PublishMessage × Option Error :=
  if ¬ ValidTopic v then (msg, some (Error.Errorf "publish/SetTopic"))
  else ({ msg with topic := v }, none)

/-- Modelled from the spec: `PacketId`, the 16-bit packet identifier
(section 3). -/
def PublishMessage.PacketId (msg : PublishMessage) : Nat := msg.packetId

/-- Modelled from the spec: `SetPacketId` (section 3). -/
def PublishMessage.SetPacketId (msg : PublishMessage) (v : Nat) : PublishMessage :=
  { msg with packetId := v }

/-- Modelled from the spec: `Payload`, the raw payload bytes (section 3). -/
def PublishMessage.Payload (msg : PublishMessage) : List Nat := msg.payload

/-- Modelled from the spec: `SetPayload` (section 3). -/
def PublishMessage.SetPayload (msg : PublishMessage) (v : List Nat) : PublishMessage :=
  { msg with payload := v }

/-- Modelled from the spec: `PublishMessage.Encode`.  It fails if the topic is
empty or contains a wildcard character; the Remaining Length is the
length-prefixed topic size plus 2 if QoS > 0 plus the payload length; the
fixed header is written, then the topic, then the packet id if QoS > 0, then
the raw payload bytes (sections 4.3 and 4.5).  Returns the message, the reader,
the count of bytes encoded and the error. -/
def PublishMessage.Encode (msg : PublishMessage) :
    PublishMessage × Option (List Nat) × Nat × Option Error :=
  if msg.topic.length = 0 ∨ ¬ ValidTopic msg.topic then
    (msg, none, 0, some (Error.Errorf "publish/Encode: topic"))
  else
  let total := 2 + msg.topic.length
  let total := if msg.QoS > 0 then total + 2 else total
  let total := total + msg.payload.length
  match msg.tofixedHeader.SetRemainingLength (total : Int) with
  | (_, some err) => (msg, none, 0, some err)
  | (h, none) =>
  let msg := { msg with tofixedHeader := h }
  let total := 0
  match msg.tofixedHeader.Encode with
  | (h, _, n, some err) => ({ msg with tofixedHeader := h }, none, total + n, some err)
  | (h, _, n, none) =>
  let msg := { msg with tofixedHeader := h }
  let total := total + n
  match writeLPBytes msg.buf msg.topic with
  | (buf, n, some err) => ({ msg with buf := buf }, none, total + n, some err)
  | (buf, n, none) =>
  let msg := { msg with buf := buf }
  let total := total + n
  let msg := if msg.QoS > 0 then
    { msg with buf := (writeUint16 msg.buf msg.packetId).1 } else msg
  let total := if msg.QoS > 0 then total + 2 else total
  let msg := { msg with buf := msg.buf ++ msg.payload }
  let total := total + msg.payload.length
  (msg, some msg.buf, total, none)

/-- Modelled from the spec: `PublishMessage.Decode`.  The fixed header is read
from the source; then the topic name, which must not contain a wildcard
character; then a 16-bit packet identifier if QoS > 0; whatever bytes remain
in the body become the payload (sections 4.3 and 4.5).  Returns the message,
the count of bytes consumed and the error. -/
def PublishMessage.Decode (DefaultFlags : Nat → Nat) (msg : PublishMessage) (src : List Nat) :
    PublishMessage × Nat × Option Error :=
  let total := 0
  match fixedHeader.Decode DefaultFlags msg.tofixedHeader src with
  | (h, n, some err) => ({ msg with tofixedHeader := h }, total + n, some err)
  | (h, n, none) =>
  let msg := { msg with tofixedHeader := h }
  let total := total + n
  match readLPBytes msg.buf with
  | (buf, b, n, some err) => ({ msg with buf := buf, topic := b }, total + n, some err)
  | (buf, b, n, none) =>
  let msg := { msg with buf := buf, topic := b }
  let total := total + n
  if ¬ ValidTopic msg.topic then (msg, total, some (Error.Errorf "publish/Decode: topic")) else
  let qos : PublishMessage × Nat × Option Error :=
    if msg.QoS > 0 then
      match readUint16 msg.buf with
      | (buf, v, some err) => ({ msg with buf := buf, packetId := v }, total, some err)
      | (buf, v, none) => ({ msg with buf := buf, packetId := v }, total + 2, none)
    else (msg, total, none)
  match qos with
  | (msg, total, some err) => (msg, total, some err)
  | (msg, total, none) =>
  ({ msg with buf := [], payload := msg.buf }, total + msg.buf.length, none)

/-- Modelled from the spec: `PubrecMessage`, the fixed header and a 16-bit
packet identifier, nothing else (section 3; the declaration is not part of the
given sources). -/
structure PubrecMessage extends fixedHeader where
  packetId : Nat
  deriving DecidableEq, Repr

/-- Go's zero value `PubrecMessage{}`. -/
def PubrecMessage.zero : PubrecMessage :=
  { remlen := 0, mtype := 0, flags := 0, buf := [], packetId := 0 }

/-- Modelled from the spec: `NewPubrecMessage`, a fresh message of type PUBREC
(called by the tests; section 3). -/
def NewPubrecMessage : PubrecMessage :=
  let msg := PubrecMessage.zero
  { msg with tofixedHeader := msg.tofixedHeader.SetType PUBREC }

/-- Modelled from the spec: `PacketId` of a PUBREC message (section 3). -/
def PubrecMessage.PacketId (msg : PubrecMessage) : Nat := msg.packetId

/-- Modelled from the spec: `SetPacketId` of a PUBREC message (section 3). -/
def PubrecMessage.SetPacketId (msg : PubrecMessage) (v : Nat) : PubrecMessage :=
  { msg with packetId := v }

/-- Modelled from the spec: `PubrecMessage.Encode`.  The Remaining Length is 2,
the fixed header is written and then the 16-bit packet identifier: encode
always produces exactly 2 body bytes (sections 4.3 and 4.6). -/
def PubrecMessage.Encode (msg : PubrecMessage) :
    PubrecMessage × Option (List Nat) × Nat × Option Error :=
  match msg.tofixedHeader.SetRemainingLength 2 with
  | (_, some err) => (msg, none, 0, some err)
  | (h, none) =>
  let msg := { msg with tofixedHeader := h }
  let total := 0
  match msg.tofixedHeader.Encode with
  | (h, _, n, some err) => ({ msg with tofixedHeader := h }, none, total + n, some err)
  | (h, _, n, none) =>
  let msg := { msg with tofixedHeader := h }
  let total := total + n
  match writeUint16 msg.buf msg.packetId with
  | (buf, some err) => ({ msg with buf := buf }, none, total, some err)
  | (buf, none) =>
  let msg := { msg with buf := buf }
  let total := total + 2
  (msg, some msg.buf, total, none)

/-- Modelled from the spec: `PubrecMessage.Decode`.  The fixed header is read
from the source; the body is exactly a 16-bit packet identifier: decode fails
if fewer than 2 bytes are available or if bytes remain after reading it
(sections 4.3 and 4.6). -/
def PubrecMessage.Decode (DefaultFlags : Nat → Nat) (msg : PubrecMessage) (src : List Nat) :
    PubrecMessage × Nat × Option Error :=
  let total := 0
  match fixedHeader.Decode DefaultFlags msg.tofixedHeader src with
  | (h, n, some err) => ({ msg with tofixedHeader := h }, total + n, some err)
  | (h, n, none) =>
  let msg := { msg with tofixedHeader := h }
  let total := total + n
  match readUint16 msg.buf with
  | (buf, v, some err) => ({ msg with buf := buf, packetId := v }, total, some err)
  | (buf, v, none) =>
  let msg := { msg with buf := buf, packetId := v }
  let total := total + 2
  if msg.buf.length > 0 then (msg, total, some (Error.Errorf "pubrec/Decode: leftover bytes"))
  else (msg, total, none)

/-- The continuation-bit discipline of a Remaining-Length field: every byte but
the last has its high bit set (value 128 to 255), the last has it clear (value
below 128), and there is a last byte. -/
def wellTerminated : List Nat → Bool
  | [] => false
  | [b] => decide (b < 128)
  | b :: rest => decide (128 ≤ b) && decide (b < 256) && wellTerminated rest

/-- A fresh PUBLISH message whose flags are 11, as the test assigns them: dup,
QoS 1, retain. -/
def flagsEleven : PublishMessage := { NewPublishMessage with flags := 11 }

/-- The topic "coolstuff/#". -/
def coolstuffHash : List Nat := [99, 111, 111, 108, 115, 116, 117, 102, 102, 47, 35]

/-- The topic "surgemq". -/
def surgemq : List Nat := [115, 117, 114, 103, 101, 109, 113]

/-- The payload "send me home". -/
def sendMeHome : List Nat := [115, 101, 110, 100, 32, 109, 101, 32, 104, 111, 109, 101]

/-- The PUBLISH message of the encode test: topic "surgemq", QoS 1, packet id 7,
payload "send me home". -/
def surgemqPublish : PublishMessage :=
  (((NewPublishMessage.SetTopic surgemq).1.SetQoS 1).1.SetPacketId 7).SetPayload sendMeHome

/-- The 25 bytes of the encode test: 0x32, 23, the topic, the packet id and the
payload. -/
def surgemqBytes : List Nat :=
  [50, 23, 0, 7, 115, 117, 114, 103, 101, 109, 113, 0, 7,
    115, 101, 110, 100, 32, 109, 101, 32, 104, 111, 109, 101]

/-- The Remaining Length of a PUBLISH packet: the length-prefixed topic, 2
bytes of packet id when QoS > 0, and the payload. -/
def publishSize (msg : PublishMessage) : Nat :=
  2 + msg.topic.length + (if msg.QoS > 0 then 2 else 0) + msg.payload.length

/-- The body of a PUBLISH packet: the length-prefixed topic, the 2 big-endian
bytes of the packet id when QoS > 0, then the payload verbatim. -/
def publishBody (msg : PublishMessage) : List Nat :=
  lpBytes msg.topic
    ++ ((if msg.QoS > 0 then [msg.packetId / 256 % 256, msg.packetId % 256] else [])
    ++ msg.payload)

/-- A PUBLISH message whose topic is 65536 times the byte 'a': non-empty,
without wildcard, QoS 0, too long for a 2-byte length. -/
def longTopicPublish : PublishMessage :=
  { NewPublishMessage with topic := List.replicate 65536 97 }

/-- A PUBLISH message with topic "a" and a payload of 268435456 zero bytes: its
Remaining Length is above 268435455. -/
def longPayloadPublish : PublishMessage :=
  { NewPublishMessage with topic := [97], payload := List.replicate 268435456 0 }

/-- A PUBLISH message with an empty payload: topic "surgemq", QoS 1, packet id
7 and no payload set. -/
def emptyPayloadPublish : PublishMessage :=
  ((NewPublishMessage.SetTopic surgemq).1.SetQoS 1).1.SetPacketId 7

/-- The truncated PUBLISH packet of the decode test: the header declares 26 body
bytes and 23 follow. -/
def truncatedPublish : List Nat :=
  [50, 26, 0, 7, 115, 117, 114, 103, 101, 109, 113, 0, 7,
    115, 101, 110, 100, 32, 109, 101, 32, 104, 111, 109, 101]

/-- The truncated PUBREC packet of the decode test: the header declares 2 body
bytes and 1 follows. -/
def truncatedPubrec : List Nat := [80, 2, 7]

/-! ## The body without credentials -/

/-- The CONNECT body up to the credentials, in the words of the specification:
protocol name, version byte, connect-flags byte, keep-alive as 2 big-endian
bytes, client id, then will topic and will message when the will flag is
set. -/
def bodyHead (p : ConnectMessage) : List Nat :=
  lpBytes (tableName p.version)
    ++ (p.version :: p.connectFlags :: (p.keepAlive / 256 % 256) :: (p.keepAlive % 256)
    :: (lpBytes p.clientId
      ++ (if p.WillFlag then lpBytes p.willTopic ++ lpBytes p.willMessage else [])))

/-- A CONNECT message with both credential flags and the will flag set and no
credentials: version 4, flags 0xC6, keep-alive 10, client id "ab", will topic
"t", will message "m". -/
def flagsOnly : ConnectMessage :=
  { NewConnectMessage with
    version := 4, connectFlags := 198, keepAlive := 10, clientId := [97, 98],
    willTopic := [116], willMessage := [109] }

/-! ## Sequences of setter calls -/

/-- A call of a public setter of `ConnectMessage` with its argument: the
thirteen setters of `connect.go` and the two of the embedded fixed header
(`SetType`, which `NewConnectMessage` calls, and `SetRemainingLength`, which
`Encode` calls). -/
inductive SetterCall where
  | SetType (t : Nat)
  | SetRemainingLength (remlen : Int)
  | SetVersion (v : Nat)
  | SetCleanSession (v : Bool)
  | SetWillFlag (v : Bool)
  | SetWillQos (qos : Nat)
  | SetWillRetain (v : Bool)
  | SetUsernameFlag (v : Bool)
  | SetPasswordFlag (v : Bool)
  | SetKeepAlive (v : Nat)
  | SetClientId (v : List Nat)
  | SetWillTopic (v : List Nat)
  | SetWillMessage (v : List Nat)
  | SetUsername (v : List Nat)
  | SetPassword (v : List Nat)

/-- The message after the call; a setter that returns an error has left the
message as it was. -/
def SetterCall.run (c : SetterCall) (msg : ConnectMessage) : ConnectMessage :=
  match c with
  | .SetType t => { msg with tofixedHeader := msg.tofixedHeader.SetType t }
  | .SetRemainingLength remlen =>
    { msg with tofixedHeader := (msg.tofixedHeader.SetRemainingLength remlen).1 }
  | .SetVersion v => (msg.SetVersion v).1
  | .SetCleanSession v => msg.SetCleanSession v
  | .SetWillFlag v => msg.SetWillFlag v
  | .SetWillQos qos => (msg.SetWillQos qos).1
  | .SetWillRetain v => msg.SetWillRetain v
  | .SetUsernameFlag v => msg.SetUsernameFlag v
  | .SetPasswordFlag v => msg.SetPasswordFlag v
  | .SetKeepAlive v => msg.SetKeepAlive v
  | .SetClientId v => (msg.SetClientId v).1
  | .SetWillTopic v => msg.SetWillTopic v
  | .SetWillMessage v => msg.SetWillMessage v
  | .SetUsername v => msg.SetUsername v
  | .SetPassword v => msg.SetPassword v

/-- The message after a sequence of calls, the first call of the list first. -/
def callAll (calls : List SetterCall) (msg : ConnectMessage) : ConnectMessage :=
  calls.foldl (fun m c => c.run m) msg

/-- The direct calls of `SetWillFlag`, `SetUsernameFlag` and
`SetPasswordFlag`. -/
def SetterCall.isFlagCall : SetterCall → Bool
  | .SetWillFlag _ => true
  | .SetUsernameFlag _ => true
  | .SetPasswordFlag _ => true
  | _ => false

/-- The presence flags agree with the fields: the will flag is set exactly when
the will topic or the will message is non-empty, the username flag exactly
when the username is non-empty, the password flag exactly when the password is
non-empty. -/
def FlagsInStep (msg : ConnectMessage) : Prop :=
  (msg.WillFlag = true ↔ msg.willTopic ≠ [] ∨ msg.willMessage ≠ []) ∧
    (msg.UsernameFlag = true ↔ msg.username ≠ []) ∧
    (msg.PasswordFlag = true ↔ msg.password ≠ [])

/-- A sequence of calls that mixes value setters and other setters: will topic
"t", clean session, will message "m", will QoS 1, username "u", will topic
emptied, password "x", username emptied. -/
def sampleCalls : List SetterCall :=
  [.SetWillTopic [116], .SetCleanSession true, .SetWillMessage [109], .SetWillQos 1,
    .SetUsername [117], .SetWillTopic [], .SetPassword [120], .SetUsername []]

/-- A sequence of calls that uses every public setter, the flag setters with
both values, and a will QoS that is refused. -/
def everySetter : List SetterCall :=
  [.SetType 1, .SetRemainingLength 12, .SetVersion 4, .SetCleanSession true, .SetWillFlag true,
    .SetWillQos 2, .SetWillQos 7, .SetWillRetain true, .SetUsernameFlag true,
    .SetPasswordFlag true, .SetKeepAlive 10, .SetClientId [97], .SetWillTopic [116],
    .SetWillMessage [109], .SetUsername [117], .SetPassword [120], .SetWillRetain false,
    .SetWillFlag false, .SetCleanSession false]

/-- The bits of the connect-flags byte that the call may write: bit 1 for
`SetCleanSession`, bit 2 for `SetWillFlag`, `SetWillTopic` and
`SetWillMessage`, bits 3-4 for `SetWillQos`, bit 5 for `SetWillRetain`, bit 6
for `SetPasswordFlag` and `SetPassword`, bit 7 for `SetUsernameFlag` and
`SetUsername`, none for the other setters. -/
def SetterCall.ownBits : SetterCall → List Nat
  | .SetCleanSession _ => [1]
  | .SetWillFlag _ => [2]
  | .SetWillTopic _ => [2]
  | .SetWillMessage _ => [2]
  | .SetWillQos _ => [3, 4]
  | .SetWillRetain _ => [5]
  | .SetPasswordFlag _ => [6]
  | .SetPassword _ => [6]
  | .SetUsernameFlag _ => [7]
  | .SetUsername _ => [7]
  | _ => []

/-! ## Helper lemmas -/

theorem decodeMessage_unfold (msg : ConnectMessage) :
    msg.decodeMessage =
      (match readLPBytes msg.buf with
      | (buf, b, n, some err) => ({ msg with buf := buf, protoName := b }, 0 + n, some err)
      | (buf, b, n, none) =>
      let msg := { msg with buf := buf, protoName := b }
      let total := 0 + n
      match ReadByte msg.buf with
      | (buf, v, some err) => ({ msg with buf := buf, version := v }, total, some err)
      | (buf, v, none) =>
      let msg := { msg with buf := buf, version := v }
      let total := total + 1
      match SupportedVersions msg.version with
      | none => (msg, total, some Error.ErrUnacceptableProtocolVersion)
      | some verstr =>
      if verstr ≠ msg.protoName then (msg, total, some Error.ErrUnacceptableProtocolVersion) else
      match ReadByte msg.buf with
      | (buf, f, some err) => ({ msg with buf := buf, connectFlags := f }, total, some err)
      | (buf, f, none) =>
      let msg := { msg with buf := buf, connectFlags := f }
      let total := total + 1
      if msg.connectFlags &&& 1 ≠ 0 then
        (msg, total, some (Error.Errorf "connect/decodeMessage: reserved bit")) else
      if msg.WillQos > QosExactlyOnce then
        (msg, total, some (Error.Errorf "connect/decodeMessage: Invalid QoS level")) else
      if ¬ msg.WillFlag ∧ (msg.WillRetain ∨ msg.WillQos ≠ QosAtMostOnce) then
        (msg, total, some (Error.Errorf "connect/decodeMessage: Protocol violation")) else
      if msg.UsernameFlag ∧ ¬ msg.PasswordFlag then
        (msg, total, some (Error.Errorf "connect/decodeMessage: Username flag")) else
      match readUint16 msg.buf with
      | (buf, k, some err) => ({ msg with buf := buf, keepAlive := k }, total, some err)
      | (buf, k, none) =>
      let msg := { msg with buf := buf, keepAlive := k }
      let total := total + 2
      match readLPBytes msg.buf with
      | (buf, b, n, some err) => ({ msg with buf := buf, clientId := b }, total + n, some err)
      | (buf, b, n, none) =>
      let msg := { msg with buf := buf, clientId := b }
      let total := total + n
      if msg.clientId.length = 0 ∧ ¬ msg.CleanSession then
        (msg, total, some Error.ErrIdentifierRejected) else
      if msg.clientId.length > 0 ∧ ¬ ValidClientId msg.clientId then
        (msg, total, some Error.ErrIdentifierRejected) else
      decodeOptional msg total) := rfl

theorem lpBytes_length (b : List Nat) : (lpBytes b).length = 2 + b.length := by
  simp [lpBytes]; omega

theorem tableName_length (v : Nat) : (tableName v).length ≤ 65535 := by
  unfold tableName; split <;> simp [MQIsdp, MQTT]

theorem SupportedVersions_eq (v : Nat) (hv : v = 3 ∨ v = 4) :
    SupportedVersions v = some (tableName v) := by
  rcases hv with rfl | rfl <;> rfl

theorem SupportedVersions_some {v : Nat} {name : List Nat} (h : SupportedVersions v = some name) :
    (v = 3 ∨ v = 4) ∧ name = tableName v := by
  unfold SupportedVersions at h
  by_cases h3 : v = 3
  · simp [h3] at h; simp [h3, tableName, h]
  · by_cases h4 : v = 4
    · simp [h4] at h; simp [h4, tableName, h]
    · simp [h3, h4] at h

theorem SupportedVersions_none {v : Nat} (h : SupportedVersions v = none) : ¬ (v = 3 ∨ v = 4) := by
  rintro (rfl | rfl) <;> simp [SupportedVersions] at h

theorem writeLPBytes_ok (buf b : List Nat) (h : b.length ≤ 65535) :
    writeLPBytes buf b = (buf ++ lpBytes b, 2 + b.length, none) := by
  simp [writeLPBytes, maxLPString, lpBytes, Nat.not_lt.mpr h]

theorem writeLPBytes_long (buf b : List Nat) (h : ¬ b.length ≤ 65535) :
    writeLPBytes buf b = (buf, 0, some (Error.Errorf "writeLPBytes")) := by
  simp [writeLPBytes, maxLPString, Nat.not_le.mp h]

theorem readLPBytes_lpBytes (b rest : List Nat) :
    readLPBytes (lpBytes b ++ rest) = (rest, b, 2 + b.length, none) := by
  have e : b.length / 256 * 256 + b.length % 256 = b.length := by omega
  simp [readLPBytes, lpBytes, e]

theorem readLPBytes_lpBytes_nil (b : List Nat) :
    readLPBytes (lpBytes b) = ([], b, 2 + b.length, none) := by
  have := readLPBytes_lpBytes b []
  simpa using this

theorem readLPBytes_len {buf buf1 b : List Nat} {n : Nat}
    (h : readLPBytes buf = (buf1, b, n, none)) : buf.length = n + buf1.length := by
  match buf, h with
  | [], h => simp [readLPBytes] at h
  | [_], h => simp [readLPBytes] at h
  | hi :: lo :: rest, h =>
    simp only [readLPBytes] at h
    by_cases c : rest.length < hi * 256 + lo
    · simp [c] at h
    · simp only [c, if_false, Prod.mk.injEq, and_true] at h
      obtain ⟨rfl, rfl, rfl⟩ := h
      simp [List.length_take]; omega

theorem readLPBytes_err {buf buf1 b : List Nat} {n : Nat} {e : Error}
    (h : readLPBytes buf = (buf1, b, n, some e)) : e = Error.Errorf "readLPBytes" := by
  match buf, h with
  | [], h => simp [readLPBytes] at h; exact h.2.2.2.symm
  | [_], h => simp [readLPBytes] at h; exact h.2.2.2.symm
  | hi :: lo :: rest, h =>
    simp only [readLPBytes] at h
    by_cases c : rest.length < hi * 256 + lo
    · simp [c] at h; exact h.2.2.2.symm
    · simp [c] at h

theorem willStage_ok (msg : ConnectMessage) (total : Nat) : StepOk msg total (willStage msg total) := by
  unfold willStage
  split
  · rcases h1 : readLPBytes msg.buf with ⟨b1, x1, n1, _ | e1⟩
    · have l1 := readLPBytes_len h1
      simp only
      rcases h2 : readLPBytes b1 with ⟨b2, x2, n2, _ | e2⟩
      · have l2 := readLPBytes_len h2
        constructor
        · intro _; simp only; omega
        · simp
      · have := readLPBytes_err h2
        subst this
        constructor <;> simp
    · have := readLPBytes_err h1
      subst this
      constructor <;> simp
  · constructor <;> simp

theorem userStage_ok (msg : ConnectMessage) (total : Nat) : StepOk msg total (userStage msg total) := by
  unfold userStage
  split
  · rcases h1 : readLPBytes msg.buf with ⟨b1, x1, n1, _ | e1⟩
    · have l1 := readLPBytes_len h1
      constructor
      · intro _; simp only; omega
      · simp
    · have := readLPBytes_err h1
      subst this
      constructor <;> simp
  · constructor <;> simp

theorem passStage_ok (msg : ConnectMessage) (total : Nat) : StepOk msg total (passStage msg total) := by
  unfold passStage
  split
  · rcases h1 : readLPBytes msg.buf with ⟨b1, x1, n1, _ | e1⟩
    · have l1 := readLPBytes_len h1
      constructor
      · intro _; simp only; omega
      · simp
    · have := readLPBytes_err h1
      subst this
      constructor <;> simp
  · constructor <;> simp

theorem endStage_ok (msg : ConnectMessage) (total : Nat) :
    StepOk msg total (endStage msg total) ∧
      ((endStage msg total).2.2 = none → (endStage msg total).1.buf = []) := by
  unfold endStage
  split
  · refine ⟨⟨?_, ?_⟩, ?_⟩ <;> simp
  · rename_i h
    have : msg.buf = [] := List.length_eq_zero.mp (by omega)
    refine ⟨⟨?_, ?_⟩, ?_⟩ <;> simp [this]

theorem andThen_ok {msg : ConnectMessage} {total : Nat} {r : Res} {k : ConnectMessage → Nat → Res}
    (hr : StepOk msg total r) (hk : ∀ m t, StepOk m t (k m t)) : StepOk msg total (andThen r k) := by
  obtain ⟨m1, t1, _ | e⟩ := r
  · have h1 := hr.1 rfl
    have h2 := hk m1 t1
    simp only [andThen]
    simp only at h1
    exact ⟨fun h => by have := h2.1 h; omega, h2.2⟩
  · simpa [andThen, StepOk] using hr.2

theorem andThen_empty {r : Res} {k : ConnectMessage → Nat → Res}
    (hk : ∀ m t, (k m t).2.2 = none → (k m t).1.buf = [])
    (h : (andThen r k).2.2 = none) : (andThen r k).1.buf = [] := by
  obtain ⟨m1, t1, _ | e⟩ := r
  · exact hk m1 t1 h
  · simp [andThen] at h

theorem decodeOptional_ok (msg : ConnectMessage) (total : Nat) :
    StepOk msg total (decodeOptional msg total) :=
  andThen_ok (willStage_ok msg total) fun m t =>
    andThen_ok (userStage_ok m t) fun m t =>
      andThen_ok (passStage_ok m t) fun m t => (endStage_ok m t).1

theorem decodeOptional_empty (msg : ConnectMessage) (total : Nat)
    (h : (decodeOptional msg total).2.2 = none) : (decodeOptional msg total).1.buf = [] :=
  andThen_empty (fun _ _ => andThen_empty (fun _ _ => andThen_empty (fun m t => (endStage_ok m t).2))) h

theorem ReadByte_len {buf buf1 : List Nat} {v : Nat}
    (h : ReadByte buf = (buf1, v, none)) : buf = v :: buf1 := by
  cases buf with
  | nil => simp [ReadByte] at h
  | cons b rest => simp [ReadByte] at h; simp [h]

theorem readUint16_len {buf buf1 : List Nat} {v : Nat}
    (h : readUint16 buf = (buf1, v, none)) : buf.length = 2 + buf1.length := by
  match buf, h with
  | [], h => simp [readUint16] at h
  | [_], h => simp [readUint16] at h
  | hi :: lo :: rest, h =>
    simp [readUint16] at h
    simp [h.1]; omega

theorem decodeMessage_consumes (msg : ConnectMessage) (h : (msg.decodeMessage).2.2 = none) :
    (msg.decodeMessage).2.1 = msg.buf.length ∧ (msg.decodeMessage).1.buf = [] := by
  rw [decodeMessage_unfold] at h ⊢
  rcases h1 : readLPBytes msg.buf with ⟨b1, pn, n1, _ | e1⟩
  swap
  · simp [h1] at h
  have l1 := readLPBytes_len h1
  simp only [h1] at h ⊢
  rcases h2 : ReadByte b1 with ⟨b2, v, _ | e2⟩
  swap
  · simp [h2] at h
  have l2 := ReadByte_len h2
  simp only [h2] at h ⊢
  rcases h3 : SupportedVersions v with _ | verstr
  · simp [h3] at h
  simp only [h3] at h ⊢
  split at h
  · simp at h
  rename_i hname
  simp only [hname, if_false] 
  rcases h4 : ReadByte b2 with ⟨b3, f, _ | e4⟩
  swap
  · simp [h4] at h
  have l4 := ReadByte_len h4
  simp only [h4] at h ⊢
  split at h
  · simp at h
  rename_i c1
  split at h
  · simp at h
  rename_i c2
  split at h
  · simp at h
  rename_i c3
  split at h
  · simp at h
  rename_i c4
  simp only [c1, c2, c3, c4, if_false]
  rcases h5 : readUint16 b3 with ⟨b4, k, _ | e5⟩
  swap
  · simp [h5] at h
  have l5 := readUint16_len h5
  simp only [h5] at h ⊢
  rcases h6 : readLPBytes b4 with ⟨b5, cid, n6, _ | e6⟩
  swap
  · simp [h6] at h
  have l6 := readLPBytes_len h6
  simp only [h6] at h ⊢
  split at h
  · simp at h
  rename_i c5
  split at h
  · simp at h
  rename_i c6
  simp only [c5, c6, if_false]
  have ok := (decodeOptional_ok _ _).1 h
  have em := decodeOptional_empty _ _ h
  refine ⟨?_, em⟩
  rw [em] at ok
  simp only [List.length_nil] at ok
  subst l2 l4
  simp only [List.length_cons] at l1
  omega

/-- First part of `decodeMessage` on a body that starts with a length-prefixed
name and a version byte that the table does not map to that name. -/
theorem decodeMessage_version (msg : ConnectMessage) (name rest : List Nat) (v : Nat)
    (hb : msg.buf = lpBytes name ++ v :: rest) (hbad : SupportedVersions v ≠ some name) :
    msg.decodeMessage =
      ({ msg with buf := rest, protoName := name, version := v }, 2 + name.length + 1,
        some Error.ErrUnacceptableProtocolVersion) := by
  obtain ⟨⟨remlen, mtype, flags, buf⟩, f0, v0, k0, pn0, cid0, wt0, wm0, un0, pw0⟩ := msg
  simp only at hb
  subst hb
  rw [decodeMessage_unfold]
  rcases hs : SupportedVersions v with _ | verstr
  · simp only [readLPBytes_lpBytes, ReadByte, hs, Nat.zero_add]
  · have hne : verstr ≠ name := fun e => hbad (by rw [hs, e])
    simp only [readLPBytes_lpBytes, ReadByte, hs, Nat.zero_add, ne_eq, hne, not_false_eq_true,
      if_true]

/-- A body that starts with a name, a version byte and a connect-flags byte is
accepted only if the table maps the version to the name and the flags byte
passes the four checks of lines 478-492. -/
theorem decodeMessage_accepts_flags (msg : ConnectMessage) (name rest : List Nat) (v f : Nat)
    (hb : msg.buf = lpBytes name ++ v :: f :: rest) (h : (msg.decodeMessage).2.2 = none) :
    SupportedVersions v = some name ∧ FlagRules { msg with connectFlags := f } := by
  by_cases hs : SupportedVersions v = some name
  swap
  · rw [decodeMessage_version msg name (f :: rest) v hb hs] at h
    simp at h
  refine ⟨hs, ?_⟩
  obtain ⟨⟨remlen, mtype, flags, buf⟩, f0, v0, k0, pn0, cid0, wt0, wm0, un0, pw0⟩ := msg
  simp only at hb
  subst hb
  rw [decodeMessage_unfold] at h
  simp only [readLPBytes_lpBytes, ReadByte, hs, Nat.zero_add, ne_eq, not_true_eq_false,
    if_false] at h
  split at h
  · simp at h
  rename_i c1
  split at h
  · simp at h
  rename_i c2
  split at h
  · simp at h
  rename_i c3
  split at h
  · simp at h
  rename_i c4
  exact ⟨by simpa using c1, c2, c3, c4⟩

/-- First part of `decodeMessage` on a body whose name, version and flags pass
their checks and whose client identifier is readable. -/
theorem decodeMessage_head (msg : ConnectMessage) (name cid rest : List Nat) (v f k1 k2 : Nat)
    (hb : msg.buf = lpBytes name ++ v :: f :: k1 :: k2 :: (lpBytes cid ++ rest))
    (hs : SupportedVersions v = some name) (hf : FlagRules { msg with connectFlags := f }) :
    msg.decodeMessage =
      if cid.length = 0 ∧ ¬ (f >>> 1 &&& 1 == 1) = true then
        ({ msg with buf := rest, protoName := name, version := v, connectFlags := f,
                    keepAlive := k1 * 256 + k2, clientId := cid },
          2 + name.length + 1 + 1 + 2 + (2 + cid.length), some Error.ErrIdentifierRejected)
      else if cid.length > 0 ∧ ¬ ValidClientId cid = true then
        ({ msg with buf := rest, protoName := name, version := v, connectFlags := f,
                    keepAlive := k1 * 256 + k2, clientId := cid },
          2 + name.length + 1 + 1 + 2 + (2 + cid.length), some Error.ErrIdentifierRejected)
      else
        decodeOptional
          { msg with buf := rest, protoName := name, version := v, connectFlags := f,
                     keepAlive := k1 * 256 + k2, clientId := cid }
          (2 + name.length + 1 + 1 + 2 + (2 + cid.length)) := by
  obtain ⟨⟨remlen, mtype, flags, buf⟩, f0, v0, k0, pn0, cid0, wt0, wm0, un0, pw0⟩ := msg
  obtain ⟨c1, c2, c3, c4⟩ := hf
  simp only [ConnectMessage.WillQos, ConnectMessage.WillFlag, ConnectMessage.WillRetain,
    ConnectMessage.UsernameFlag, ConnectMessage.PasswordFlag] at c1 c2 c3 c4
  simp only at hb
  subst hb
  rw [decodeMessage_unfold]
  simp only [readLPBytes_lpBytes, ReadByte, readUint16, hs, Nat.zero_add, ne_eq, not_true_eq_false,
    if_false, ConnectMessage.WillQos, ConnectMessage.WillFlag, ConnectMessage.WillRetain,
    ConnectMessage.UsernameFlag, ConnectMessage.PasswordFlag, ConnectMessage.CleanSession,
    c1, c2, c3, c4]

theorem lpBytes_append_pos (b rest : List Nat) : 0 < (lpBytes b ++ rest).length := by
  simp [lpBytes]

theorem lpBytes_pos (b : List Nat) : 0 < (lpBytes b).length := by
  simp [lpBytes]

/-- The optional sections of `decodeMessage` on the optional sections written
for `p`. -/
theorem decodeOptional_layout (m p : ConnectMessage) (total : Nat)
    (hb : m.buf = optionalLayout p) (hf : m.connectFlags = p.connectFlags) :
    decodeOptional m total =
      ({ m with
          buf := []
          willTopic := if p.WillFlag then p.willTopic else m.willTopic
          willMessage := if p.WillFlag then p.willMessage else m.willMessage
          username :=
            if p.UsernameFlag then
              if p.username.length > 0 then p.username
              else if p.PasswordFlag ∧ p.password.length > 0 then p.password else m.username
            else m.username
          password :=
            if p.PasswordFlag ∧ p.password.length > 0 ∧ ¬ (p.UsernameFlag ∧ ¬ p.username.length > 0)
            then p.password else m.password },
        total + (optionalLayout p).length, none) := by
  obtain ⟨⟨remlen, mtype, flags, buf⟩, f0, v0, k0, pn0, cid0, wt0, wm0, un0, pw0⟩ := m
  obtain ⟨⟨remlen1, mtype1, flags1, buf1⟩, f, v, k, pn, cid, wt, wm, un, pw⟩ := p
  simp only at hb hf
  subst hb hf
  by_cases hw : (f0 >>> 2 &&& 1 == 1) = true <;>
  by_cases hu : (f0 >>> 7 &&& 1 == 1) = true <;>
  by_cases hp : (f0 >>> 6 &&& 1 == 1) = true <;>
  by_cases hun : un.length > 0 <;>
  by_cases hpn : pw.length > 0 <;>
  simp only [decodeOptional, andThen, willStage, userStage, passStage, endStage, optionalLayout,
    ConnectMessage.WillFlag, ConnectMessage.UsernameFlag, ConnectMessage.PasswordFlag,
    hw, hu, hp, hun, hpn, true_and, and_true, false_and, and_false, and_self, if_true, if_false,
    Bool.false_eq_true, not_true_eq_false, not_false_eq_true,
    readLPBytes_lpBytes, readLPBytes_lpBytes_nil, List.append_nil, List.nil_append,
    List.append_assoc, lpBytes_append_pos, lpBytes_pos, List.length_nil, gt_iff_lt,
    Nat.lt_irrefl] <;>
  simp only [Prod.mk.injEq, true_and, and_true, List.length_append, lpBytes_length,
    List.length_nil] <;>
  omega

theorem FlagRules_congr (a b : ConnectMessage) (h : a.connectFlags = b.connectFlags)
    (ha : FlagRules a) : FlagRules b := by
  obtain ⟨_, fa, _, _, _, _, _, _, _, _⟩ := a
  obtain ⟨_, fb, _, _, _, _, _, _, _, _⟩ := b
  simp only at h
  subst h
  exact ⟨ha.1, ha.2, ha.3, ha.4⟩

theorem bodyLayout_length (p : ConnectMessage) :
    (bodyLayout p).length
      = 2 + (tableName p.version).length + 1 + 1 + 2 + (2 + p.clientId.length)
        + (optionalLayout p).length := by
  simp only [bodyLayout, List.length_append, List.length_cons, lpBytes_length]
  omega

/-- Decoding the body laid out for `p`, when `p` passes the decoder's checks. -/
theorem decodeMessage_layout (m p : ConnectMessage) (hb : m.buf = bodyLayout p)
    (hv : p.version = 3 ∨ p.version = 4) (hf : FlagRules p) (hc : ClientIdRules p) :
    m.decodeMessage = (decodedFrom m p, (bodyLayout p).length, none) := by
  have hf1 : FlagRules { m with connectFlags := p.connectFlags } := FlagRules_congr p _ rfl hf
  rw [decodeMessage_head m (tableName p.version) p.clientId (optionalLayout p) p.version
    p.connectFlags (p.keepAlive / 256 % 256) (p.keepAlive % 256) hb (SupportedVersions_eq _ hv) hf1]
  obtain ⟨c1, c2⟩ := hc
  simp only [ConnectMessage.CleanSession] at c1
  rw [if_neg c1, if_neg c2, bodyLayout_length]
  exact decodeOptional_layout _ p _ rfl rfl

/-- A body laid out for `p` is accepted only if `p` passes the decoder's
checks. -/
theorem decodeMessage_layout_accepts (m p : ConnectMessage) (hb : m.buf = bodyLayout p)
    (hv : p.version = 3 ∨ p.version = 4) (h : (m.decodeMessage).2.2 = none) :
    FlagRules p ∧ ClientIdRules p := by
  have hf1 := (decodeMessage_accepts_flags m (tableName p.version) _ p.version p.connectFlags hb h).2
  have hf : FlagRules p := FlagRules_congr { m with connectFlags := p.connectFlags } p rfl hf1
  refine ⟨hf, ?_⟩
  rw [decodeMessage_head m (tableName p.version) p.clientId (optionalLayout p) p.version
    p.connectFlags (p.keepAlive / 256 % 256) (p.keepAlive % 256) hb (SupportedVersions_eq _ hv) hf1] at h
  by_cases c1 : p.clientId.length = 0 ∧ ¬ (p.connectFlags >>> 1 &&& 1 == 1) = true
  · rw [if_pos c1] at h
    simp at h
  rw [if_neg c1] at h
  by_cases c2 : p.clientId.length > 0 ∧ ¬ ValidClientId p.clientId = true
  · rw [if_pos c2] at h
    simp at h
  exact ⟨c1, c2⟩

theorem encodeMessage_eq (msg : ConnectMessage) (hv : msg.version = 3 ∨ msg.version = 4)
    (hfit : WrittenFit msg) :
    msg.encodeMessage
      = ({ msg with buf := msg.buf ++ bodyLayout msg }, (bodyLayout msg).length, none) := by
  obtain ⟨h1, h2, h3, h4, h5⟩ := hfit
  obtain ⟨⟨remlen, mtype, flags, buf⟩, f, v, k, pn, cid, wt, wm, un, pw⟩ := msg
  simp only [ConnectMessage.WillFlag, ConnectMessage.UsernameFlag,
    ConnectMessage.PasswordFlag] at hv h1 h2 h3 h4 h5
  by_cases hw : (f >>> 2 &&& 1 == 1) = true <;>
  by_cases hu : (f >>> 7 &&& 1 == 1) = true <;>
  by_cases hp : (f >>> 6 &&& 1 == 1) = true <;>
  by_cases hun : un.length > 0 <;>
  by_cases hpn : pw.length > 0 <;>
  simp only [ConnectMessage.encodeMessage, SupportedVersions_eq _ hv,
    writeLPBytes_ok, tableName_length, h1, h2, h3, h4, h5, writeUint16, WriteByte,
    ConnectMessage.WillFlag, ConnectMessage.UsernameFlag, ConnectMessage.PasswordFlag, bodyLayout,
    optionalLayout,
    hw, hu, hp, hun, hpn, true_and, and_true, false_and, and_false, and_self, if_true, if_false,
    Bool.false_eq_true] <;>
  simp only [List.append_assoc, List.length_append, lpBytes_length, List.length_cons,
    List.length_nil, List.append_nil, Prod.mk.injEq, and_true, true_and, List.cons_append,
    List.nil_append, List.singleton_append] <;>
  omega

theorem Encode_unfold (msg : ConnectMessage) :
    msg.Encode =
      if msg.Type ≠ CONNECT then
        (msg, none, 0, some (Error.Errorf "connect/Encode: Invalid message type"))
      else
      match SupportedVersions msg.version with
      | none => (msg, none, 0, some (Error.Errorf "connect/Encode: Unsupported protocol version"))
      | some verstr =>
      match msg.tofixedHeader.SetRemainingLength (toInt32 (encodeTotal msg verstr)) with
      | (_, some err) => (msg, none, 0, some err)
      | (h, none) =>
      let msg := { msg with tofixedHeader := h }
      let total := 0
      match msg.tofixedHeader.Encode with
      | (h, _, n, some err) => ({ msg with tofixedHeader := h }, none, total + n, some err)
      | (h, _, n, none) =>
      let msg := { msg with tofixedHeader := h }
      let total := total + n
      match msg.encodeMessage with
      | (msg, n, some err) => (msg, none, total + n, some err)
      | (msg, n, none) => (msg, some msg.buf, total + n, none) := rfl

theorem encodeTotal_eq (msg : ConnectMessage) :
    encodeTotal msg (tableName msg.version) = bodySize msg := by
  unfold encodeTotal bodySize
  simp only
  split <;> split <;> split <;> omega

theorem optionalLayout_length (msg : ConnectMessage) :
    (optionalLayout msg).length
      = (if msg.WillFlag then 2 + msg.willTopic.length + 2 + msg.willMessage.length else 0)
        + (if msg.UsernameFlag ∧ msg.username.length > 0 then 2 + msg.username.length else 0)
        + (if msg.PasswordFlag ∧ msg.password.length > 0 then 2 + msg.password.length else 0) := by
  unfold optionalLayout
  split <;> split <;> split <;>
  simp only [List.length_append, lpBytes_length, List.length_nil] <;> omega

theorem bodySize_eq_length (msg : ConnectMessage) : bodySize msg = (bodyLayout msg).length := by
  rw [bodyLayout_length, optionalLayout_length]
  unfold bodySize
  omega

theorem bodySize_le (msg : ConnectMessage) (hfit : WrittenFit msg) : bodySize msg ≤ 327699 := by
  obtain ⟨h1, h2, h3, h4, h5⟩ := hfit
  have ht := tableName_length msg.version
  have ht6 : (tableName msg.version).length ≤ 6 := by
    unfold tableName; split <;> simp [MQIsdp, MQTT]
  unfold bodySize
  split <;> split <;> split <;> simp_all <;> omega

theorem toInt32_small (n : Nat) (h : n < 2147483648) : toInt32 n = (n : Int) := by
  unfold toInt32
  have e : n % 4294967296 = n := Nat.mod_eq_of_lt (by omega)
  rw [e, if_pos h]

theorem SetRemainingLength_ok (h : fixedHeader) (n : Nat) (hn : n ≤ 268435455) :
    h.SetRemainingLength (n : Int) = ({ h with remlen := (n : Int) }, none) := by
  unfold fixedHeader.SetRemainingLength maxRemainingLength
  rw [if_neg]
  omega

theorem fixedHeader_Encode_ok (h : fixedHeader) (n : Nat) (hr : h.remlen = (n : Int))
    (hn : n ≤ 268435455) :
    h.Encode = ({ h with buf := headerBytes h.mtype h.flags n },
      some (headerBytes h.mtype h.flags n), (headerBytes h.mtype h.flags n).length, none) := by
  unfold fixedHeader.Encode maxRemainingLength
  rw [if_neg (by omega)]
  simp only [hr, Int.toNat_ofNat, headerBytes]

/-- What `Encode` returns for a CONNECT message with a supported version whose
written byte strings fit their length prefix. -/
theorem Encode_eq (msg : ConnectMessage) (ht : msg.Type = CONNECT)
    (hv : msg.version = 3 ∨ msg.version = 4) (hfit : WrittenFit msg) :
    msg.Encode =
      ({ msg with
          remlen := (bodySize msg : Int)
          buf := headerBytes msg.mtype msg.flags (bodySize msg) ++ bodyLayout msg },
        some (headerBytes msg.mtype msg.flags (bodySize msg) ++ bodyLayout msg),
        (headerBytes msg.mtype msg.flags (bodySize msg)).length + bodySize msg, none) := by
  have hle := bodySize_le msg hfit
  have hem := encodeMessage_eq { msg with
      remlen := (bodySize msg : Int), buf := headerBytes msg.mtype msg.flags (bodySize msg) } hv
    ⟨hfit.1, hfit.2, hfit.3, hfit.4, hfit.5⟩
  rw [Encode_unfold, if_neg (not_not.mpr ht), SupportedVersions_eq _ hv]
  simp only [encodeTotal_eq, toInt32_small _ (show bodySize msg < 2147483648 by omega),
    SetRemainingLength_ok _ _ (show bodySize msg ≤ 268435455 by omega)]
  rw [fixedHeader_Encode_ok _ (bodySize msg) rfl (by omega)]
  obtain ⟨⟨remlen, mtype, flags, buf⟩, f, v, k, pn, cid, wt, wm, un, pw⟩ := msg
  simp only [Nat.zero_add] at hem ⊢
  rw [hem, bodySize_eq_length]
  rfl

/-- `encodeMessage` succeeds only on a supported version with byte strings that
fit their length prefix. -/
theorem encodeMessage_accepts (msg : ConnectMessage) (h : (msg.encodeMessage).2.2 = none) :
    (msg.version = 3 ∨ msg.version = 4) ∧ WrittenFit msg := by
  obtain ⟨⟨remlen, mtype, flags, buf⟩, f, v, k, pn, cid, wt, wm, un, pw⟩ := msg
  rcases hs : SupportedVersions v with _ | verstr
  · simp [ConnectMessage.encodeMessage, hs] at h
  obtain ⟨hv, rfl⟩ := SupportedVersions_some hs
  refine ⟨hv, ?_⟩
  by_cases h1 : cid.length ≤ 65535
  swap
  · simp [ConnectMessage.encodeMessage, hs, writeLPBytes_ok, tableName_length, writeUint16,
      WriteByte, writeLPBytes_long _ _ h1] at h
  have h2 : (f >>> 2 &&& 1 == 1) = true → wt.length ≤ 65535 := by
    intro hw
    by_contra c
    simp only [ConnectMessage.encodeMessage, hs, writeLPBytes_ok, tableName_length, writeUint16,
      WriteByte, h1, ConnectMessage.WillFlag, hw, if_true, writeLPBytes_long _ _ c] at h
    simp at h
  have h3 : (f >>> 2 &&& 1 == 1) = true → wm.length ≤ 65535 := by
    intro hw
    by_contra c
    simp only [ConnectMessage.encodeMessage, hs, writeLPBytes_ok, tableName_length, writeUint16,
      WriteByte, h1, h2, ConnectMessage.WillFlag, hw, if_true, writeLPBytes_long _ _ c] at h
    simp at h
  have h4 : (f >>> 7 &&& 1 == 1) = true → un.length ≤ 65535 := by
    intro hu
    by_contra c
    have hun : un.length > 0 := by omega
    by_cases hw : (f >>> 2 &&& 1 == 1) = true <;>
    simp only [ConnectMessage.encodeMessage, hs, writeLPBytes_ok, tableName_length, writeUint16,
      WriteByte, h1, h2, h3, ConnectMessage.WillFlag, ConnectMessage.UsernameFlag, hw, hu, hun,
      and_self, if_true, if_false, Bool.false_eq_true, writeLPBytes_long _ _ c] at h <;>
    simp at h
  have h5 : (f >>> 6 &&& 1 == 1) = true → pw.length ≤ 65535 := by
    intro hp
    by_contra c
    have hpn : pw.length > 0 := by omega
    by_cases hw : (f >>> 2 &&& 1 == 1) = true <;>
    by_cases hu : (f >>> 7 &&& 1 == 1) = true <;>
    by_cases hun : un.length > 0 <;>
    simp only [ConnectMessage.encodeMessage, hs, writeLPBytes_ok, tableName_length, writeUint16,
      WriteByte, h1, h2, h3, h4, ConnectMessage.WillFlag, ConnectMessage.UsernameFlag,
      ConnectMessage.PasswordFlag, hw, hu, hp, hun, hpn,
      and_self, and_true, true_and, false_and, and_false, if_true, if_false, Bool.false_eq_true,
      writeLPBytes_long _ _ c] at h <;>
    simp at h
  exact ⟨h1, h2, h3, h4, h5⟩

/-- `Encode` succeeds only on a CONNECT message with a supported version whose
written byte strings fit their length prefix. -/
theorem Encode_accepts (msg : ConnectMessage) (h : (msg.Encode).2.2.2 = none) :
    msg.Type = CONNECT ∧ (msg.version = 3 ∨ msg.version = 4) ∧ WrittenFit msg := by
  rw [Encode_unfold] at h
  by_cases ht : msg.Type = CONNECT
  swap
  · rw [if_pos ht] at h
    simp at h
  rw [if_neg (not_not.mpr ht)] at h
  rcases hs : SupportedVersions msg.version with _ | verstr
  · simp [hs] at h
  obtain ⟨hv, rfl⟩ := SupportedVersions_some hs
  refine ⟨ht, hv, ?_⟩
  simp only [hs] at h
  rcases h1 : msg.tofixedHeader.SetRemainingLength (toInt32 (encodeTotal msg (tableName msg.version)))
    with ⟨hd1, _ | e1⟩
  swap
  · simp [h1] at h
  simp only [h1] at h
  rcases h2 : fixedHeader.Encode hd1 with ⟨hd2, r2, n2, _ | e2⟩
  swap
  · simp [h2] at h
  simp only [h2] at h
  rcases h3 : ConnectMessage.encodeMessage { msg with tofixedHeader := hd2 } with ⟨m3, n3, _ | e3⟩
  swap
  · simp [h3] at h
  have := (encodeMessage_accepts { msg with tofixedHeader := hd2 } (by rw [h3])).2
  exact ⟨this.1, this.2, this.3, this.4, this.5⟩

theorem decodeRemlen_encodeRemlen (k : Nat) :
    ∀ (v w acc cnt : Nat) (rest : List Nat), v < 128 ^ (k + 1) →
      decodeRemlen (k + 1) w acc cnt (encodeRemlen (k + 1) v ++ rest)
        = some (acc + v * w, cnt + (encodeRemlen (k + 1) v).length, rest) := by
  induction k with
  | zero =>
    intro v w acc cnt rest hv
    have hv1 : v < 128 := by simpa using hv
    simp [encodeRemlen, decodeRemlen, hv1]
  | succ k ih =>
    intro v w acc cnt rest hv
    by_cases hv1 : v < 128
    · simp [encodeRemlen, decodeRemlen, hv1]
    · have hdiv : v / 128 < 128 ^ (k + 1) := by
        rw [Nat.div_lt_iff_lt_mul (by norm_num)]
        calc v < 128 ^ (k + 1 + 1) := hv
          _ = 128 ^ (k + 1) * 128 := by ring
      have hb : ¬ (v % 128 + 128 < 128) := by omega
      have hmod : (v % 128 + 128) % 128 = v % 128 := by omega
      have hval : acc + v % 128 * w + v / 128 * (w * 128) = acc + v * w := by
        have := Nat.div_add_mod v 128
        calc acc + v % 128 * w + v / 128 * (w * 128)
            = acc + (128 * (v / 128) + v % 128) * w := by ring
          _ = acc + v * w := by rw [this]
      rw [encodeRemlen, if_neg hv1, List.cons_append, decodeRemlen, if_neg hb, hmod,
        ih _ _ _ _ _ hdiv, hval]
      simp only [List.length_cons]
      congr 3
      omega

theorem fixedHeader_Decode_headerBytes (DefaultFlags : Nat → Nat) (h : fixedHeader)
    (mtype flags n : Nat) (body : List Nat) (hn : n ≤ 268435455) (hlen : body.length = n)
    (hacc : (h.Decode DefaultFlags (headerBytes mtype flags n ++ body)).2.2 = none) :
    h.Decode DefaultFlags (headerBytes mtype flags n ++ body)
      = ({ remlen := (n : Int), mtype := ((mtype <<< 4 ||| flags) % 256) >>> 4,
           flags := ((mtype <<< 4 ||| flags) % 256) &&& 15, buf := body },
         (headerBytes mtype flags n).length, none) := by
  have hr := decodeRemlen_encodeRemlen 3 n 1 0 0 body (by norm_num; omega)
  simp only [Nat.zero_add, Nat.mul_one] at hr
  simp only [headerBytes, List.cons_append, fixedHeader.Decode, hr] at hacc ⊢
  split at hacc
  · simp at hacc
  rename_i c
  rw [if_neg c]
  simp only [hlen, Nat.lt_irrefl, if_false, List.length_cons]
  have : List.take n body = body := by rw [← hlen]; exact List.take_length body
  rw [this, Nat.add_comm]

theorem optionalLayout_decodedFrom (m p : ConnectMessage) (hmu : m.username = [])
    (hmp : m.password = []) : optionalLayout (decodedFrom m p) = optionalLayout p := by
  obtain ⟨⟨remlen, mtype, flags, buf⟩, f0, v0, k0, pn0, cid0, wt0, wm0, un0, pw0⟩ := m
  obtain ⟨⟨remlen1, mtype1, flags1, buf1⟩, f, v, k, pn, cid, wt, wm, un, pw⟩ := p
  simp only at hmu hmp
  subst hmu hmp
  by_cases hw : (f >>> 2 &&& 1 == 1) = true <;>
  by_cases hu : (f >>> 7 &&& 1 == 1) = true <;>
  by_cases hp : (f >>> 6 &&& 1 == 1) = true <;>
  by_cases hun : un.length > 0 <;>
  by_cases hpn : pw.length > 0 <;>
  simp only [optionalLayout, decodedFrom, ConnectMessage.WillFlag, ConnectMessage.UsernameFlag,
    ConnectMessage.PasswordFlag, hw, hu, hp, hun, hpn, true_and, and_true, false_and, and_false,
    and_self, if_true, if_false, Bool.false_eq_true, not_true_eq_false, not_false_eq_true,
    List.length_nil, gt_iff_lt, Nat.lt_irrefl, List.append_nil, List.nil_append]

theorem bodyLayout_decodedFrom (m p : ConnectMessage) (hmu : m.username = [])
    (hmp : m.password = []) : bodyLayout (decodedFrom m p) = bodyLayout p := by
  have ho := optionalLayout_decodedFrom m p hmu hmp
  have hk1 : (p.keepAlive / 256 % 256 * 256 + p.keepAlive % 256) / 256 % 256
      = p.keepAlive / 256 % 256 := by omega
  have hk2 : (p.keepAlive / 256 % 256 * 256 + p.keepAlive % 256) % 256 = p.keepAlive % 256 := by
    omega
  unfold bodyLayout
  rw [ho]
  simp only [decodedFrom, hk1, hk2]

theorem WrittenFit_decodedFrom (m p : ConnectMessage) (hmu : m.username = [])
    (hmp : m.password = []) (hfit : WrittenFit p) : WrittenFit (decodedFrom m p) := by
  obtain ⟨h1, h2, h3, h4, h5⟩ := hfit
  obtain ⟨⟨remlen, mtype, flags, buf⟩, f0, v0, k0, pn0, cid0, wt0, wm0, un0, pw0⟩ := m
  obtain ⟨⟨remlen1, mtype1, flags1, buf1⟩, f, v, k, pn, cid, wt, wm, un, pw⟩ := p
  simp only [ConnectMessage.WillFlag, ConnectMessage.UsernameFlag,
    ConnectMessage.PasswordFlag] at hmu hmp h1 h2 h3 h4 h5
  subst hmu hmp
  refine ⟨h1, ?_, ?_, ?_, ?_⟩ <;>
  simp only [decodedFrom, ConnectMessage.WillFlag, ConnectMessage.UsernameFlag,
    ConnectMessage.PasswordFlag] <;>
  intro hflag <;>
  simp only [hflag, if_true]
  · exact h2 hflag
  · exact h3 hflag
  · split
    · exact h4 hflag
    · split
      · rename_i c; exact h5 c.1
      · simp
  · split
    · exact h5 hflag
    · simp

theorem headerByte_roundtrip (flags : Nat) (h : flags < 16) :
    ((CONNECT <<< 4 ||| flags) % 256) >>> 4 = CONNECT ∧
      ((CONNECT <<< 4 ||| flags) % 256) &&& 15 = flags := by
  unfold CONNECT
  interval_cases flags <;> decide

theorem FieldsFit.written {msg : ConnectMessage} (h : FieldsFit msg) : WrittenFit msg :=
  ⟨h.1, fun _ => h.2, fun _ => h.3, fun _ => h.4, fun _ => h.5⟩

/-! ## The claims -/

/-- C1 as stated fails: the message `passwordOnly` (username and password flags
set, empty username, password "x") meets every condition of the round-trip
claim, yet decoding its encoded body gives the username "x" and an empty
password. -/
theorem connect_roundtrip_counterexample :
    RoundTripInput passwordOnly ∧ ¬ RoundTrips passwordOnly ∧
      (ConnectMessage.decodeMessage
        { NewConnectMessage with buf := encodedBody passwordOnly }).1.username = [120] ∧
      (ConnectMessage.decodeMessage
        { NewConnectMessage with buf := encodedBody passwordOnly }).1.password = [] := by
  decide

/-- C1 (amended): for every message of the round-trip claim whose password is
empty whenever its username flag is set and its username is empty, decoding
the body written by `encodeMessage` into a fresh `ConnectMessage` succeeds and
yields the same version, connect flags, keep-alive, client id, will topic,
will message, username and password. -/
theorem connect_roundtrip (p : ConnectMessage) (hp : RoundTripInput p)
    (hup : p.UsernameFlag = true → p.username = [] → p.password = []) : RoundTrips p := by
  obtain ⟨hv, r1, r2, r3, r4, hcid, hwill, huser, hpass, hk, l1, l2, l3, l4, l5⟩ := hp
  have hfit : WrittenFit { p with buf := [] } := FieldsFit.written ⟨l1, l2, l3, l4, l5⟩
  have henc := encodeMessage_eq { p with buf := [] } hv hfit
  have hbody : encodedBody p = bodyLayout p := by
    unfold encodedBody
    rw [henc]
    rfl
  have hfr : FlagRules p := by
    refine ⟨r1, ?_, ?_, ?_⟩
    · unfold QosExactlyOnce; omega
    · rintro ⟨hw, hx⟩
      have hw1 : p.WillFlag = false := by simpa using hw
      obtain ⟨q0, rt⟩ := r3 hw1
      rcases hx with hx | hx
      · rw [rt] at hx; exact absurd hx (by decide)
      · exact hx q0
    · rintro ⟨hu, hx⟩
      exact hx (r4 hu)
  have hcr : ClientIdRules p := by
    rcases hcid with ⟨hne, hval⟩ | ⟨hemp, hclean⟩
    · refine ⟨?_, ?_⟩
      · rintro ⟨h0, -⟩
        exact hne (List.length_eq_zero.mp h0)
      · rintro ⟨-, hx⟩
        exact hx hval
    · refine ⟨?_, ?_⟩
      · rintro ⟨-, hx⟩
        exact hx hclean
      · rintro ⟨hpos, -⟩
        rw [hemp] at hpos
        exact absurd hpos (by decide)
  have hdec := decodeMessage_layout { NewConnectMessage with buf := encodedBody p } p hbody hv hfr hcr
  have hkeep : p.keepAlive / 256 % 256 * 256 + p.keepAlive % 256 = p.keepAlive := by omega
  unfold RoundTrips
  rw [hdec, henc]
  refine ⟨rfl, rfl, rfl, rfl, hkeep, rfl, ?_, ?_, ?_, ?_⟩
  · show (if p.WillFlag = true then p.willTopic else []) = p.willTopic
    split
    · rfl
    · rename_i c
      exact ((hwill (by simpa using c)).1).symm
  · show (if p.WillFlag = true then p.willMessage else []) = p.willMessage
    split
    · rfl
    · rename_i c
      exact ((hwill (by simpa using c)).2).symm
  · show (if p.UsernameFlag = true then
        if p.username.length > 0 then p.username
        else if p.PasswordFlag = true ∧ p.password.length > 0 then p.password else []
      else []) = p.username
    split
    · rename_i hu
      split
      · rfl
      · rename_i c
        have hun : p.username = [] := List.length_eq_zero.mp (by omega)
        have hpw := hup hu hun
        rw [hun, hpw]
        simp
    · rename_i c
      exact (huser (by simpa using c)).symm
  · show (if p.PasswordFlag = true ∧ p.password.length > 0 ∧
          ¬ (p.UsernameFlag = true ∧ ¬ p.username.length > 0) then p.password else [])
        = p.password
    split
    · rfl
    · rename_i c
      by_cases hpf : p.PasswordFlag = true
      · by_cases hpn : p.password.length > 0
        · have hx : p.UsernameFlag = true ∧ ¬ p.username.length > 0 := by
            by_contra hx
            exact c ⟨hpf, hpn, hx⟩
          have hun : p.username = [] := List.length_eq_zero.mp (by omega)
          exact (hup hx.1 hun).symm
        · exact (List.length_eq_zero.mp (by omega)).symm
      · exact (hpass (by simpa using hpf)).symm

/-- C1 witness: the message `sampleConnect`, which carries every optional
section, meets the conditions and round-trips. -/
theorem connect_roundtrip_witness :
    RoundTripInput sampleConnect ∧
      (sampleConnect.UsernameFlag = true → sampleConnect.username = [] →
        sampleConnect.password = []) ∧
      RoundTrips sampleConnect :=
  ⟨by decide, by decide, connect_roundtrip sampleConnect (by decide) (by decide)⟩

/-- C2: a CONNECT message `p` (with a 4-bit flags nibble in its fixed header)
on which `Encode` succeeds and whose encoded bytes `Decode` accepts into a
fresh message `q`: `q.Encode` succeeds and returns the same byte sequence and
the same byte count as `p.Encode`. -/
theorem connect_reencode_identical (DefaultFlags : Nat → Nat) (p p1 q : ConnectMessage)
    (out : List Nat) (n m : Nat) (hflags : p.flags < 16)
    (he : p.Encode = (p1, some out, n, none))
    (hd : NewConnectMessage.Decode DefaultFlags out = (q, m, none)) :
    ∃ q1, q.Encode = (q1, some out, n, none) := by
  obtain ⟨ht, hv, hfit⟩ := Encode_accepts p (by rw [he])
  have hle := bodySize_le p hfit
  rw [Encode_eq p ht hv hfit] at he
  simp only [Prod.mk.injEq, Option.some.injEq, and_true] at he
  obtain ⟨-, hout, hn⟩ := he
  have hmt : p.mtype = CONNECT := ht
  obtain ⟨hb1, hb2⟩ := headerByte_roundtrip p.flags hflags
  -- the fixed header is read back
  unfold ConnectMessage.Decode at hd
  rw [← hout] at hd
  rcases hh : fixedHeader.Decode DefaultFlags NewConnectMessage.tofixedHeader
      (headerBytes p.mtype p.flags (bodySize p) ++ bodyLayout p) with ⟨h1, n1, _ | e1⟩
  swap
  · simp [hh] at hd
  have hh2 := fixedHeader_Decode_headerBytes DefaultFlags NewConnectMessage.tofixedHeader p.mtype
    p.flags (bodySize p) (bodyLayout p) (by omega) (bodySize_eq_length p).symm (by rw [hh])
  rw [hh2] at hd
  simp only [hmt, hb1, hb2] at hd
  -- the body is read back
  rcases hdm : ConnectMessage.decodeMessage
      { NewConnectMessage with
        tofixedHeader := { remlen := (bodySize p : Int), mtype := CONNECT, flags := p.flags,
                           buf := bodyLayout p } } with ⟨q0, n0, _ | e0⟩
  swap
  · simp [hdm] at hd
  obtain ⟨hfr, hcr⟩ := decodeMessage_layout_accepts _ p rfl hv (by rw [hdm])
  rw [decodeMessage_layout _ p rfl hv hfr hcr] at hdm hd
  simp only [Prod.mk.injEq, and_true] at hd
  obtain ⟨hq, -⟩ := hd
  -- the decoded message is encoded again
  have hqfit := WrittenFit_decodedFrom
    { NewConnectMessage with
      tofixedHeader := { remlen := (bodySize p : Int), mtype := CONNECT, flags := p.flags,
                         buf := bodyLayout p } } p rfl rfl hfit
  have hql := bodyLayout_decodedFrom
    { NewConnectMessage with
      tofixedHeader := { remlen := (bodySize p : Int), mtype := CONNECT, flags := p.flags,
                         buf := bodyLayout p } } p rfl rfl
  rw [hq] at hqfit hql
  have hqs : bodySize q = bodySize p := by
    rw [bodySize_eq_length, bodySize_eq_length, hql]
  have hqt : q.mtype = CONNECT := by rw [← hq]; rfl
  have hqf : q.flags = p.flags := by rw [← hq]; rfl
  have hqv : q.version = 3 ∨ q.version = 4 := by rw [← hq]; exact hv
  rw [Encode_eq q hqt hqv hqfit, hqs, hql, hqt, hqf, ← hmt, hout, hn]
  exact ⟨_, rfl⟩

/-- C2 witness: `passwordOnly` encodes to 19 bytes, `Decode` accepts them into a
fresh message (reading the password as the username), and that message
encodes to the same 19 bytes. -/
theorem connect_reencode_identical_witness :
    passwordOnly.flags < 16 ∧
      passwordOnly.Encode = (passwordOnly.Encode.1, some passwordOnlyBytes, 19, none) ∧
      NewConnectMessage.Decode (fun _ => 0) passwordOnlyBytes
        = ((NewConnectMessage.Decode (fun _ => 0) passwordOnlyBytes).1, 19, none) ∧
      ∃ q1, (NewConnectMessage.Decode (fun _ => 0) passwordOnlyBytes).1.Encode
        = (q1, some passwordOnlyBytes, 19, none) :=
  ⟨by decide, by decide, by decide,
    connect_reencode_identical (fun _ => 0) passwordOnly passwordOnly.Encode.1
      (NewConnectMessage.Decode (fun _ => 0) passwordOnlyBytes).1 passwordOnlyBytes 19 19
      (by decide) (by decide) (by decide)⟩

/-- C3: for a CONNECT message with a supported version and byte strings of at
most 65535 bytes, `Encode` succeeds, the Remaining Length it sets is the sum
`bodySize` (length-prefixed protocol name, 1 + 1 + 2, length-prefixed client
id, and the optional sections that are present), that sum is the number of
bytes `encodeMessage` then writes and the count it returns, and the count
`Encode` returns is the fixed-header size plus that sum. -/
theorem Encode_remaining_length (msg : ConnectMessage) (ht : msg.Type = CONNECT)
    (hv : msg.version = 3 ∨ msg.version = 4) (hfit : FieldsFit msg) :
    (msg.Encode).2.2.2 = none ∧
      (msg.Encode).1.remlen = (bodySize msg : Int) ∧
      (msg.Encode).2.1
        = some (headerBytes msg.mtype msg.flags (bodySize msg) ++ bodyLayout msg) ∧
      (bodyLayout msg).length = bodySize msg ∧
      ConnectMessage.encodeMessage
          { msg with
            remlen := (bodySize msg : Int)
            buf := headerBytes msg.mtype msg.flags (bodySize msg) }
        = ((msg.Encode).1, bodySize msg, none) ∧
      (msg.Encode).2.2.1 = (headerBytes msg.mtype msg.flags (bodySize msg)).length + bodySize msg := by
  have hem := encodeMessage_eq { msg with
      remlen := (bodySize msg : Int), buf := headerBytes msg.mtype msg.flags (bodySize msg) } hv
    ⟨hfit.1, fun _ => hfit.2, fun _ => hfit.3, fun _ => hfit.4, fun _ => hfit.5⟩
  rw [Encode_eq msg ht hv hfit.written]
  refine ⟨rfl, rfl, rfl, (bodySize_eq_length msg).symm, ?_, rfl⟩
  rw [hem, bodySize_eq_length]
  rfl

/-- C3 witness: `sampleConnect` has type CONNECT, version 4 and short fields;
its Remaining Length is 26. -/
theorem Encode_remaining_length_witness :
    sampleConnect.Type = CONNECT ∧ bodySize sampleConnect = 26 ∧
      (sampleConnect.Encode).1.remlen = (bodySize sampleConnect : Int) ∧
      (sampleConnect.Encode).2.2.1
        = (headerBytes sampleConnect.mtype sampleConnect.flags (bodySize sampleConnect)).length
          + bodySize sampleConnect :=
  have h := Encode_remaining_length sampleConnect (by decide) (by decide)
    ⟨by decide, by decide, by decide, by decide, by decide⟩
  ⟨by decide, by decide, h.2.1, h.2.2.2.2.2⟩

/-- C4: for a message with a supported version and byte strings of at most
65535 bytes, `encodeMessage` succeeds and appends exactly `bodyLayout`: the
length-prefixed protocol name of the version ("MQIsdp" for 3, "MQTT" for 4),
the version byte, the connect-flags byte, the keep-alive as 2 big-endian
bytes, the length-prefixed client id, then the will topic and will message
only with the will flag, the username only with its flag when non-empty, the
password only with its flag when non-empty; the count returned is the number
of bytes appended. -/
theorem encodeMessage_layout (msg : ConnectMessage) (hv : msg.version = 3 ∨ msg.version = 4)
    (hfit : FieldsFit msg) :
    msg.encodeMessage
        = ({ msg with buf := msg.buf ++ bodyLayout msg }, (bodyLayout msg).length, none) ∧
      bodyLayout msg
        = lpBytes (if msg.version = 3 then MQIsdp else MQTT)
          ++ [msg.version] ++ [msg.connectFlags]
          ++ [msg.keepAlive / 256 % 256, msg.keepAlive % 256]
          ++ lpBytes msg.clientId
          ++ (if msg.WillFlag then lpBytes msg.willTopic ++ lpBytes msg.willMessage else [])
          ++ (if msg.UsernameFlag ∧ msg.username ≠ [] then lpBytes msg.username else [])
          ++ (if msg.PasswordFlag ∧ msg.password ≠ [] then lpBytes msg.password else []) ∧
      ∀ b : List Nat, lpBytes b = [b.length / 256, b.length % 256] ++ b := by
  refine ⟨encodeMessage_eq msg hv hfit.written, ?_, fun _ => rfl⟩
  have e1 : (msg.username.length > 0) = (msg.username ≠ []) := by
    simp [List.length_pos]
  have e2 : (msg.password.length > 0) = (msg.password ≠ []) := by
    simp [List.length_pos]
  simp only [bodyLayout, optionalLayout, tableName, e1, e2, List.append_assoc, List.cons_append,
    List.nil_append]

/-- C4 witness: the 26 body bytes of `sampleConnect`. -/
theorem encodeMessage_layout_witness :
    (sampleConnect.version = 3 ∨ sampleConnect.version = 4) ∧
      sampleConnect.encodeMessage
        = ({ sampleConnect with buf := sampleConnectBytes.drop 2 }, 26, none) :=
  ⟨by decide,
    (encodeMessage_layout sampleConnect (by decide)
      ⟨by decide, by decide, by decide, by decide, by decide⟩).1.trans (by decide)⟩

/-- C5: whenever `decodeMessage` returns no error, the count it returns is the
number of bytes that were in the buffer on entry and the buffer is left
empty; so a body that still holds a byte after the last expected field is
rejected. -/
theorem decodeMessage_consumes_body (msg : ConnectMessage)
    (h : (msg.decodeMessage).2.2 = none) :
    (msg.decodeMessage).2.1 = msg.buf.length ∧ (msg.decodeMessage).1.buf = [] :=
  decodeMessage_consumes msg h

/-- C5 witness: the 26 body bytes of `sampleConnect` are decoded without error,
the count is 26 and the buffer ends empty. -/
theorem decodeMessage_consumes_body_witness :
    (ConnectMessage.decodeMessage
        { NewConnectMessage with buf := sampleConnectBytes.drop 2 }).2.2 = none ∧
      (ConnectMessage.decodeMessage
        { NewConnectMessage with buf := sampleConnectBytes.drop 2 }).2.1 = 26 ∧
      (ConnectMessage.decodeMessage
        { NewConnectMessage with buf := sampleConnectBytes.drop 2 }).1.buf = [] :=
  ⟨by decide,
    decodeMessage_consumes_body { NewConnectMessage with buf := sampleConnectBytes.drop 2 }
      (by decide)⟩

/-- C6: on a body whose protocol name and version, connect-flags byte and
keep-alive pass their checks and whose client identifier `cid` is readable,
`decodeMessage` returns `ErrIdentifierRejected` exactly when `cid` is empty
with the clean-session bit clear, or non-empty with a byte outside 0-9, a-z,
A-Z; so an empty client id without clean-session is rejected and an
alphanumeric client id longer than 23 bytes is not. -/
theorem decodeMessage_identifier_rejected (msg : ConnectMessage) (name cid rest : List Nat)
    (v f k1 k2 : Nat)
    (hb : msg.buf = lpBytes name ++ v :: f :: k1 :: k2 :: (lpBytes cid ++ rest))
    (hs : SupportedVersions v = some name) (hf : FlagRules { msg with connectFlags := f }) :
    ((msg.decodeMessage).2.2 = some Error.ErrIdentifierRejected ↔
        (cid = [] ∧ ConnectMessage.CleanSession { msg with connectFlags := f } = false) ∨
        (cid ≠ [] ∧ ∃ b ∈ cid, isAlnum b = false)) ∧
      (cid = [] → ConnectMessage.CleanSession { msg with connectFlags := f } = false →
        (msg.decodeMessage).2.2 = some Error.ErrIdentifierRejected) ∧
      (23 < cid.length → (∀ b ∈ cid, isAlnum b = true) →
        (msg.decodeMessage).2.2 ≠ some Error.ErrIdentifierRejected) := by
  have key : (msg.decodeMessage).2.2 = some Error.ErrIdentifierRejected ↔
      (cid = [] ∧ ConnectMessage.CleanSession { msg with connectFlags := f } = false) ∨
      (cid ≠ [] ∧ ∃ b ∈ cid, isAlnum b = false) := by
    rw [decodeMessage_head msg name cid rest v f k1 k2 hb hs hf]
    have hclean : ConnectMessage.CleanSession { msg with connectFlags := f }
        = (f >>> 1 &&& 1 == 1) := rfl
    rw [hclean]
    by_cases c1 : cid.length = 0 ∧ ¬ (f >>> 1 &&& 1 == 1) = true
    · rw [if_pos c1]
      have h0 : cid = [] := List.length_eq_zero.mp c1.1
      have h1 : (f >>> 1 &&& 1 == 1) = false := Bool.eq_false_iff.mpr c1.2
      exact ⟨fun _ => Or.inl ⟨h0, h1⟩, fun _ => rfl⟩
    rw [if_neg c1]
    by_cases c2 : cid.length > 0 ∧ ¬ ValidClientId cid = true
    · rw [if_pos c2]
      have h0 : cid ≠ [] := List.length_pos.mp c2.1
      have h1 : ∃ b ∈ cid, isAlnum b = false := by
        have := c2.2
        simpa [ValidClientId, List.all_eq_true] using this
      exact ⟨fun _ => Or.inr ⟨h0, h1⟩, fun _ => rfl⟩
    rw [if_neg c2]
    have hne := (decodeOptional_ok
      { msg with buf := rest, protoName := name, version := v, connectFlags := f,
                 keepAlive := k1 * 256 + k2, clientId := cid }
      (2 + name.length + 1 + 1 + 2 + (2 + cid.length))).2
    constructor
    · intro h
      exact absurd h hne
    · rintro (⟨h0, h1⟩ | ⟨h0, b, hb1, hb2⟩)
      · exact absurd ⟨by rw [h0]; rfl, by rw [h1]; decide⟩ c1
      · refine absurd ⟨List.length_pos.mpr h0, ?_⟩ c2
        intro hval
        have := (List.all_eq_true.mp hval) b hb1
        rw [hb2] at this
        exact absurd this (by decide)
  refine ⟨key, fun h0 h1 => key.mpr (Or.inl ⟨h0, h1⟩), ?_⟩
  intro hlen hall h
  rcases key.mp h with ⟨h0, -⟩ | ⟨-, b, hb1, hb2⟩
  · rw [h0] at hlen
    exact absurd hlen (by decide)
  · rw [hall b hb1] at hb2
    exact absurd hb2 (by decide)

/-- C7: on a body whose protocol name `name` and version byte `v` are readable,
`decodeMessage` returns `ErrUnacceptableProtocolVersion` whenever `v` is not
3 or 4, and whenever it is 3 with a name other than "MQIsdp" or 4 with a name
other than "MQTT", whatever follows the version byte. -/
theorem decodeMessage_unsupported_version (msg : ConnectMessage) (name rest : List Nat) (v : Nat)
    (hb : msg.buf = lpBytes name ++ v :: rest)
    (hbad : (v ≠ 3 ∧ v ≠ 4) ∨ (v = 3 ∧ name ≠ MQIsdp) ∨ (v = 4 ∧ name ≠ MQTT)) :
    (msg.decodeMessage).2.2 = some Error.ErrUnacceptableProtocolVersion := by
  have hne : SupportedVersions v ≠ some name := by
    intro hs
    obtain ⟨hv, hn⟩ := SupportedVersions_some hs
    rcases hbad with ⟨h3, h4⟩ | ⟨h3, hn3⟩ | ⟨h4, hn4⟩
    · rcases hv with hv | hv
      · exact h3 hv
      · exact h4 hv
    · apply hn3; rw [hn, h3]; rfl
    · apply hn4; rw [hn, h4]; rfl
  rw [decodeMessage_version msg name rest v hb hne]

/-- C8: a body whose connect-flags byte `f` has the will flag (bit 2) clear and
a non-zero will QoS (bits 3-4) or the will-retain bit (bit 5) set is never
accepted: `decodeMessage` returns an error. -/
theorem decodeMessage_will_inconsistent (msg : ConnectMessage) (name rest : List Nat) (v f : Nat)
    (hb : msg.buf = lpBytes name ++ v :: f :: rest)
    (hwill : f >>> 2 &&& 1 = 0) (hbad : f >>> 3 &&& 3 ≠ 0 ∨ f >>> 5 &&& 1 = 1) :
    (msg.decodeMessage).2.2 ≠ none := by
  intro h
  have hr := (decodeMessage_accepts_flags msg name rest v f hb h).2.will
  apply hr
  simp only [ConnectMessage.WillFlag, ConnectMessage.WillRetain, ConnectMessage.WillQos,
    QosAtMostOnce, hwill]
  refine ⟨by decide, ?_⟩
  rcases hbad with h1 | h1
  · exact Or.inr h1
  · exact Or.inl (by rw [h1]; decide)

/-- C9: a body whose connect-flags byte `f` has bit 7 (username) set and bit 6
(password) clear is never accepted: `decodeMessage` returns an error,
whatever the rest of the body holds. -/
theorem decodeMessage_username_without_password (msg : ConnectMessage) (name rest : List Nat)
    (v f : Nat) (hb : msg.buf = lpBytes name ++ v :: f :: rest)
    (hu : f >>> 7 &&& 1 = 1) (hp : f >>> 6 &&& 1 = 0) :
    (msg.decodeMessage).2.2 ≠ none := by
  intro h
  have hr := (decodeMessage_accepts_flags msg name rest v f hb h).2.user
  apply hr
  simp only [ConnectMessage.UsernameFlag, ConnectMessage.PasswordFlag, hu, hp]
  decide

/-- C10: a body whose connect-flags byte `f` has the reserved bit 0 set is never
accepted: `decodeMessage` returns an error. -/
theorem decodeMessage_reserved_bit (msg : ConnectMessage) (name rest : List Nat) (v f : Nat)
    (hb : msg.buf = lpBytes name ++ v :: f :: rest) (hres : f &&& 1 = 1) :
    (msg.decodeMessage).2.2 ≠ none := by
  intro h
  have hr := (decodeMessage_accepts_flags msg name rest v f hb h).2.reserved
  simp only at hr
  rw [hres] at hr
  exact absurd hr (by decide)

/-- C6 witness: protocol "MQTT", version 4, flags 0, keep-alive 10 and an empty
client id: the clean-session bit is clear and the body is rejected with
`ErrIdentifierRejected`. -/
theorem decodeMessage_identifier_rejected_witness :
    SupportedVersions 4 = some MQTT ∧
      ConnectMessage.CleanSession { emptyIdBody 4 0 with connectFlags := 0 } = false ∧
      ((emptyIdBody 4 0).decodeMessage).2.2 = some Error.ErrIdentifierRejected :=
  ⟨by decide, by decide,
    (decodeMessage_identifier_rejected (emptyIdBody 4 0) MQTT [] [] 4 0 0 10 (by decide)
      (by decide) ⟨by decide, by decide, by decide, by decide⟩).2.1 rfl (by decide)⟩

/-- C7 witness: protocol "MQTT" with version byte 5 is rejected with
`ErrUnacceptableProtocolVersion`. -/
theorem decodeMessage_unsupported_version_witness :
    (5 ≠ 3 ∧ 5 ≠ 4) ∧
      ((emptyIdBody 5 2).decodeMessage).2.2 = some Error.ErrUnacceptableProtocolVersion :=
  ⟨by decide,
    decodeMessage_unsupported_version (emptyIdBody 5 2) MQTT [2, 0, 10, 0, 0] 5 (by decide)
      (Or.inl (by decide))⟩

/-- C8 witness: flags byte 8 (will QoS 1, will flag clear) is rejected. -/
theorem decodeMessage_will_inconsistent_witness :
    (8 >>> 2 &&& 1 = 0 ∧ 8 >>> 3 &&& 3 ≠ 0) ∧ ((emptyIdBody 4 8).decodeMessage).2.2 ≠ none :=
  ⟨by decide,
    decodeMessage_will_inconsistent (emptyIdBody 4 8) MQTT [0, 10, 0, 0] 4 8 (by decide)
      (by decide) (Or.inl (by decide))⟩

/-- C9 witness: flags byte 130 (username flag and clean session, password flag
clear) is rejected. -/
theorem decodeMessage_username_without_password_witness :
    (130 >>> 7 &&& 1 = 1 ∧ 130 >>> 6 &&& 1 = 0) ∧
      ((emptyIdBody 4 130).decodeMessage).2.2 ≠ none :=
  ⟨by decide,
    decodeMessage_username_without_password (emptyIdBody 4 130) MQTT [0, 10, 0, 0] 4 130
      (by decide) (by decide) (by decide)⟩

/-- C10 witness: flags byte 3 (reserved bit and clean session) is rejected. -/
theorem decodeMessage_reserved_bit_witness :
    3 &&& 1 = 1 ∧ ((emptyIdBody 4 3).decodeMessage).2.2 ≠ none :=
  ⟨by decide,
    decodeMessage_reserved_bit (emptyIdBody 4 3) MQTT [0, 10, 0, 0] 4 3 (by decide) (by decide)⟩

set_option maxRecDepth 100000 in
theorem SetWillQos_bits :
    ∀ f, f < 256 → ∀ q, q < 3 →
      (((f &&& 231) ||| ((q <<< 3) % 256)) >>> 3) &&& 3 = q ∧
        ((f &&& 231) ||| ((q <<< 3) % 256)) &&& 231 = f &&& 231 ∧
        ((f &&& 231) ||| ((q <<< 3) % 256)) < 256 := by
  decide

/-- C11: `SetWillQos(q)` returns an error and leaves the message unchanged for
every q greater than 2; for q in 0, 1, 2 it succeeds, `WillQos()` then returns
q and every bit of the connect-flags byte outside bits 3-4 is unchanged; and
`decodeMessage` returns an error on every body whose connect-flags byte has
will-QoS bits equal to 3, whatever its will flag. -/
theorem will_qos_three_rejected (msg : ConnectMessage) (hbyte : msg.connectFlags < 256) :
    (∀ q, 2 < q → (msg.SetWillQos q).2 ≠ none ∧ (msg.SetWillQos q).1 = msg) ∧
      (∀ q, q ≤ 2 → (msg.SetWillQos q).2 = none ∧ (msg.SetWillQos q).1.WillQos = q ∧
        (msg.SetWillQos q).1.connectFlags &&& 231 = msg.connectFlags &&& 231) ∧
      (∀ (name rest : List Nat) (v f : Nat), msg.buf = lpBytes name ++ v :: f :: rest →
        f >>> 3 &&& 3 = 3 → (msg.decodeMessage).2.2 ≠ none) := by
  refine ⟨?_, ?_, ?_⟩
  · intro q hq
    have h : q ≠ QosAtMostOnce ∧ q ≠ QosAtLeastOnce ∧ q ≠ QosExactlyOnce := by
      unfold QosAtMostOnce QosAtLeastOnce QosExactlyOnce
      omega
    unfold ConnectMessage.SetWillQos
    rw [if_pos h]
    exact ⟨by simp, rfl⟩
  · intro q hq
    have h : ¬ (q ≠ QosAtMostOnce ∧ q ≠ QosAtLeastOnce ∧ q ≠ QosExactlyOnce) := by
      unfold QosAtMostOnce QosAtLeastOnce QosExactlyOnce
      omega
    obtain ⟨h1, h2, -⟩ := SetWillQos_bits msg.connectFlags hbyte q (by omega)
    unfold ConnectMessage.SetWillQos
    rw [if_neg h]
    exact ⟨rfl, h1, h2⟩
  · intro name rest v f hb hq h
    have hr := (decodeMessage_accepts_flags msg name rest v f hb h).2.qos
    apply hr
    simp only [ConnectMessage.WillQos, QosExactlyOnce, hq]
    decide

/-- C11 witness: on `sampleConnect` (flags 0xCE, will QoS 1) `SetWillQos(3)`
fails and `SetWillQos(2)` gives will QoS 2. -/
theorem will_qos_three_rejected_witness :
    sampleConnect.connectFlags < 256 ∧ (sampleConnect.SetWillQos 3).2 ≠ none ∧
      (sampleConnect.SetWillQos 2).1.WillQos = 2 :=
  have h := will_qos_three_rejected sampleConnect (by decide)
  ⟨by decide, (h.1 3 (by decide)).1, (h.2.1 2 (by decide)).2.1⟩

/-- C12: `SetClientId(v)` returns `ErrIdentifierRejected` exactly when v is
non-empty and contains a byte outside 0-9, a-z, A-Z, and then leaves the
message unchanged; otherwise (v empty, or alphanumeric of any length) it
returns no error and `ClientId()` returns v. -/
theorem SetClientId_validates (msg : ConnectMessage) (v : List Nat) :
    ((msg.SetClientId v).2 = some Error.ErrIdentifierRejected ↔
        v ≠ [] ∧ ∃ b ∈ v, isAlnum b = false) ∧
      ((v ≠ [] ∧ ∃ b ∈ v, isAlnum b = false) →
        (msg.SetClientId v).2 = some Error.ErrIdentifierRejected ∧
          (msg.SetClientId v).1 = msg) ∧
      (¬ (v ≠ [] ∧ ∃ b ∈ v, isAlnum b = false) →
        (msg.SetClientId v).2 = none ∧ (msg.SetClientId v).1.ClientId = v) := by
  have hbad : (v.length > 0 ∧ ¬ ValidClientId v = true) ↔ (v ≠ [] ∧ ∃ b ∈ v, isAlnum b = false) := by
    constructor
    · rintro ⟨h0, h1⟩
      refine ⟨List.length_pos.mp h0, ?_⟩
      simpa [ValidClientId, List.all_eq_true] using h1
    · rintro ⟨h0, b, hb1, hb2⟩
      refine ⟨List.length_pos.mpr h0, ?_⟩
      intro hval
      have := (List.all_eq_true.mp hval) b hb1
      rw [hb2] at this
      exact absurd this (by decide)
  unfold ConnectMessage.SetClientId
  by_cases c : v.length > 0 ∧ ¬ ValidClientId v = true
  · rw [if_pos c]
    exact ⟨⟨fun _ => hbad.mp c, fun _ => rfl⟩, fun _ => ⟨rfl, rfl⟩, fun h => absurd (hbad.mp c) h⟩
  · rw [if_neg c]
    refine ⟨⟨fun h => ?_, fun h => absurd (hbad.mpr h) c⟩, fun h => absurd (hbad.mpr h) c,
      fun _ => ⟨rfl, rfl⟩⟩
    simp at h

/-- C13: `Encode` returns an error whenever the message type is not CONNECT or
the version is not 3 or 4, so it fails on a message fresh from
`NewConnectMessage`; and it succeeds on every message of type CONNECT with
version 3 or 4 and byte strings of at most 65535 bytes, whatever the connect
flags and the client id. -/
theorem Encode_failure_conditions (msg : ConnectMessage) :
    (msg.Type ≠ CONNECT ∨ ¬ (msg.version = 3 ∨ msg.version = 4) → (msg.Encode).2.2.2 ≠ none) ∧
      (NewConnectMessage.Encode).2.2.2 ≠ none ∧
      (msg.Type = CONNECT → (msg.version = 3 ∨ msg.version = 4) → FieldsFit msg →
        (msg.Encode).2.2.2 = none) := by
  refine ⟨?_, by decide, ?_⟩
  · intro hbad h
    obtain ⟨ht, hv, -⟩ := Encode_accepts msg h
    rcases hbad with hbad | hbad
    · exact hbad ht
    · exact hbad hv
  · intro ht hv hfit
    rw [Encode_eq msg ht hv hfit.written]

/-- C13 witness: `sampleConnect` has type CONNECT, version 4 and short fields,
and `Encode` succeeds on it. -/
theorem Encode_failure_conditions_witness :
    sampleConnect.Type = CONNECT ∧ (sampleConnect.Encode).2.2.2 = none :=
  ⟨by decide,
    (Encode_failure_conditions sampleConnect).2.2 (by decide) (by decide)
      ⟨by decide, by decide, by decide, by decide, by decide⟩⟩

theorem encodeRemlen_one (v : Nat) (h : v < 128) : encodeRemlen 4 v = [v] := by
  rw [encodeRemlen, if_pos h]

theorem encodeRemlen_two (v : Nat) (h1 : 128 ≤ v) (h2 : v < 16384) :
    encodeRemlen 4 v = [v % 128 + 128, v / 128] := by
  rw [encodeRemlen, if_neg (by omega), encodeRemlen, if_pos (by omega)]

theorem encodeRemlen_three (v : Nat) (h1 : 16384 ≤ v) (h2 : v < 2097152) :
    encodeRemlen 4 v = [v % 128 + 128, v / 128 % 128 + 128, v / 128 / 128] := by
  rw [encodeRemlen, if_neg (by omega), encodeRemlen, if_neg (by omega), encodeRemlen,
    if_pos (by omega)]

theorem encodeRemlen_four (v : Nat) (h1 : 2097152 ≤ v) (h2 : v < 268435456) :
    encodeRemlen 4 v
      = [v % 128 + 128, v / 128 % 128 + 128, v / 128 / 128 % 128 + 128, v / 128 / 128 / 128] := by
  rw [encodeRemlen, if_neg (by omega), encodeRemlen, if_neg (by omega), encodeRemlen,
    if_neg (by omega), encodeRemlen, if_pos (by omega)]

theorem encodeRemlen_wellTerminated (v : Nat) (h : v ≤ 268435455) :
    wellTerminated (encodeRemlen 4 v) = true := by
  by_cases c1 : v < 128
  · rw [encodeRemlen_one v c1]
    simp [wellTerminated, c1]
  by_cases c2 : v < 16384
  · rw [encodeRemlen_two v (by omega) c2]
    simp only [wellTerminated, Bool.and_eq_true, decide_eq_true_eq]
    omega
  by_cases c3 : v < 2097152
  · rw [encodeRemlen_three v (by omega) c3]
    simp only [wellTerminated, Bool.and_eq_true, decide_eq_true_eq]
    omega
  · rw [encodeRemlen_four v (by omega) (by omega)]
    simp only [wellTerminated, Bool.and_eq_true, decide_eq_true_eq]
    omega

/-- C14: for every value v from 0 to 268435455 the Remaining-Length encoding
that `SetRemainingLength` accepts and the fixed header writes has 1 byte up to
127, 2 bytes from 128 to 16383, 3 bytes from 16384 to 2097151 and 4 bytes from
2097152 to 268435455; every byte but the last has its high bit set and the
last has it clear; decoding the bytes gives back v; and every value above
268435455 is refused by `SetRemainingLength` and by the fixed header's
`Encode`. -/
theorem remaining_length_byte_count (v : Nat) (h : fixedHeader) :
    (v ≤ 268435455 →
      (h.SetRemainingLength (v : Int)) = ({ h with remlen := (v : Int) }, none) ∧
      (fixedHeader.Encode { h with remlen := (v : Int) }).2.1
        = some (((h.mtype <<< 4 ||| h.flags) % 256) :: encodeRemlen 4 v) ∧
      (v ≤ 127 → (encodeRemlen 4 v).length = 1) ∧
      (128 ≤ v → v ≤ 16383 → (encodeRemlen 4 v).length = 2) ∧
      (16384 ≤ v → v ≤ 2097151 → (encodeRemlen 4 v).length = 3) ∧
      (2097152 ≤ v → (encodeRemlen 4 v).length = 4) ∧
      wellTerminated (encodeRemlen 4 v) = true ∧
      ∀ rest, decodeRemlen 4 1 0 0 (encodeRemlen 4 v ++ rest)
        = some (v, (encodeRemlen 4 v).length, rest)) ∧
    (268435455 < v →
      (h.SetRemainingLength (v : Int)).2 ≠ none ∧
      (fixedHeader.Encode { h with remlen := (v : Int) }).2.2.2 ≠ none) := by
  constructor
  · intro hv
    refine ⟨SetRemainingLength_ok h v hv, ?_, ?_, ?_, ?_, ?_, encodeRemlen_wellTerminated v hv, ?_⟩
    · rw [fixedHeader_Encode_ok { h with remlen := (v : Int) } v rfl hv]
      rfl
    · intro c
      rw [encodeRemlen_one v (by omega)]
      rfl
    · intro c1 c2
      rw [encodeRemlen_two v c1 (by omega)]
      rfl
    · intro c1 c2
      rw [encodeRemlen_three v c1 (by omega)]
      rfl
    · intro c1
      rw [encodeRemlen_four v c1 (by omega)]
      rfl
    · intro rest
      have hr := decodeRemlen_encodeRemlen 3 v 1 0 0 rest (by norm_num; omega)
      simpa using hr
  · intro hv
    have c : (v : Int) > (maxRemainingLength : Int) ∨ (v : Int) < 0 := by
      unfold maxRemainingLength
      omega
    constructor
    · unfold fixedHeader.SetRemainingLength
      rw [if_pos c]
      simp
    · unfold fixedHeader.Encode
      rw [if_pos c]
      simp

/-- C14 witness: 16384 takes the three bytes 128, 128, 1 and 268435456 is
refused. -/
theorem remaining_length_byte_count_witness :
    encodeRemlen 4 16384 = [128, 128, 1] ∧ (encodeRemlen 4 16384).length = 3 ∧
      (NewConnectMessage.tofixedHeader.SetRemainingLength (268435456 : Nat)).2 ≠ none :=
  ⟨by decide,
    ((remaining_length_byte_count 16384 NewConnectMessage.tofixedHeader).1
      (by decide)).2.2.2.2.1 (by decide) (by decide),
    ((remaining_length_byte_count 268435456 NewConnectMessage.tofixedHeader).2 (by decide)).1⟩

theorem publish_flag_bits :
    ∀ f, f < 16 →
      ((f &&& 1 == 1) = decide (f % 2 = 1) ∧ (f >>> 1) &&& 3 = f / 2 % 4 ∧
        ((f >>> 3) &&& 1 == 1) = decide (f / 8 % 2 = 1)) ∧
      (((f ||| 8) >>> 3) &&& 1 = 1 ∧ (f ||| 8) &&& 1 = f &&& 1 ∧
        ((f ||| 8) >>> 1) &&& 3 = (f >>> 1) &&& 3 ∧ f ||| 8 < 16) ∧
      (((f &&& 247) >>> 3) &&& 1 = 0 ∧ (f &&& 247) &&& 1 = f &&& 1 ∧
        ((f &&& 247) >>> 1) &&& 3 = (f >>> 1) &&& 3 ∧ f &&& 247 < 16) ∧
      ((f ||| 1) &&& 1 = 1 ∧ ((f ||| 1) >>> 3) &&& 1 = (f >>> 3) &&& 1 ∧
        ((f ||| 1) >>> 1) &&& 3 = (f >>> 1) &&& 3 ∧ f ||| 1 < 16) ∧
      ((f &&& 254) &&& 1 = 0 ∧ ((f &&& 254) >>> 3) &&& 1 = (f >>> 3) &&& 1 ∧
        ((f &&& 254) >>> 1) &&& 3 = (f >>> 1) &&& 3 ∧ f &&& 254 < 16) ∧
      ∀ q, q < 3 →
        (((f &&& 249) ||| ((q <<< 1) % 256)) >>> 1) &&& 3 = q ∧
          (((f &&& 249) ||| ((q <<< 1) % 256)) >>> 3) &&& 1 = (f >>> 3) &&& 1 ∧
          ((f &&& 249) ||| ((q <<< 1) % 256)) &&& 1 = f &&& 1 ∧
          (f &&& 249) ||| ((q <<< 1) % 256) < 16 := by
  decide

/-- C18: for every 4-bit flags value, `Retain()` is bit 0, `QoS()` is bits 1-2
and `Dup()` is bit 3; `SetDup(v)`, `SetRetain(v)` and a successful `SetQoS(q)`
make their own getter return the value set, leave the other two fields
unchanged and keep the flags within 4 bits; `SetQoS(q)` succeeds for q in 0,
1, 2 and returns an error, leaving the message unchanged, for every larger
q. -/
theorem publish_flag_packing (msg : PublishMessage) (hf : msg.flags < 16) :
    (msg.Retain = decide (msg.flags % 2 = 1) ∧ msg.QoS = msg.flags / 2 % 4 ∧
      msg.Dup = decide (msg.flags / 8 % 2 = 1)) ∧
    (∀ v, (msg.SetDup v).Dup = v ∧ (msg.SetDup v).Retain = msg.Retain ∧
      (msg.SetDup v).QoS = msg.QoS ∧ (msg.SetDup v).flags < 16) ∧
    (∀ v, (msg.SetRetain v).Retain = v ∧ (msg.SetRetain v).Dup = msg.Dup ∧
      (msg.SetRetain v).QoS = msg.QoS ∧ (msg.SetRetain v).flags < 16) ∧
    (∀ q, q ≤ 2 → (msg.SetQoS q).2 = none ∧ (msg.SetQoS q).1.QoS = q ∧
      (msg.SetQoS q).1.Dup = msg.Dup ∧ (msg.SetQoS q).1.Retain = msg.Retain ∧
      (msg.SetQoS q).1.flags < 16) ∧
    (∀ q, 2 < q → (msg.SetQoS q).2 ≠ none ∧ (msg.SetQoS q).1 = msg) := by
  obtain ⟨⟨remlen, mtype, f, buf⟩, topic, pid, payload⟩ := msg
  simp only at hf
  obtain ⟨⟨g1, g2, g3⟩, ⟨d1, d2, d3, d4⟩, ⟨e1, e2, e3, e4⟩, ⟨r1, r2, r3, r4⟩, ⟨s1, s2, s3, s4⟩, hq⟩ :=
    publish_flag_bits f hf
  refine ⟨⟨g1, g2, g3⟩, ?_, ?_, ?_, ?_⟩
  · intro v
    cases v
    · simp only [PublishMessage.SetDup, PublishMessage.Dup, PublishMessage.Retain,
        PublishMessage.QoS, Bool.false_eq_true, if_false, e1, e2, e3]
      exact ⟨by decide, trivial, trivial, e4⟩
    · simp only [PublishMessage.SetDup, PublishMessage.Dup, PublishMessage.Retain,
        PublishMessage.QoS, if_true, d1, d2, d3]
      exact ⟨by decide, trivial, trivial, d4⟩
  · intro v
    cases v
    · simp only [PublishMessage.SetRetain, PublishMessage.Dup, PublishMessage.Retain,
        PublishMessage.QoS, Bool.false_eq_true, if_false, s1, s2, s3]
      exact ⟨by decide, trivial, trivial, s4⟩
    · simp only [PublishMessage.SetRetain, PublishMessage.Dup, PublishMessage.Retain,
        PublishMessage.QoS, if_true, r1, r2, r3]
      exact ⟨by decide, trivial, trivial, r4⟩
  · intro q hq2
    have h : ¬ (q ≠ QosAtMostOnce ∧ q ≠ QosAtLeastOnce ∧ q ≠ QosExactlyOnce) := by
      unfold QosAtMostOnce QosAtLeastOnce QosExactlyOnce
      omega
    obtain ⟨q1, q2, q3, q4⟩ := hq q (by omega)
    simp only [PublishMessage.SetQoS, if_neg h, PublishMessage.Dup, PublishMessage.Retain,
      PublishMessage.QoS, q1, q2, q3]
    exact ⟨trivial, trivial, trivial, trivial, q4⟩
  · intro q hq2
    have h : q ≠ QosAtMostOnce ∧ q ≠ QosAtLeastOnce ∧ q ≠ QosExactlyOnce := by
      unfold QosAtMostOnce QosAtLeastOnce QosExactlyOnce
      omega
    simp only [PublishMessage.SetQoS, if_pos h]
    exact ⟨by simp, trivial⟩

/-- C18 witness: flags 11 give dup, retain and QoS 1; `SetQoS(3)` fails and
`SetQoS(2)` gives QoS 2 with dup and retain kept. -/
theorem publish_flag_packing_witness :
    flagsEleven.flags < 16 ∧ flagsEleven.Dup = true ∧ flagsEleven.Retain = true ∧
      flagsEleven.QoS = 1 ∧ (flagsEleven.SetQoS 3).2 ≠ none ∧
      (flagsEleven.SetQoS 2).1.QoS = 2 ∧ (flagsEleven.SetQoS 2).1.Dup = flagsEleven.Dup :=
  have h := publish_flag_packing flagsEleven (by decide)
  ⟨by decide, by decide, by decide, by decide, (h.2.2.2.2 3 (by decide)).1,
    (h.2.2.2.1 2 (by decide)).2.1, (h.2.2.2.1 2 (by decide)).2.2.1⟩

theorem ValidTopic_iff (t : List Nat) :
    ValidTopic t = true ↔ ∀ b ∈ t, b ≠ 35 ∧ b ≠ 43 := by
  simp [ValidTopic, isWildcard, List.all_eq_true]

/-- C19: `SetTopic(t)` returns an error and leaves the message unchanged for
every t that contains '#' or '+', and succeeds, with `Topic()` returning t, for
every non-empty t without those bytes; `Encode` returns an error for every
message whose topic is empty or contains '#' or '+'.  `SetTopic("coolstuff/#")`
fails, and `Encode` after `SetTopic("")` fails. -/
theorem publish_topic_validation (msg : PublishMessage) (t : List Nat) :
    ((∃ b ∈ t, b = 35 ∨ b = 43) → (msg.SetTopic t).2 ≠ none ∧ (msg.SetTopic t).1 = msg) ∧
      (t ≠ [] → (∀ b ∈ t, b ≠ 35 ∧ b ≠ 43) →
        (msg.SetTopic t).2 = none ∧ (msg.SetTopic t).1.Topic = t) ∧
      (msg.topic = [] ∨ (∃ b ∈ msg.topic, b = 35 ∨ b = 43) → (msg.Encode).2.2.2 ≠ none) ∧
      (msg.SetTopic coolstuffHash).2 ≠ none ∧
      ((msg.SetTopic []).1.Encode).2.2.2 ≠ none := by
  have hwild : ∀ s : List Nat, (∃ b ∈ s, b = 35 ∨ b = 43) → ¬ ValidTopic s = true := by
    rintro s ⟨b, hb, hc⟩ hv
    have := (ValidTopic_iff s).mp hv b hb
    rcases hc with hc | hc
    · exact this.1 hc
    · exact this.2 hc
  have hset : ∀ s : List Nat, (∃ b ∈ s, b = 35 ∨ b = 43) →
      (msg.SetTopic s).2 ≠ none ∧ (msg.SetTopic s).1 = msg := by
    intro s hs
    unfold PublishMessage.SetTopic
    rw [if_pos (hwild s hs)]
    exact ⟨by simp, rfl⟩
  have henc : ∀ m : PublishMessage, m.topic = [] ∨ (∃ b ∈ m.topic, b = 35 ∨ b = 43) →
      (m.Encode).2.2.2 ≠ none := by
    intro m hm
    have c : m.topic.length = 0 ∨ ¬ ValidTopic m.topic = true := by
      rcases hm with hm | hm
      · exact Or.inl (by rw [hm]; rfl)
      · exact Or.inr (hwild _ hm)
    unfold PublishMessage.Encode
    rw [if_pos c]
    simp
  refine ⟨hset t, ?_, henc msg, (hset coolstuffHash ⟨35, by decide, Or.inl rfl⟩).1, ?_⟩
  · intro _ hall
    unfold PublishMessage.SetTopic
    rw [if_neg (not_not.mpr ((ValidTopic_iff t).mpr hall))]
    exact ⟨rfl, rfl⟩
  · apply henc
    left
    unfold PublishMessage.SetTopic
    rw [if_neg (by decide)]

/-- C19 witness: on a fresh PUBLISH message `SetTopic("coolstuff/#")` fails,
`SetTopic("surgemq")` succeeds and `Encode` with the empty topic fails. -/
theorem publish_topic_validation_witness :
    (NewPublishMessage.SetTopic coolstuffHash).2 ≠ none ∧
      (NewPublishMessage.SetTopic surgemq).1.Topic = surgemq ∧
      (NewPublishMessage.Encode).2.2.2 ≠ none :=
  have h := publish_topic_validation NewPublishMessage surgemq
  ⟨h.2.2.2.1, (h.2.1 (by decide) (by decide)).2, h.2.2.1 (Or.inl rfl)⟩

theorem publishBody_length (msg : PublishMessage) :
    (publishBody msg).length = publishSize msg := by
  unfold publishBody publishSize
  split <;> simp only [List.length_append, lpBytes_length, List.length_cons, List.length_nil] <;>
    omega

theorem publishSize_ge (msg : PublishMessage) : msg.payload.length ≤ publishSize msg := by
  unfold publishSize
  omega

/-- What the modelled `PublishMessage.Encode` returns when it succeeds. -/
theorem PublishEncode_eq (msg : PublishMessage) (h0 : msg.topic.length ≠ 0)
    (hvalid : ValidTopic msg.topic = true) (hlen : msg.topic.length ≤ 65535)
    (hsize : publishSize msg ≤ 268435455) :
    msg.Encode =
      ({ msg with
          remlen := (publishSize msg : Int)
          buf := headerBytes msg.mtype msg.flags (publishSize msg) ++ publishBody msg },
        some (headerBytes msg.mtype msg.flags (publishSize msg) ++ publishBody msg),
        (headerBytes msg.mtype msg.flags (publishSize msg) ++ publishBody msg).length, none) := by
  obtain ⟨⟨remlen, mtype, flags, buf⟩, topic, pid, payload⟩ := msg
  simp only at h0 hvalid hlen
  have hc : ¬ (topic.length = 0 ∨ ¬ ValidTopic topic = true) := by
    rintro (h | h)
    · exact h0 h
    · exact h hvalid
  by_cases hq : (flags >>> 1 &&& 3) > 0
  · have hs : 2 + topic.length + 2 + payload.length ≤ 268435455 := by
      simpa [publishSize, PublishMessage.QoS, hq] using hsize
    simp only [PublishMessage.Encode, PublishMessage.QoS, publishSize, publishBody, hc, if_false,
      hq, if_true, Nat.zero_add]
    rw [SetRemainingLength_ok _ _ hs]
    simp only
    rw [fixedHeader_Encode_ok _ _ rfl hs]
    simp only [writeLPBytes_ok _ _ hlen, writeUint16, hq, if_true]
    simp only [List.append_assoc, List.length_append, lpBytes_length, List.length_cons,
      List.length_nil, Prod.mk.injEq, true_and, and_true]
    omega
  · have hs : 2 + topic.length + payload.length ≤ 268435455 := by
      simpa [publishSize, PublishMessage.QoS, hq] using hsize
    simp only [PublishMessage.Encode, PublishMessage.QoS, publishSize, publishBody, hc, if_false,
      hq, Nat.zero_add, Nat.add_zero]
    rw [SetRemainingLength_ok _ _ hs]
    simp only
    rw [fixedHeader_Encode_ok _ _ rfl hs]
    simp only [writeLPBytes_ok _ _ hlen, hq, if_false]
    simp only [List.append_assoc, List.length_append, lpBytes_length, List.length_cons,
      List.length_nil, Prod.mk.injEq, true_and, and_true, List.nil_append]
    omega

theorem SetRemainingLength_big (h : fixedHeader) (n : Nat) (hn : 268435455 < n) :
    h.SetRemainingLength (n : Int) = (h, some (Error.Errorf "SetRemainingLength")) := by
  unfold fixedHeader.SetRemainingLength maxRemainingLength
  rw [if_pos]
  omega

/-- The modelled `PublishMessage.Encode` succeeds only on a non-empty topic
without wildcard, of at most 65535 bytes, with an encodable Remaining
Length. -/
theorem PublishEncode_accepts (msg : PublishMessage) (h : (msg.Encode).2.2.2 = none) :
    msg.topic.length ≠ 0 ∧ ValidTopic msg.topic = true ∧ msg.topic.length ≤ 65535 ∧
      publishSize msg ≤ 268435455 := by
  obtain ⟨⟨remlen, mtype, flags, buf⟩, topic, pid, payload⟩ := msg
  by_cases hc : topic.length = 0 ∨ ¬ ValidTopic topic = true
  · simp only [PublishMessage.Encode, hc, if_true] at h
    simp at h
  have h0 : topic.length ≠ 0 := fun e => hc (Or.inl e)
  have hvalid : ValidTopic topic = true := by
    by_contra e
    exact hc (Or.inr e)
  refine ⟨h0, hvalid, ?_⟩
  by_cases hq : (flags >>> 1 &&& 3) > 0
  · have e : publishSize ⟨⟨remlen, mtype, flags, buf⟩, topic, pid, payload⟩
        = 2 + topic.length + 2 + payload.length := by
      simp only [publishSize, PublishMessage.QoS, hq, if_true]
    rw [e]
    by_cases hs : 2 + topic.length + 2 + payload.length ≤ 268435455
    swap
    · simp only [PublishMessage.Encode, PublishMessage.QoS, hc, if_false, hq, if_true,
        SetRemainingLength_big _ _ (Nat.not_le.mp hs)] at h
      simp at h
    refine ⟨?_, hs⟩
    by_contra hl
    simp only [PublishMessage.Encode, PublishMessage.QoS, hc, if_false, hq, if_true] at h
    rw [SetRemainingLength_ok _ _ hs] at h
    simp only at h
    rw [fixedHeader_Encode_ok _ _ rfl hs] at h
    simp only [writeLPBytes_long _ _ hl] at h
    simp at h
  · have e : publishSize ⟨⟨remlen, mtype, flags, buf⟩, topic, pid, payload⟩
        = 2 + topic.length + payload.length := by
      simp only [publishSize, PublishMessage.QoS, hq, if_false, Nat.add_zero]
    rw [e]
    by_cases hs : 2 + topic.length + payload.length ≤ 268435455
    swap
    · simp only [PublishMessage.Encode, PublishMessage.QoS, hc, if_false, hq,
        SetRemainingLength_big _ _ (Nat.not_le.mp hs)] at h
      simp at h
    refine ⟨?_, hs⟩
    by_contra hl
    simp only [PublishMessage.Encode, PublishMessage.QoS, hc, if_false, hq] at h
    rw [SetRemainingLength_ok _ _ hs] at h
    simp only at h
    rw [fixedHeader_Encode_ok _ _ rfl hs] at h
    simp only [writeLPBytes_long _ _ hl] at h
    simp at h

theorem publish_typeByte (flags : Nat) (h : flags < 16) :
    (PUBLISH <<< 4 ||| flags) % 256 = 48 ||| flags ∧
      ((PUBLISH <<< 4 ||| flags) % 256) >>> 4 = PUBLISH ∧
      ((PUBLISH <<< 4 ||| flags) % 256) &&& 15 = flags := by
  unfold PUBLISH
  interval_cases flags <;> decide

/-- C15 as stated fails: `longTopicPublish` has a non-empty topic free of '#'
and '+' and QoS 0, and `longPayloadPublish` has the topic "a" and QoS 0, yet
`Encode` returns an error on both: a topic of 65536 bytes has no 2-byte
length, and a Remaining Length of 268435459 is not encodable. -/
theorem publish_encode_counterexample :
    (longTopicPublish.topic ≠ [] ∧ (∀ b ∈ longTopicPublish.topic, b ≠ 35 ∧ b ≠ 43) ∧
      longTopicPublish.QoS ≤ 2 ∧ (longTopicPublish.Encode).2.2.2 ≠ none) ∧
    (longPayloadPublish.topic ≠ [] ∧ (∀ b ∈ longPayloadPublish.topic, b ≠ 35 ∧ b ≠ 43) ∧
      longPayloadPublish.QoS ≤ 2 ∧ (longPayloadPublish.Encode).2.2.2 ≠ none) := by
  have ht : longTopicPublish.topic = List.replicate 65536 97 := rfl
  have hp : longPayloadPublish.payload = List.replicate 268435456 0 := rfl
  refine ⟨⟨?_, ?_, by decide, ?_⟩, ⟨by decide, by decide, by decide, ?_⟩⟩
  · rw [ht]
    intro e
    have := congrArg List.length e
    rw [List.length_replicate] at this
    exact absurd this (by decide)
  · rw [ht]
    intro b hb
    rw [List.eq_of_mem_replicate hb]
    decide
  · intro h
    have := (PublishEncode_accepts longTopicPublish h).2.2.1
    rw [ht, List.length_replicate] at this
    exact absurd this (by decide)
  · intro h
    have hs := (PublishEncode_accepts longPayloadPublish h).2.2.2
    have hge := publishSize_ge longPayloadPublish
    rw [hp, List.length_replicate] at hge
    exact absurd (Nat.le_trans hge hs) (by decide)

/-- C15 (amended): for every PUBLISH message with 4-bit flags, a non-empty topic
free of '#' and '+' of at most 65535 bytes, QoS in 0, 1, 2 and a Remaining
Length `2 + len(topic) + (2 if QoS > 0) + len(payload)` of at most 268435455,
`Encode` succeeds and returns exactly: the byte `(3 << 4) | flags`, the
Remaining-Length encoding of that sum, the 2-byte big-endian topic length and
the topic bytes, the 2 big-endian bytes of the packet id only when QoS > 0,
then the payload verbatim; the returned count is the length of that byte
sequence. -/
theorem publish_encode_layout (msg : PublishMessage) (htype : msg.Type = PUBLISH)
    (hflags : msg.flags < 16) (hne : msg.topic ≠ []) (hw : ∀ b ∈ msg.topic, b ≠ 35 ∧ b ≠ 43)
    (_hq : msg.QoS ≤ 2) (hlen : msg.topic.length ≤ 65535)
    (hsize : 2 + msg.topic.length + (if msg.QoS > 0 then 2 else 0) + msg.payload.length
      ≤ 268435455) :
    (msg.Encode).2.2.2 = none ∧
      (msg.Encode).2.1 = some
        ([48 ||| msg.flags]
          ++ encodeRemlen 4
            (2 + msg.topic.length + (if msg.QoS > 0 then 2 else 0) + msg.payload.length)
          ++ [msg.topic.length / 256, msg.topic.length % 256] ++ msg.topic
          ++ (if msg.QoS > 0 then [msg.packetId / 256 % 256, msg.packetId % 256] else [])
          ++ msg.payload) ∧
      (msg.Encode).2.2.1 =
        ([48 ||| msg.flags]
          ++ encodeRemlen 4
            (2 + msg.topic.length + (if msg.QoS > 0 then 2 else 0) + msg.payload.length)
          ++ [msg.topic.length / 256, msg.topic.length % 256] ++ msg.topic
          ++ (if msg.QoS > 0 then [msg.packetId / 256 % 256, msg.packetId % 256] else [])
          ++ msg.payload).length := by
  have h0 : msg.topic.length ≠ 0 := fun e => hne (List.length_eq_zero.mp e)
  have hmt : msg.mtype = PUBLISH := htype
  have hb := (publish_typeByte msg.flags hflags).1
  have hout : headerBytes msg.mtype msg.flags (publishSize msg) ++ publishBody msg
      = [48 ||| msg.flags]
          ++ encodeRemlen 4
            (2 + msg.topic.length + (if msg.QoS > 0 then 2 else 0) + msg.payload.length)
          ++ [msg.topic.length / 256, msg.topic.length % 256] ++ msg.topic
          ++ (if msg.QoS > 0 then [msg.packetId / 256 % 256, msg.packetId % 256] else [])
          ++ msg.payload := by
    simp only [headerBytes, publishBody, publishSize, lpBytes, hmt, hb, List.append_assoc,
      List.cons_append, List.nil_append]
  rw [PublishEncode_eq msg h0 ((ValidTopic_iff _).mpr hw) hlen hsize, hout]
  exact ⟨rfl, rfl, rfl⟩

/-- C15 witness: topic "surgemq", QoS 1, packet id 7 and payload "send me home"
encode to 0x32, 23, 0, 7, 'surgemq', 0, 7, 'send me home', 25 bytes. -/
theorem publish_encode_layout_witness :
    surgemqPublish.QoS = 1 ∧ (surgemqPublish.Encode).2 = (some surgemqBytes, 25, none) ∧
      (surgemqPublish.Encode).2.2.2 = none :=
  ⟨by decide, by decide,
    (publish_encode_layout surgemqPublish (by decide) (by decide) (by decide) (by decide)
      (by decide) (by decide) (by decide)).1⟩

theorem fixedHeader_Decode_checked (DefaultFlags : Nat → Nat) (h : fixedHeader)
    (mtype flags n : Nat) (body : List Nat) (hn : n ≤ 268435455) (hlen : body.length = n)
    (hcheck : ¬ (((mtype <<< 4 ||| flags) % 256) >>> 4 ≠ PUBLISH ∧
      ((mtype <<< 4 ||| flags) % 256) &&& 15
        ≠ DefaultFlags (((mtype <<< 4 ||| flags) % 256) >>> 4))) :
    h.Decode DefaultFlags (headerBytes mtype flags n ++ body)
      = ({ remlen := (n : Int), mtype := ((mtype <<< 4 ||| flags) % 256) >>> 4,
           flags := ((mtype <<< 4 ||| flags) % 256) &&& 15, buf := body },
         (headerBytes mtype flags n).length, none) := by
  have hr := decodeRemlen_encodeRemlen 3 n 1 0 0 body (by norm_num; omega)
  simp only [Nat.zero_add, Nat.mul_one] at hr
  simp only [headerBytes, List.cons_append, fixedHeader.Decode, hr]
  rw [if_neg hcheck]
  simp only [hlen, Nat.lt_irrefl, if_false, List.length_cons]
  have : List.take n body = body := by rw [← hlen]; exact List.take_length body
  rw [this, Nat.add_comm]

/-- What the modelled `PublishMessage.Decode` returns on the bytes of a PUBLISH
packet. -/
theorem PublishDecode_eq (DefaultFlags : Nat → Nat) (m p : PublishMessage)
    (hflags : p.flags < 16) (hvalid : ValidTopic p.topic = true)
    (hsize : publishSize p ≤ 268435455) :
    m.Decode DefaultFlags (headerBytes PUBLISH p.flags (publishSize p) ++ publishBody p)
      = ({ remlen := (publishSize p : Int), mtype := PUBLISH, flags := p.flags, buf := [],
           topic := p.topic,
           packetId := if p.QoS > 0 then p.packetId / 256 % 256 * 256 + p.packetId % 256
             else m.packetId,
           payload := p.payload },
         (headerBytes PUBLISH p.flags (publishSize p) ++ publishBody p).length, none) := by
  obtain ⟨-, hb1, hb2⟩ := publish_typeByte p.flags hflags
  have hd := fixedHeader_Decode_checked DefaultFlags m.tofixedHeader PUBLISH p.flags
    (publishSize p) (publishBody p) hsize (publishBody_length p) (by
      rw [hb1]
      exact fun c => c.1 rfl)
  rw [hb1, hb2] at hd
  obtain ⟨⟨remlen, mtype, flags, buf⟩, topic, pid, payload⟩ := p
  simp only at hflags hvalid
  unfold PublishMessage.Decode
  rw [hd]
  by_cases hq : (flags >>> 1 &&& 3) > 0
  · simp only [publishBody, PublishMessage.QoS, hq, if_true, readLPBytes_lpBytes, hvalid,
      not_true_eq_false, if_false, List.cons_append, List.nil_append, readUint16,
      List.length_append, lpBytes_length, List.length_cons, Prod.mk.injEq, and_true, true_and,
      Nat.zero_add]
    omega
  · simp only [publishBody, PublishMessage.QoS, hq, if_false, readLPBytes_lpBytes, hvalid,
      not_true_eq_false, List.nil_append, List.length_append, lpBytes_length, Prod.mk.injEq,
      and_true, true_and, Nat.zero_add]
    omega

/-- The modelled `PublishMessage.Encode` returns a reader only when it
succeeds. -/
theorem PublishEncode_reader (msg : PublishMessage) (h : (msg.Encode).2.2.2 ≠ none) :
    (msg.Encode).2.1 = none := by
  unfold PublishMessage.Encode at h ⊢
  by_cases hc : msg.topic.length = 0 ∨ ¬ ValidTopic msg.topic = true
  · rw [if_pos hc]
  rw [if_neg hc] at h ⊢
  simp only at h ⊢
  rcases h1 : msg.tofixedHeader.SetRemainingLength
      (((if msg.QoS > 0 then 2 + msg.topic.length + 2 else 2 + msg.topic.length)
        + msg.payload.length : Nat) : Int) with ⟨hd1, _ | e1⟩
  swap
  · simp only [h1]
  simp only [h1] at h ⊢
  rcases h2 : fixedHeader.Encode hd1 with ⟨hd2, r2, n2, _ | e2⟩
  swap
  · simp only [h2]
  simp only [h2] at h ⊢
  rcases h3 : writeLPBytes hd2.buf msg.topic with ⟨b3, n3, _ | e3⟩
  swap
  · simp only [h3]
  simp only [h3] at h
  exact absurd rfl h

/-- C16 as stated fails: `longTopicPublish` has a non-empty wildcard-free topic
and QoS 0, and `longPayloadPublish` has the non-empty wildcard-free topic "a"
and QoS 0, yet `Encode` returns an error and no bytes for both, so there is
nothing that decodes back to their fields: a topic of 65536 bytes has no
2-byte length, and a Remaining Length of 268435459 is above 268435455. -/
theorem publish_roundtrip_counterexample :
    (longTopicPublish.topic ≠ [] ∧ (∀ b ∈ longTopicPublish.topic, b ≠ 35 ∧ b ≠ 43) ∧
      longTopicPublish.QoS ≤ 2 ∧ (longTopicPublish.Encode).2.2.2 ≠ none ∧
      (longTopicPublish.Encode).2.1 = none) ∧
    (longPayloadPublish.topic ≠ [] ∧ (∀ b ∈ longPayloadPublish.topic, b ≠ 35 ∧ b ≠ 43) ∧
      longPayloadPublish.QoS ≤ 2 ∧ (longPayloadPublish.Encode).2.2.2 ≠ none ∧
      (longPayloadPublish.Encode).2.1 = none) := by
  have ht : longTopicPublish.topic = List.replicate 65536 97 := rfl
  have hp : longPayloadPublish.payload = List.replicate 268435456 0 := rfl
  have herrT : (longTopicPublish.Encode).2.2.2 ≠ none := by
    intro h
    have := (PublishEncode_accepts longTopicPublish h).2.2.1
    rw [ht, List.length_replicate] at this
    exact absurd this (by decide)
  have herr : (longPayloadPublish.Encode).2.2.2 ≠ none := by
    intro h
    have hs := (PublishEncode_accepts longPayloadPublish h).2.2.2
    have hge := publishSize_ge longPayloadPublish
    rw [hp, List.length_replicate] at hge
    exact absurd (Nat.le_trans hge hs) (by decide)
  refine ⟨⟨?_, ?_, by decide, herrT, PublishEncode_reader _ herrT⟩,
    ⟨by decide, by decide, by decide, herr, PublishEncode_reader _ herr⟩⟩
  · rw [ht]
    intro e
    have := congrArg List.length e
    rw [List.length_replicate] at this
    exact absurd this (by decide)
  · rw [ht]
    intro b hb
    rw [List.eq_of_mem_replicate hb]
    decide

/-- C16 (amended): for every PUBLISH message p with 4-bit flags, a 16-bit packet
id, a non-empty wildcard-free topic of at most 65535 bytes, QoS in 0, 1, 2 and
a Remaining Length `2 + len(topic) + (2 if QoS > 0) + len(payload)` of at most
268435455 (an empty payload included), `p.Encode()` succeeds and returns bytes
with their count; decoding those bytes into a fresh `PublishMessage` succeeds,
the count of consumed bytes is the length of those bytes, and the decoded
message has the same topic, QoS, dup, retain and payload, and the same packet
id whenever QoS > 0. -/
theorem publish_roundtrip (DefaultFlags : Nat → Nat) (p : PublishMessage)
    (htype : p.Type = PUBLISH) (hflags : p.flags < 16) (hpid : p.packetId < 65536)
    (hne : p.topic ≠ []) (hw : ∀ b ∈ p.topic, b ≠ 35 ∧ b ≠ 43) (_hq : p.QoS ≤ 2)
    (hlen : p.topic.length ≤ 65535)
    (hsize : 2 + p.topic.length + (if p.QoS > 0 then 2 else 0) + p.payload.length
      ≤ 268435455) :
    ∃ p1 out q, p.Encode = (p1, some out, out.length, none) ∧
      NewPublishMessage.Decode DefaultFlags out = (q, out.length, none) ∧
      q.Type = PUBLISH ∧ q.Topic = p.Topic ∧ q.QoS = p.QoS ∧ q.Dup = p.Dup ∧
      q.Retain = p.Retain ∧ q.Payload = p.Payload ∧ (p.QoS > 0 → q.PacketId = p.PacketId) := by
  have h0 : p.topic.length ≠ 0 := fun e => hne (List.length_eq_zero.mp e)
  have hvalid : ValidTopic p.topic = true := (ValidTopic_iff _).mpr hw
  have hmt : p.mtype = PUBLISH := htype
  have he := PublishEncode_eq p h0 hvalid hlen hsize
  rw [hmt] at he
  have hd := PublishDecode_eq DefaultFlags NewPublishMessage p hflags hvalid hsize
  refine ⟨_, _, _, he, hd, rfl, rfl, rfl, rfl, rfl, rfl, ?_⟩
  intro hq
  show (if p.QoS > 0 then p.packetId / 256 % 256 * 256 + p.packetId % 256
    else NewPublishMessage.packetId) = p.packetId
  rw [if_pos hq]
  omega

/-- C16 witness: `surgemqPublish` encodes to the 25 bytes of the encode test and
`emptyPayloadPublish`, whose payload is empty, to 13 bytes; both byte
sequences are decoded into a fresh message with the fields of the message
encoded, and all their bytes are consumed. -/
theorem publish_roundtrip_witness :
    (surgemqPublish.Encode).2 = (some surgemqBytes, 25, none) ∧
      emptyPayloadPublish.Payload = [] ∧
      (emptyPayloadPublish.Encode).2
        = (some [50, 11, 0, 7, 115, 117, 114, 103, 101, 109, 113, 0, 7], 13, none) ∧
      (∃ p1 out q, surgemqPublish.Encode = (p1, some out, out.length, none) ∧
        NewPublishMessage.Decode (fun _ => 0) out = (q, out.length, none) ∧
        q.Type = PUBLISH ∧ q.Topic = surgemqPublish.Topic ∧ q.QoS = surgemqPublish.QoS ∧
        q.Dup = surgemqPublish.Dup ∧ q.Retain = surgemqPublish.Retain ∧
        q.Payload = surgemqPublish.Payload ∧
        (surgemqPublish.QoS > 0 → q.PacketId = surgemqPublish.PacketId)) ∧
      (∃ p1 out q, emptyPayloadPublish.Encode = (p1, some out, out.length, none) ∧
        NewPublishMessage.Decode (fun _ => 0) out = (q, out.length, none) ∧
        q.Type = PUBLISH ∧ q.Topic = emptyPayloadPublish.Topic ∧
        q.QoS = emptyPayloadPublish.QoS ∧ q.Dup = emptyPayloadPublish.Dup ∧
        q.Retain = emptyPayloadPublish.Retain ∧ q.Payload = emptyPayloadPublish.Payload ∧
        (emptyPayloadPublish.QoS > 0 → q.PacketId = emptyPayloadPublish.PacketId)) :=
  ⟨by decide, by decide, by decide,
    publish_roundtrip (fun _ => 0) surgemqPublish (by decide) (by decide) (by decide)
      (by decide) (by decide) (by decide) (by decide) (by decide),
    publish_roundtrip (fun _ => 0) emptyPayloadPublish (by decide) (by decide) (by decide)
      (by decide) (by decide) (by decide) (by decide) (by decide)⟩

/-- The modelled fixed-header decode fails when the source ends before the
declared number of body bytes. -/
theorem fixedHeader_Decode_truncated (DefaultFlags : Nat → Nat) (h : fixedHeader) (b : Nat)
    (rest body : List Nat) (n m : Nat) (hd : decodeRemlen 4 1 0 0 rest = some (n, m, body))
    (hshort : body.length < n) : (h.Decode DefaultFlags (b :: rest)).2.2 ≠ none := by
  simp only [fixedHeader.Decode, hd, hshort, if_true]
  split <;> simp

/-- C17: when the byte source holds a type/flags byte and a Remaining-Length
field that declares n body bytes but fewer than n bytes follow, `Decode` of
PUBLISH, of PUBREC and of CONNECT returns an error. -/
theorem truncated_packet_rejected (DefaultFlags : Nat → Nat) (b : Nat) (rest body : List Nat)
    (n m : Nat) (mp : PublishMessage) (mr : PubrecMessage) (mc : ConnectMessage)
    (hd : decodeRemlen 4 1 0 0 rest = some (n, m, body)) (hshort : body.length < n) :
    (mp.Decode DefaultFlags (b :: rest)).2.2 ≠ none ∧
      (mr.Decode DefaultFlags (b :: rest)).2.2 ≠ none ∧
      (mc.Decode DefaultFlags (b :: rest)).2.2 ≠ none := by
  refine ⟨?_, ?_, ?_⟩
  · have hf := fixedHeader_Decode_truncated DefaultFlags mp.tofixedHeader b rest body n m hd hshort
    unfold PublishMessage.Decode
    rcases hh : fixedHeader.Decode DefaultFlags mp.tofixedHeader (b :: rest) with ⟨h1, n1, _ | e1⟩
    · rw [hh] at hf
      exact absurd rfl hf
    · simp
  · have hf := fixedHeader_Decode_truncated DefaultFlags mr.tofixedHeader b rest body n m hd hshort
    unfold PubrecMessage.Decode
    rcases hh : fixedHeader.Decode DefaultFlags mr.tofixedHeader (b :: rest) with ⟨h1, n1, _ | e1⟩
    · rw [hh] at hf
      exact absurd rfl hf
    · simp
  · have hf := fixedHeader_Decode_truncated DefaultFlags mc.tofixedHeader b rest body n m hd hshort
    unfold ConnectMessage.Decode
    rcases hh : fixedHeader.Decode DefaultFlags mc.tofixedHeader (b :: rest) with ⟨h1, n1, _ | e1⟩
    · rw [hh] at hf
      exact absurd rfl hf
    · simp

/-- C17 witness: the PUBLISH packet that declares 26 body bytes with 23
available and the PUBREC packet that declares 2 with 1 available are both
rejected. -/
theorem truncated_packet_rejected_witness :
    (NewPublishMessage.Decode (fun _ => 0) truncatedPublish).2.2 ≠ none ∧
      (NewPubrecMessage.Decode (fun _ => 0) truncatedPubrec).2.2 ≠ none :=
  ⟨(truncated_packet_rejected (fun _ => 0) 50 (truncatedPublish.drop 1)
      (truncatedPublish.drop 2) 26 1 NewPublishMessage NewPubrecMessage NewConnectMessage
      (by decide) (by decide)).1,
    (truncated_packet_rejected (fun _ => 0) 80 [2, 7] [7] 2 1 NewPublishMessage
      NewPubrecMessage NewConnectMessage (by decide) (by decide)).2.1⟩

theorem pubrec_typeByte : (PUBREC <<< 4 ||| 0) % 256 = 80 := by decide

/-- C20: for every 16-bit packet id i, a fresh PUBREC message with packet id i
encodes to exactly the 4 bytes 0x50, 2, i >> 8, i & 0xFF with a returned count
of 4, and decoding those 4 bytes into a fresh `PubrecMessage` (PUBREC's fixed
flag pattern being 0, as the decode test shows) succeeds with a consumed-byte
count of 4, `Type()` PUBREC and `PacketId()` i. -/
theorem pubrec_codec_exact (DefaultFlags : Nat → Nat) (hDF : DefaultFlags PUBREC = 0) (i : Nat)
    (hi : i < 65536) :
    ((NewPubrecMessage.SetPacketId i).Encode).2
        = (some [80, 2, i >>> 8, i &&& 255], 4, none) ∧
      ∃ q, NewPubrecMessage.Decode DefaultFlags [80, 2, i >>> 8, i &&& 255] = (q, 4, none) ∧
        q.Type = PUBREC ∧ q.PacketId = i := by
  have e1 : i >>> 8 = i / 256 := Nat.shiftRight_eq_div_pow i 8
  have e2 : i &&& 255 = i % 256 := Nat.and_pow_two_sub_one_eq_mod i 8
  have e3 : i / 256 % 256 = i / 256 := Nat.mod_eq_of_lt (by omega)
  have e4 : i / 256 * 256 + i % 256 = i := by omega
  rw [e1, e2]
  constructor
  · simp only [PubrecMessage.Encode, PubrecMessage.SetPacketId, NewPubrecMessage,
      PubrecMessage.zero, fixedHeader.SetType, fixedHeader.SetRemainingLength,
      fixedHeader.Encode, maxRemainingLength, writeUint16, e3]
    rfl
  · have hc : ¬ (((PUBREC <<< 4 ||| 0) % 256) >>> 4 ≠ PUBLISH ∧
        ((PUBREC <<< 4 ||| 0) % 256) &&& 15
          ≠ DefaultFlags (((PUBREC <<< 4 ||| 0) % 256) >>> 4)) := by
      rintro ⟨-, h⟩
      apply h
      show 0 = DefaultFlags 5
      exact hDF.symm
    have hd := fixedHeader_Decode_checked DefaultFlags NewPubrecMessage.tofixedHeader PUBREC 0 2
      [i / 256, i % 256] (by decide) rfl hc
    have hsrc : [80, 2, i / 256, i % 256] = headerBytes PUBREC 0 2 ++ [i / 256, i % 256] := rfl
    refine ⟨{ remlen := 2, mtype := PUBREC, flags := 0, buf := [], packetId := i }, ?_, rfl, rfl⟩
    unfold PubrecMessage.Decode
    rw [hsrc, hd]
    simp only [readUint16, e4, List.length_nil, gt_iff_lt, Nat.lt_irrefl, if_false]
    rfl

/-- C20 witness: packet id 7 encodes to 0x50, 2, 0, 7 and decodes back with a
count of 4. -/
theorem pubrec_codec_exact_witness :
    ((NewPubrecMessage.SetPacketId 7).Encode).2 = (some [80, 2, 0, 7], 4, none) ∧
      ∃ q, NewPubrecMessage.Decode (fun _ => 0) [80, 2, 0, 7] = (q, 4, none) ∧
        q.Type = PUBREC ∧ q.PacketId = 7 :=
  pubrec_codec_exact (fun _ => 0) rfl 7 (by decide)

/-- C12 witness: on `sampleConnect`, `SetClientId("a b")` is rejected with
`ErrIdentifierRejected` and the stored client id stays "ab", while a client id
of 24 letters 'a' is accepted. -/
theorem SetClientId_validates_witness :
    (sampleConnect.SetClientId [97, 32, 98]).2 = some Error.ErrIdentifierRejected ∧
      (sampleConnect.SetClientId [97, 32, 98]).1 = sampleConnect ∧
      (sampleConnect.SetClientId (List.replicate 24 97)).2 = none :=
  have h1 := (SetClientId_validates sampleConnect [97, 32, 98]).2.1
    ⟨by decide, 32, by decide, by decide⟩
  ⟨h1.1, h1.2,
    ((SetClientId_validates sampleConnect (List.replicate 24 97)).2.2 (by decide)).1⟩

/-- The optional sections of `decodeMessage` on a buffer that holds the will
strings (when the will flag is set) and nothing else, with both credential
flags set. -/
theorem decodeOptional_none (m : ConnectMessage) (total : Nat) (wt wm : List Nat)
    (hb : m.buf = if m.WillFlag then lpBytes wt ++ lpBytes wm else [])
    (hu : m.UsernameFlag = true) (hp : m.PasswordFlag = true) :
    (decodeOptional m total).2.2 = none ∧ (decodeOptional m total).1.username = m.username ∧
      (decodeOptional m total).1.password = m.password := by
  obtain ⟨⟨remlen, mtype, flags, buf⟩, f0, v0, k0, pn0, cid0, wt0, wm0, un0, pw0⟩ := m
  simp only [ConnectMessage.WillFlag, ConnectMessage.UsernameFlag,
    ConnectMessage.PasswordFlag] at hb hu hp
  by_cases hw : (f0 >>> 2 &&& 1 == 1) = true <;>
  simp only [hw, if_true, if_false, Bool.false_eq_true, List.nil_append] at hb <;>
  subst hb <;>
  simp only [decodeOptional, andThen, willStage, userStage, passStage, endStage,
    ConnectMessage.WillFlag, ConnectMessage.UsernameFlag, ConnectMessage.PasswordFlag,
    hw, hu, hp, true_and, and_true, false_and, and_false, and_self, if_true, if_false,
    Bool.false_eq_true, not_true_eq_false, not_false_eq_true,
    readLPBytes_lpBytes, readLPBytes_lpBytes_nil, List.append_nil, List.nil_append,
    List.append_assoc, lpBytes_append_pos, lpBytes_pos, List.length_nil, gt_iff_lt,
    Nat.lt_irrefl]

/-- The optional sections of `decodeMessage` on a buffer that holds the will
strings (when the will flag is set) and one more length-prefixed string, with
both credential flags set. -/
theorem decodeOptional_one (m : ConnectMessage) (total : Nat) (wt wm s : List Nat)
    (hb : m.buf = (if m.WillFlag then lpBytes wt ++ lpBytes wm else []) ++ lpBytes s)
    (hu : m.UsernameFlag = true) (hp : m.PasswordFlag = true) :
    (decodeOptional m total).2.2 = none ∧ (decodeOptional m total).1.username = s ∧
      (decodeOptional m total).1.password = m.password := by
  obtain ⟨⟨remlen, mtype, flags, buf⟩, f0, v0, k0, pn0, cid0, wt0, wm0, un0, pw0⟩ := m
  simp only [ConnectMessage.WillFlag, ConnectMessage.UsernameFlag,
    ConnectMessage.PasswordFlag] at hb hu hp
  by_cases hw : (f0 >>> 2 &&& 1 == 1) = true <;>
  simp only [hw, if_true, if_false, Bool.false_eq_true, List.nil_append] at hb <;>
  subst hb <;>
  simp only [decodeOptional, andThen, willStage, userStage, passStage, endStage,
    ConnectMessage.WillFlag, ConnectMessage.UsernameFlag, ConnectMessage.PasswordFlag,
    hw, hu, hp, true_and, and_true, false_and, and_false, and_self, if_true, if_false,
    Bool.false_eq_true, not_true_eq_false, not_false_eq_true,
    readLPBytes_lpBytes, readLPBytes_lpBytes_nil, List.append_nil, List.nil_append,
    List.append_assoc, lpBytes_append_pos, lpBytes_pos, List.length_nil, gt_iff_lt,
    Nat.lt_irrefl]

/-- The optional sections of `decodeMessage` on a buffer that holds the will
strings (when the will flag is set) and two more length-prefixed strings, with
both credential flags set. -/
theorem decodeOptional_two (m : ConnectMessage) (total : Nat) (wt wm s t : List Nat)
    (hb : m.buf = (if m.WillFlag then lpBytes wt ++ lpBytes wm else [])
      ++ (lpBytes s ++ lpBytes t))
    (hu : m.UsernameFlag = true) (hp : m.PasswordFlag = true) :
    (decodeOptional m total).2.2 = none ∧ (decodeOptional m total).1.username = s ∧
      (decodeOptional m total).1.password = t := by
  obtain ⟨⟨remlen, mtype, flags, buf⟩, f0, v0, k0, pn0, cid0, wt0, wm0, un0, pw0⟩ := m
  simp only [ConnectMessage.WillFlag, ConnectMessage.UsernameFlag,
    ConnectMessage.PasswordFlag] at hb hu hp
  by_cases hw : (f0 >>> 2 &&& 1 == 1) = true <;>
  simp only [hw, if_true, if_false, Bool.false_eq_true, List.nil_append] at hb <;>
  subst hb <;>
  simp only [decodeOptional, andThen, willStage, userStage, passStage, endStage,
    ConnectMessage.WillFlag, ConnectMessage.UsernameFlag, ConnectMessage.PasswordFlag,
    hw, hu, hp, true_and, and_true, false_and, and_false, and_self, if_true, if_false,
    Bool.false_eq_true, not_true_eq_false, not_false_eq_true,
    readLPBytes_lpBytes, readLPBytes_lpBytes_nil, List.append_nil, List.nil_append,
    List.append_assoc, lpBytes_append_pos, lpBytes_pos, List.length_nil, gt_iff_lt,
    Nat.lt_irrefl]

/-- Decoding a body that starts with `bodyHead p` and goes on with `tail`, when
`p` passes the decoder's checks: the optional sections run on the will strings
of `p` followed by `tail`. -/
theorem decodeMessage_bodyHead (m p : ConnectMessage) (tail : List Nat)
    (hv : p.version = 3 ∨ p.version = 4) (hf : FlagRules p) (hc : ClientIdRules p) :
    ConnectMessage.decodeMessage { m with buf := bodyHead p ++ tail } =
      decodeOptional
        { m with
          buf := (if p.WillFlag then lpBytes p.willTopic ++ lpBytes p.willMessage else []) ++ tail
          protoName := tableName p.version
          version := p.version
          connectFlags := p.connectFlags
          keepAlive := p.keepAlive / 256 % 256 * 256 + p.keepAlive % 256
          clientId := p.clientId }
        (2 + (tableName p.version).length + 1 + 1 + 2 + (2 + p.clientId.length)) := by
  have hf1 : FlagRules { { m with buf := bodyHead p ++ tail } with connectFlags := p.connectFlags } :=
    FlagRules_congr p _ rfl hf
  have hb : ({ m with buf := bodyHead p ++ tail } : ConnectMessage).buf
      = lpBytes (tableName p.version) ++ p.version :: p.connectFlags :: (p.keepAlive / 256 % 256)
        :: (p.keepAlive % 256) :: (lpBytes p.clientId
          ++ ((if p.WillFlag then lpBytes p.willTopic ++ lpBytes p.willMessage else []) ++ tail)) := by
    simp only [bodyHead, List.append_assoc, List.cons_append]
  rw [decodeMessage_head _ (tableName p.version) p.clientId _ p.version
    p.connectFlags (p.keepAlive / 256 % 256) (p.keepAlive % 256) hb (SupportedVersions_eq _ hv) hf1]
  obtain ⟨c1, c2⟩ := hc
  simp only [ConnectMessage.CleanSession] at c1
  rw [if_neg c1, if_neg c2]

/-- C21: let `p` give an otherwise valid body (version 3 or 4, connect flags
that pass the decoder's rules, a client id that passes its rules) with both
the username flag and the password flag set, and let the message `m` decoded
into be fresh (empty username and password).  Then `decodeMessage` succeeds
(a) with username and password both empty when the body ends right after the
client id, or after the will message when the will flag is set; (b) with the
username equal to `s` and the password empty when the single length-prefixed
string `s` follows; and it reads username `s` and password `t` when the two
length-prefixed strings `s` and `t` follow. -/
theorem decodeMessage_absent_credentials (m p : ConnectMessage) (s t : List Nat)
    (hv : p.version = 3 ∨ p.version = 4) (hf : FlagRules p) (hc : ClientIdRules p)
    (hu : p.UsernameFlag = true) (hp : p.PasswordFlag = true)
    (hmu : m.username = []) (hmp : m.password = []) :
    ((ConnectMessage.decodeMessage { m with buf := bodyHead p }).2.2 = none ∧
        (ConnectMessage.decodeMessage { m with buf := bodyHead p }).1.username = [] ∧
        (ConnectMessage.decodeMessage { m with buf := bodyHead p }).1.password = []) ∧
      ((ConnectMessage.decodeMessage { m with buf := bodyHead p ++ lpBytes s }).2.2 = none ∧
        (ConnectMessage.decodeMessage { m with buf := bodyHead p ++ lpBytes s }).1.username = s ∧
        (ConnectMessage.decodeMessage { m with buf := bodyHead p ++ lpBytes s }).1.password = []) ∧
      ((ConnectMessage.decodeMessage
          { m with buf := bodyHead p ++ (lpBytes s ++ lpBytes t) }).2.2 = none ∧
        (ConnectMessage.decodeMessage
          { m with buf := bodyHead p ++ (lpBytes s ++ lpBytes t) }).1.username = s ∧
        (ConnectMessage.decodeMessage
          { m with buf := bodyHead p ++ (lpBytes s ++ lpBytes t) }).1.password = t) := by
  refine ⟨?_, ?_, ?_⟩
  · have h0 := decodeMessage_bodyHead m p [] hv hf hc
    simp only [List.append_nil] at h0
    rw [h0]
    have h := decodeOptional_none
      { m with
        buf := if p.WillFlag then lpBytes p.willTopic ++ lpBytes p.willMessage else []
        protoName := tableName p.version
        version := p.version
        connectFlags := p.connectFlags
        keepAlive := p.keepAlive / 256 % 256 * 256 + p.keepAlive % 256
        clientId := p.clientId }
      (2 + (tableName p.version).length + 1 + 1 + 2 + (2 + p.clientId.length))
      p.willTopic p.willMessage rfl hu hp
    exact ⟨h.1, h.2.1.trans hmu, h.2.2.trans hmp⟩
  · rw [decodeMessage_bodyHead m p (lpBytes s) hv hf hc]
    have h := decodeOptional_one
      { m with
        buf := (if p.WillFlag then lpBytes p.willTopic ++ lpBytes p.willMessage else [])
          ++ lpBytes s
        protoName := tableName p.version
        version := p.version
        connectFlags := p.connectFlags
        keepAlive := p.keepAlive / 256 % 256 * 256 + p.keepAlive % 256
        clientId := p.clientId }
      (2 + (tableName p.version).length + 1 + 1 + 2 + (2 + p.clientId.length))
      p.willTopic p.willMessage s rfl hu hp
    exact ⟨h.1, h.2.1, h.2.2.trans hmp⟩
  · rw [decodeMessage_bodyHead m p (lpBytes s ++ lpBytes t) hv hf hc]
    exact decodeOptional_two
      { m with
        buf := (if p.WillFlag then lpBytes p.willTopic ++ lpBytes p.willMessage else [])
          ++ (lpBytes s ++ lpBytes t)
        protoName := tableName p.version
        version := p.version
        connectFlags := p.connectFlags
        keepAlive := p.keepAlive / 256 % 256 * 256 + p.keepAlive % 256
        clientId := p.clientId }
      (2 + (tableName p.version).length + 1 + 1 + 2 + (2 + p.clientId.length))
      p.willTopic p.willMessage s t rfl hu hp

/-- C21 witness: the body of `flagsOnly` (flags 0xC6, 20 bytes up to the will
message "m") is decoded into a fresh message without credentials; followed by
the string "u" it gives username "u" and no password; followed by "u" and "x"
it gives username "u" and password "x". -/
theorem decodeMessage_absent_credentials_witness :
    bodyHead flagsOnly
        = [0, 4, 77, 81, 84, 84, 4, 198, 0, 10, 0, 2, 97, 98, 0, 1, 116, 0, 1, 109] ∧
      (flagsOnly.UsernameFlag = true ∧ flagsOnly.PasswordFlag = true) ∧
      ((ConnectMessage.decodeMessage
          { NewConnectMessage with buf := bodyHead flagsOnly }).2.2 = none ∧
        (ConnectMessage.decodeMessage
          { NewConnectMessage with buf := bodyHead flagsOnly }).1.username = [] ∧
        (ConnectMessage.decodeMessage
          { NewConnectMessage with buf := bodyHead flagsOnly }).1.password = []) ∧
      ((ConnectMessage.decodeMessage
          { NewConnectMessage with buf := bodyHead flagsOnly ++ lpBytes [117] }).2.2 = none ∧
        (ConnectMessage.decodeMessage
          { NewConnectMessage with buf := bodyHead flagsOnly ++ lpBytes [117] }).1.username
            = [117] ∧
        (ConnectMessage.decodeMessage
          { NewConnectMessage with buf := bodyHead flagsOnly ++ lpBytes [117] }).1.password
            = []) ∧
      ((ConnectMessage.decodeMessage
          { NewConnectMessage with
            buf := bodyHead flagsOnly ++ (lpBytes [117] ++ lpBytes [120]) }).2.2 = none ∧
        (ConnectMessage.decodeMessage
          { NewConnectMessage with
            buf := bodyHead flagsOnly ++ (lpBytes [117] ++ lpBytes [120]) }).1.username
            = [117] ∧
        (ConnectMessage.decodeMessage
          { NewConnectMessage with
            buf := bodyHead flagsOnly ++ (lpBytes [117] ++ lpBytes [120]) }).1.password
            = [120]) :=
  ⟨by decide, ⟨by decide, by decide⟩,
    decodeMessage_absent_credentials NewConnectMessage flagsOnly [117] [120] (by decide)
      ⟨by decide, by decide, by decide, by decide⟩ ⟨by decide, by decide⟩ (by decide) (by decide)
      rfl rfl⟩

theorem flagBit_testBit (f i : Nat) : (f >>> i &&& 1 == 1) = f.testBit i := by
  simp only [Nat.testBit, Nat.and_comm 1, Nat.and_one_is_mod]
  rcases Nat.mod_two_eq_zero_or_one (f >>> i) with h | h <;> simp [h]

theorem flagBit_or (f k i : Nat) :
    ((f ||| 2 ^ k) >>> i &&& 1 == 1) = (decide (i = k) || (f >>> i &&& 1 == 1)) := by
  rw [flagBit_testBit, flagBit_testBit, Nat.testBit_or, Nat.testBit_two_pow, Bool.or_comm]
  by_cases h : i = k
  · subst h; simp
  · have h1 : ¬ k = i := fun e => h e.symm
    simp [h, h1]

theorem flagBit_and (f k i : Nat) (hk : k < 8) (hi : i < 8) :
    ((f &&& (255 - 2 ^ k)) >>> i &&& 1 == 1) = (!decide (i = k) && (f >>> i &&& 1 == 1)) := by
  have h : (255 - 2 ^ k).testBit i = !decide (i = k) := by
    interval_cases k <;> interval_cases i <;> decide
  rw [flagBit_testBit, flagBit_testBit, Nat.testBit_and, h, Bool.and_comm]

theorem flagBit_qos (f q i : Nat) (hq : q ≤ 2) (hi : i < 8) (h3 : i ≠ 3) (h4 : i ≠ 4) :
    ((((f &&& 231) ||| ((q <<< 3) % 256)) >>> i) &&& 1 == 1) = (f >>> i &&& 1 == 1) := by
  have h : (231 : Nat).testBit i = true := by
    interval_cases i <;> first | decide | exact absurd rfl h3 | exact absurd rfl h4
  have h0 : ((q <<< 3) % 256).testBit i = false := by
    interval_cases q <;> interval_cases i <;> first | decide | exact absurd rfl h3 | exact absurd rfl h4
  rw [flagBit_testBit, flagBit_testBit, Nat.testBit_or, Nat.testBit_and, h, h0]
  simp

theorem reserved_iff (f : Nat) : f &&& 1 = 0 ↔ (f >>> 0 &&& 1 == 1) = false := by
  rw [Nat.shiftRight_zero, Nat.and_one_is_mod]
  rcases Nat.mod_two_eq_zero_or_one f with h | h <;> simp [h]

theorem setBit_own (f k : Nat) (hk : k < 8) (v : Bool) :
    (((if v = true then f ||| 2 ^ k else f &&& (255 - 2 ^ k)) >>> k) &&& 1 == 1) = v := by
  cases v
  · simp only [Bool.false_eq_true, if_false]
    rw [flagBit_and f k k hk hk]
    simp
  · simp only [if_true]
    rw [flagBit_or]
    simp

theorem setBit_other (f k i : Nat) (hk : k < 8) (hi : i < 8) (hik : i ≠ k) (v : Bool) :
    (((if v = true then f ||| 2 ^ k else f &&& (255 - 2 ^ k)) >>> i) &&& 1 == 1)
      = (f >>> i &&& 1 == 1) := by
  cases v
  · simp only [Bool.false_eq_true, if_false]
    rw [flagBit_and f k i hk hi]
    simp [hik]
  · simp only [if_true]
    rw [flagBit_or]
    simp [hik]

theorem setBit_byte (f k : Nat) (hk : k < 8) (hf : f < 256) (v : Bool) :
    (if v = true then f ||| 2 ^ k else f &&& (255 - 2 ^ k)) < 256 := by
  cases v
  · simp only [Bool.false_eq_true, if_false]
    exact Nat.lt_of_le_of_lt Nat.and_le_left hf
  · simp only [if_true]
    have h2 : 2 ^ k < 2 ^ 8 := Nat.pow_lt_pow_right (by decide) hk
    have h1 : f < 2 ^ 8 := hf
    exact Nat.or_lt_two_pow h1 h2

theorem SetCleanSession_flags (msg : ConnectMessage) (v : Bool) :
    msg.SetCleanSession v = { msg with connectFlags :=
      if v = true then msg.connectFlags ||| 2 ^ 1 else msg.connectFlags &&& (255 - 2 ^ 1) } := by
  cases v <;> rfl

theorem SetWillFlag_flags (msg : ConnectMessage) (v : Bool) :
    msg.SetWillFlag v = { msg with connectFlags :=
      if v = true then msg.connectFlags ||| 2 ^ 2 else msg.connectFlags &&& (255 - 2 ^ 2) } := by
  cases v <;> rfl

theorem SetWillRetain_flags (msg : ConnectMessage) (v : Bool) :
    msg.SetWillRetain v = { msg with connectFlags :=
      if v = true then msg.connectFlags ||| 2 ^ 5 else msg.connectFlags &&& (255 - 2 ^ 5) } := by
  cases v <;> rfl

theorem SetPasswordFlag_flags (msg : ConnectMessage) (v : Bool) :
    msg.SetPasswordFlag v = { msg with connectFlags :=
      if v = true then msg.connectFlags ||| 2 ^ 6 else msg.connectFlags &&& (255 - 2 ^ 6) } := by
  cases v <;> rfl

theorem SetUsernameFlag_flags (msg : ConnectMessage) (v : Bool) :
    msg.SetUsernameFlag v = { msg with connectFlags :=
      if v = true then msg.connectFlags ||| 2 ^ 7 else msg.connectFlags &&& (255 - 2 ^ 7) } := by
  cases v <;> rfl

theorem SetWillTopic_flags (msg : ConnectMessage) (v : List Nat) :
    msg.SetWillTopic v = { msg with
      willTopic := v
      connectFlags :=
        if v.length > 0 then msg.connectFlags ||| 2 ^ 2
        else if msg.willMessage.length = 0 then msg.connectFlags &&& (255 - 2 ^ 2)
        else msg.connectFlags } := by
  unfold ConnectMessage.SetWillTopic
  by_cases h : v.length > 0
  · simp only [h, if_true]; rfl
  · by_cases h1 : msg.willMessage.length = 0
    · simp only [h, h1, if_true, if_false]; rfl
    · simp only [h, h1, if_false]

theorem SetWillMessage_flags (msg : ConnectMessage) (v : List Nat) :
    msg.SetWillMessage v = { msg with
      willMessage := v
      connectFlags :=
        if v.length > 0 then msg.connectFlags ||| 2 ^ 2
        else if msg.willTopic.length = 0 then msg.connectFlags &&& (255 - 2 ^ 2)
        else msg.connectFlags } := by
  unfold ConnectMessage.SetWillMessage
  by_cases h : v.length > 0
  · simp only [h, if_true]; rfl
  · by_cases h1 : msg.willTopic.length = 0
    · simp only [h, h1, if_true, if_false]; rfl
    · simp only [h, h1, if_false]

theorem SetUsername_flags (msg : ConnectMessage) (v : List Nat) :
    msg.SetUsername v = { msg with
      username := v
      connectFlags :=
        if v.length > 0 then msg.connectFlags ||| 2 ^ 7 else msg.connectFlags &&& (255 - 2 ^ 7) } := by
  unfold ConnectMessage.SetUsername
  by_cases h : v.length > 0
  · simp only [h, if_true]; rfl
  · simp only [h, if_false]; rfl

theorem SetPassword_flags (msg : ConnectMessage) (v : List Nat) :
    msg.SetPassword v = { msg with
      password := v
      connectFlags :=
        if v.length > 0 then msg.connectFlags ||| 2 ^ 6 else msg.connectFlags &&& (255 - 2 ^ 6) } := by
  unfold ConnectMessage.SetPassword
  by_cases h : v.length > 0
  · simp only [h, if_true]; rfl
  · simp only [h, if_false]; rfl

theorem SetWillQos_flags (msg : ConnectMessage) (q : Nat) :
    (msg.SetWillQos q).1 = { msg with
      connectFlags :=
        if q ≤ 2 then (msg.connectFlags &&& 231) ||| ((q <<< 3) % 256) else msg.connectFlags } := by
  unfold ConnectMessage.SetWillQos QosAtMostOnce QosAtLeastOnce QosExactlyOnce
  by_cases h : q ≤ 2
  · have h1 : ¬ (q ≠ 0 ∧ q ≠ 1 ∧ q ≠ 2) := by omega
    rw [if_neg h1, if_pos h]
  · have h1 : q ≠ 0 ∧ q ≠ 1 ∧ q ≠ 2 := by omega
    rw [if_pos h1, if_neg h]

theorem SetVersion_fields (msg : ConnectMessage) (v : Nat) :
    (msg.SetVersion v).1 = { msg with
      version := if (SupportedVersions v).isSome then v else msg.version } := by
  unfold ConnectMessage.SetVersion
  rcases h : SupportedVersions v with _ | name <;> rfl

theorem SetClientId_fields (msg : ConnectMessage) (v : List Nat) :
    (msg.SetClientId v).1 = { msg with
      clientId := if v.length > 0 ∧ ¬ ValidClientId v then msg.clientId else v } := by
  unfold ConnectMessage.SetClientId
  by_cases h : v.length > 0 ∧ ¬ ValidClientId v
  · rw [if_pos h, if_pos h]
  · rw [if_neg h, if_neg h]

theorem run_bit (c : SetterCall) (msg : ConnectMessage) (i : Nat) (hi : i < 8)
    (hc : i ∉ c.ownBits) :
    ((c.run msg).connectFlags >>> i &&& 1 == 1) = (msg.connectFlags >>> i &&& 1 == 1) := by
  cases c with
  | SetType t => rfl
  | SetRemainingLength r => rfl
  | SetVersion v => simp only [SetterCall.run, SetVersion_fields]
  | SetKeepAlive v => rfl
  | SetClientId v => simp only [SetterCall.run, SetClientId_fields]
  | SetCleanSession v =>
    simp only [SetterCall.ownBits, List.mem_singleton] at hc
    simp only [SetterCall.run, SetCleanSession_flags]
    exact setBit_other _ 1 i (by decide) hi hc v
  | SetWillFlag v =>
    simp only [SetterCall.ownBits, List.mem_singleton] at hc
    simp only [SetterCall.run, SetWillFlag_flags]
    exact setBit_other _ 2 i (by decide) hi hc v
  | SetWillRetain v =>
    simp only [SetterCall.ownBits, List.mem_singleton] at hc
    simp only [SetterCall.run, SetWillRetain_flags]
    exact setBit_other _ 5 i (by decide) hi hc v
  | SetPasswordFlag v =>
    simp only [SetterCall.ownBits, List.mem_singleton] at hc
    simp only [SetterCall.run, SetPasswordFlag_flags]
    exact setBit_other _ 6 i (by decide) hi hc v
  | SetUsernameFlag v =>
    simp only [SetterCall.ownBits, List.mem_singleton] at hc
    simp only [SetterCall.run, SetUsernameFlag_flags]
    exact setBit_other _ 7 i (by decide) hi hc v
  | SetWillQos q =>
    simp only [SetterCall.ownBits, List.mem_cons, List.mem_singleton, List.not_mem_nil, or_false,
      not_or] at hc
    simp only [SetterCall.run, SetWillQos_flags]
    by_cases h : q ≤ 2
    · simp only [h, if_true]
      exact flagBit_qos _ q i h hi hc.1 hc.2
    · simp only [h, if_false]
  | SetWillTopic v =>
    simp only [SetterCall.ownBits, List.mem_singleton] at hc
    simp only [SetterCall.run, SetWillTopic_flags]
    by_cases h : v.length > 0
    · simp only [h, if_true]
      exact setBit_other _ 2 i (by decide) hi hc true
    · by_cases h1 : msg.willMessage.length = 0
      · simp only [h, h1, if_true, if_false]
        exact setBit_other _ 2 i (by decide) hi hc false
      · simp only [h, h1, if_false]
  | SetWillMessage v =>
    simp only [SetterCall.ownBits, List.mem_singleton] at hc
    simp only [SetterCall.run, SetWillMessage_flags]
    by_cases h : v.length > 0
    · simp only [h, if_true]
      exact setBit_other _ 2 i (by decide) hi hc true
    · by_cases h1 : msg.willTopic.length = 0
      · simp only [h, h1, if_true, if_false]
        exact setBit_other _ 2 i (by decide) hi hc false
      · simp only [h, h1, if_false]
  | SetUsername v =>
    simp only [SetterCall.ownBits, List.mem_singleton] at hc
    simp only [SetterCall.run, SetUsername_flags]
    by_cases h : v.length > 0
    · simp only [h, if_true]
      exact setBit_other _ 7 i (by decide) hi hc true
    · simp only [h, if_false]
      exact setBit_other _ 7 i (by decide) hi hc false
  | SetPassword v =>
    simp only [SetterCall.ownBits, List.mem_singleton] at hc
    simp only [SetterCall.run, SetPassword_flags]
    by_cases h : v.length > 0
    · simp only [h, if_true]
      exact setBit_other _ 6 i (by decide) hi hc true
    · simp only [h, if_false]
      exact setBit_other _ 6 i (by decide) hi hc false

theorem run_byte (c : SetterCall) (msg : ConnectMessage) (h : msg.connectFlags < 256) :
    (c.run msg).connectFlags < 256 := by
  cases c with
  | SetType t => exact h
  | SetRemainingLength r => exact h
  | SetVersion v => simp only [SetterCall.run, SetVersion_fields]; exact h
  | SetKeepAlive v => exact h
  | SetClientId v => simp only [SetterCall.run, SetClientId_fields]; exact h
  | SetCleanSession v =>
    simp only [SetterCall.run, SetCleanSession_flags]
    exact setBit_byte _ 1 (by decide) h v
  | SetWillFlag v =>
    simp only [SetterCall.run, SetWillFlag_flags]
    exact setBit_byte _ 2 (by decide) h v
  | SetWillRetain v =>
    simp only [SetterCall.run, SetWillRetain_flags]
    exact setBit_byte _ 5 (by decide) h v
  | SetPasswordFlag v =>
    simp only [SetterCall.run, SetPasswordFlag_flags]
    exact setBit_byte _ 6 (by decide) h v
  | SetUsernameFlag v =>
    simp only [SetterCall.run, SetUsernameFlag_flags]
    exact setBit_byte _ 7 (by decide) h v
  | SetWillQos q =>
    simp only [SetterCall.run, SetWillQos_flags]
    by_cases hq : q ≤ 2
    · simp only [hq, if_true]
      exact (SetWillQos_bits msg.connectFlags h q (by omega)).2.2
    · simp only [hq, if_false]
      exact h
  | SetWillTopic v =>
    simp only [SetterCall.run, SetWillTopic_flags]
    by_cases h0 : v.length > 0
    · simp only [h0, if_true]
      exact setBit_byte _ 2 (by decide) h true
    · by_cases h1 : msg.willMessage.length = 0
      · simp only [h0, h1, if_true, if_false]
        exact setBit_byte _ 2 (by decide) h false
      · simp only [h0, h1, if_false]
        exact h
  | SetWillMessage v =>
    simp only [SetterCall.run, SetWillMessage_flags]
    by_cases h0 : v.length > 0
    · simp only [h0, if_true]
      exact setBit_byte _ 2 (by decide) h true
    · by_cases h1 : msg.willTopic.length = 0
      · simp only [h0, h1, if_true, if_false]
        exact setBit_byte _ 2 (by decide) h false
      · simp only [h0, h1, if_false]
        exact h
  | SetUsername v =>
    simp only [SetterCall.run, SetUsername_flags]
    by_cases h0 : v.length > 0
    · simp only [h0, if_true]
      exact setBit_byte _ 7 (by decide) h true
    · simp only [h0, if_false]
      exact setBit_byte _ 7 (by decide) h false
  | SetPassword v =>
    simp only [SetterCall.run, SetPassword_flags]
    by_cases h0 : v.length > 0
    · simp only [h0, if_true]
      exact setBit_byte _ 6 (by decide) h true
    · simp only [h0, if_false]
      exact setBit_byte _ 6 (by decide) h false

theorem zero_not_ownBits (c : SetterCall) : 0 ∉ c.ownBits := by
  cases c <;> simp [SetterCall.ownBits]

theorem callAll_invariant (P : ConnectMessage → Prop) (ok : SetterCall → Prop)
    (step : ∀ c m, ok c → P m → P (c.run m)) (calls : List SetterCall) :
    ∀ msg, P msg → (∀ c ∈ calls, ok c) → P (callAll calls msg) := by
  induction calls with
  | nil => intro msg h _; exact h
  | cons c cs ih =>
    intro msg h hok
    exact ih (c.run msg) (step c msg (hok c (List.mem_cons_self c cs)) h)
      fun d hd => hok d (List.mem_cons_of_mem c hd)

theorem callAll_reserved (calls : List SetterCall) :
    (callAll calls NewConnectMessage).connectFlags < 256 ∧
      (callAll calls NewConnectMessage).connectFlags &&& 1 = 0 := by
  refine callAll_invariant (fun m => m.connectFlags < 256 ∧ m.connectFlags &&& 1 = 0)
    (fun _ => True) ?_ calls NewConnectMessage ⟨by decide, by decide⟩ (fun _ _ => trivial)
  intro c m _ hm
  refine ⟨run_byte c m hm.1, ?_⟩
  rw [reserved_iff, run_bit c m 0 (by decide) (zero_not_ownBits c), ← reserved_iff]
  exact hm.2

/-- C22: for every connect-flags value and every boolean v, each of
`SetCleanSession` (bit 1), `SetWillFlag` (bit 2), `SetWillRetain` (bit 5),
`SetPasswordFlag` (bit 6) and `SetUsernameFlag` (bit 7) makes its own getter
return v and leaves each of the seven other bits of the connect-flags byte as
it was; and the message reached from `NewConnectMessage` by any sequence of
public setter calls has connect flags that are a byte with the reserved bit 0
clear. -/
theorem flag_setters_own_bit (msg : ConnectMessage) (v : Bool) (calls : List SetterCall) :
    ((msg.SetCleanSession v).CleanSession = v ∧ ∀ i, i < 8 → i ≠ 1 →
        (msg.SetCleanSession v).connectFlags.testBit i = msg.connectFlags.testBit i) ∧
      ((msg.SetWillFlag v).WillFlag = v ∧ ∀ i, i < 8 → i ≠ 2 →
        (msg.SetWillFlag v).connectFlags.testBit i = msg.connectFlags.testBit i) ∧
      ((msg.SetWillRetain v).WillRetain = v ∧ ∀ i, i < 8 → i ≠ 5 →
        (msg.SetWillRetain v).connectFlags.testBit i = msg.connectFlags.testBit i) ∧
      ((msg.SetPasswordFlag v).PasswordFlag = v ∧ ∀ i, i < 8 → i ≠ 6 →
        (msg.SetPasswordFlag v).connectFlags.testBit i = msg.connectFlags.testBit i) ∧
      ((msg.SetUsernameFlag v).UsernameFlag = v ∧ ∀ i, i < 8 → i ≠ 7 →
        (msg.SetUsernameFlag v).connectFlags.testBit i = msg.connectFlags.testBit i) ∧
      (callAll calls NewConnectMessage).connectFlags < 256 ∧
      (callAll calls NewConnectMessage).connectFlags &&& 1 = 0 := by
  refine ⟨⟨?_, ?_⟩, ⟨?_, ?_⟩, ⟨?_, ?_⟩, ⟨?_, ?_⟩, ⟨?_, ?_⟩, callAll_reserved calls⟩
  · rw [SetCleanSession_flags]
    exact setBit_own msg.connectFlags 1 (by decide) v
  · intro i hi hne
    rw [← flagBit_testBit, ← flagBit_testBit, SetCleanSession_flags]
    exact setBit_other msg.connectFlags 1 i (by decide) hi hne v
  · rw [SetWillFlag_flags]
    exact setBit_own msg.connectFlags 2 (by decide) v
  · intro i hi hne
    rw [← flagBit_testBit, ← flagBit_testBit, SetWillFlag_flags]
    exact setBit_other msg.connectFlags 2 i (by decide) hi hne v
  · rw [SetWillRetain_flags]
    exact setBit_own msg.connectFlags 5 (by decide) v
  · intro i hi hne
    rw [← flagBit_testBit, ← flagBit_testBit, SetWillRetain_flags]
    exact setBit_other msg.connectFlags 5 i (by decide) hi hne v
  · rw [SetPasswordFlag_flags]
    exact setBit_own msg.connectFlags 6 (by decide) v
  · intro i hi hne
    rw [← flagBit_testBit, ← flagBit_testBit, SetPasswordFlag_flags]
    exact setBit_other msg.connectFlags 6 i (by decide) hi hne v
  · rw [SetUsernameFlag_flags]
    exact setBit_own msg.connectFlags 7 (by decide) v
  · intro i hi hne
    rw [← flagBit_testBit, ← flagBit_testBit, SetUsernameFlag_flags]
    exact setBit_other msg.connectFlags 7 i (by decide) hi hne v

/-- C22 witness: on `sampleConnect` (flags 0xCE) `SetWillFlag(false)` clears
the will flag and leaves bit 7 as it was, and the message reached from
`NewConnectMessage` by the calls of `everySetter` has connect flags 0xD0,
with bit 0 clear. -/
theorem flag_setters_own_bit_witness :
    (sampleConnect.SetWillFlag false).WillFlag = false ∧
      (sampleConnect.SetWillFlag false).connectFlags.testBit 7
        = sampleConnect.connectFlags.testBit 7 ∧
      (callAll everySetter NewConnectMessage).connectFlags = 208 ∧
      (callAll everySetter NewConnectMessage).connectFlags &&& 1 = 0 :=
  have h := flag_setters_own_bit sampleConnect false everySetter
  ⟨h.2.1.1, h.2.1.2 7 (by decide) (by decide), by decide, h.2.2.2.2.2.2⟩

theorem FlagsInStep_of_eq (a b : ConnectMessage)
    (h2 : (a.connectFlags >>> 2 &&& 1 == 1) = (b.connectFlags >>> 2 &&& 1 == 1))
    (h6 : (a.connectFlags >>> 6 &&& 1 == 1) = (b.connectFlags >>> 6 &&& 1 == 1))
    (h7 : (a.connectFlags >>> 7 &&& 1 == 1) = (b.connectFlags >>> 7 &&& 1 == 1))
    (ht : a.willTopic = b.willTopic) (hm : a.willMessage = b.willMessage)
    (hu : a.username = b.username) (hp : a.password = b.password)
    (h : FlagsInStep b) : FlagsInStep a := by
  unfold FlagsInStep ConnectMessage.WillFlag ConnectMessage.UsernameFlag
    ConnectMessage.PasswordFlag at h ⊢
  rw [h2, h6, h7, ht, hm, hu, hp]
  exact h

theorem run_inStep (c : SetterCall) (msg : ConnectMessage) (hc : c.isFlagCall = false)
    (h : FlagsInStep msg) : FlagsInStep (c.run msg) := by
  cases c with
  | SetWillFlag v => exact absurd hc (by simp [SetterCall.isFlagCall])
  | SetUsernameFlag v => exact absurd hc (by simp [SetterCall.isFlagCall])
  | SetPasswordFlag v => exact absurd hc (by simp [SetterCall.isFlagCall])
  | SetType t => exact h
  | SetRemainingLength r => exact h
  | SetKeepAlive v => exact h
  | SetVersion v =>
    simp only [SetterCall.run, SetVersion_fields]
    exact h
  | SetClientId v =>
    simp only [SetterCall.run, SetClientId_fields]
    exact h
  | SetCleanSession v =>
    refine FlagsInStep_of_eq _ msg
      (run_bit (.SetCleanSession v) msg 2 (by decide) (by simp [SetterCall.ownBits]))
      (run_bit (.SetCleanSession v) msg 6 (by decide) (by simp [SetterCall.ownBits]))
      (run_bit (.SetCleanSession v) msg 7 (by decide) (by simp [SetterCall.ownBits]))
      ?_ ?_ ?_ ?_ h <;> simp only [SetterCall.run, SetCleanSession_flags]
  | SetWillRetain v =>
    refine FlagsInStep_of_eq _ msg
      (run_bit (.SetWillRetain v) msg 2 (by decide) (by simp [SetterCall.ownBits]))
      (run_bit (.SetWillRetain v) msg 6 (by decide) (by simp [SetterCall.ownBits]))
      (run_bit (.SetWillRetain v) msg 7 (by decide) (by simp [SetterCall.ownBits]))
      ?_ ?_ ?_ ?_ h <;> simp only [SetterCall.run, SetWillRetain_flags]
  | SetWillQos q =>
    refine FlagsInStep_of_eq _ msg
      (run_bit (.SetWillQos q) msg 2 (by decide) (by simp [SetterCall.ownBits]))
      (run_bit (.SetWillQos q) msg 6 (by decide) (by simp [SetterCall.ownBits]))
      (run_bit (.SetWillQos q) msg 7 (by decide) (by simp [SetterCall.ownBits]))
      ?_ ?_ ?_ ?_ h <;> simp only [SetterCall.run, SetWillQos_flags]
  | SetWillTopic v =>
    have b6 := run_bit (.SetWillTopic v) msg 6 (by decide) (by simp [SetterCall.ownBits])
    have b7 := run_bit (.SetWillTopic v) msg 7 (by decide) (by simp [SetterCall.ownBits])
    unfold FlagsInStep ConnectMessage.WillFlag ConnectMessage.UsernameFlag
      ConnectMessage.PasswordFlag at h
    obtain ⟨hw, hu, hp⟩ := h
    unfold FlagsInStep ConnectMessage.WillFlag ConnectMessage.UsernameFlag
      ConnectMessage.PasswordFlag
    rw [b6, b7]
    simp only [SetterCall.run, SetWillTopic_flags]
    refine ⟨?_, hu, hp⟩
    by_cases h0 : v.length > 0
    · have hv : v ≠ [] := List.length_pos.mp h0
      simp only [h0, if_true]
      exact ⟨fun _ => Or.inl hv, fun _ => setBit_own msg.connectFlags 2 (by decide) true⟩
    · have hv : v = [] := List.length_eq_zero.mp (by omega)
      by_cases h1 : msg.willMessage.length = 0
      · have hm : msg.willMessage = [] := List.length_eq_zero.mp h1
        simp only [h0, h1, if_true, if_false]
        have hoff := setBit_own msg.connectFlags 2 (by decide) false
        simp only [Bool.false_eq_true, if_false] at hoff
        rw [hoff]
        constructor
        · intro hf
          exact absurd hf (by decide)
        · rintro (hx | hx)
          · exact absurd hv hx
          · exact absurd hm hx
      · have hm : msg.willMessage ≠ [] := fun e => h1 (by rw [e]; rfl)
        simp only [h0, h1, if_false]
        exact ⟨fun _ => Or.inr hm, fun _ => hw.mpr (Or.inr hm)⟩
  | SetWillMessage v =>
    have b6 := run_bit (.SetWillMessage v) msg 6 (by decide) (by simp [SetterCall.ownBits])
    have b7 := run_bit (.SetWillMessage v) msg 7 (by decide) (by simp [SetterCall.ownBits])
    unfold FlagsInStep ConnectMessage.WillFlag ConnectMessage.UsernameFlag
      ConnectMessage.PasswordFlag at h
    obtain ⟨hw, hu, hp⟩ := h
    unfold FlagsInStep ConnectMessage.WillFlag ConnectMessage.UsernameFlag
      ConnectMessage.PasswordFlag
    rw [b6, b7]
    simp only [SetterCall.run, SetWillMessage_flags]
    refine ⟨?_, hu, hp⟩
    by_cases h0 : v.length > 0
    · have hv : v ≠ [] := List.length_pos.mp h0
      simp only [h0, if_true]
      exact ⟨fun _ => Or.inr hv, fun _ => setBit_own msg.connectFlags 2 (by decide) true⟩
    · have hv : v = [] := List.length_eq_zero.mp (by omega)
      by_cases h1 : msg.willTopic.length = 0
      · have hm : msg.willTopic = [] := List.length_eq_zero.mp h1
        simp only [h0, h1, if_true, if_false]
        have hoff := setBit_own msg.connectFlags 2 (by decide) false
        simp only [Bool.false_eq_true, if_false] at hoff
        rw [hoff]
        constructor
        · intro hf
          exact absurd hf (by decide)
        · rintro (hx | hx)
          · exact absurd hm hx
          · exact absurd hv hx
      · have hm : msg.willTopic ≠ [] := fun e => h1 (by rw [e]; rfl)
        simp only [h0, h1, if_false]
        exact ⟨fun _ => Or.inl hm, fun _ => hw.mpr (Or.inl hm)⟩
  | SetUsername v =>
    have b2 := run_bit (.SetUsername v) msg 2 (by decide) (by simp [SetterCall.ownBits])
    have b6 := run_bit (.SetUsername v) msg 6 (by decide) (by simp [SetterCall.ownBits])
    unfold FlagsInStep ConnectMessage.WillFlag ConnectMessage.UsernameFlag
      ConnectMessage.PasswordFlag at h
    obtain ⟨hw, hu, hp⟩ := h
    unfold FlagsInStep ConnectMessage.WillFlag ConnectMessage.UsernameFlag
      ConnectMessage.PasswordFlag
    rw [b2, b6]
    simp only [SetterCall.run, SetUsername_flags]
    refine ⟨hw, ?_, hp⟩
    by_cases h0 : v.length > 0
    · have hv : v ≠ [] := List.length_pos.mp h0
      simp only [h0, if_true]
      exact ⟨fun _ => hv, fun _ => setBit_own msg.connectFlags 7 (by decide) true⟩
    · have hv : v = [] := List.length_eq_zero.mp (by omega)
      simp only [h0, if_false]
      have hoff := setBit_own msg.connectFlags 7 (by decide) false
      simp only [Bool.false_eq_true, if_false] at hoff
      rw [hoff]
      exact ⟨fun hf => absurd hf (by decide), fun hx => absurd hv hx⟩
  | SetPassword v =>
    have b2 := run_bit (.SetPassword v) msg 2 (by decide) (by simp [SetterCall.ownBits])
    have b7 := run_bit (.SetPassword v) msg 7 (by decide) (by simp [SetterCall.ownBits])
    unfold FlagsInStep ConnectMessage.WillFlag ConnectMessage.UsernameFlag
      ConnectMessage.PasswordFlag at h
    obtain ⟨hw, hu, hp⟩ := h
    unfold FlagsInStep ConnectMessage.WillFlag ConnectMessage.UsernameFlag
      ConnectMessage.PasswordFlag
    rw [b2, b7]
    simp only [SetterCall.run, SetPassword_flags]
    refine ⟨hw, hu, ?_⟩
    by_cases h0 : v.length > 0
    · have hv : v ≠ [] := List.length_pos.mp h0
      simp only [h0, if_true]
      exact ⟨fun _ => hv, fun _ => setBit_own msg.connectFlags 6 (by decide) true⟩
    · have hv : v = [] := List.length_eq_zero.mp (by omega)
      simp only [h0, if_false]
      have hoff := setBit_own msg.connectFlags 6 (by decide) false
      simp only [Bool.false_eq_true, if_false] at hoff
      rw [hoff]
      exact ⟨fun hf => absurd hf (by decide), fun hx => absurd hv hx⟩

theorem NewConnectMessage_inStep : FlagsInStep NewConnectMessage := by
  refine ⟨?_, ?_, ?_⟩ <;> decide

/-- C23: in the message reached from `NewConnectMessage` by any sequence of
public setter calls without a direct call of `SetWillFlag`, `SetUsernameFlag`
or `SetPasswordFlag` (so by any sequence of `SetWillTopic`, `SetWillMessage`,
`SetUsername` and `SetPassword` calls), `WillFlag()` is true if and only if
the will topic or the will message is non-empty, `UsernameFlag()` if and only
if the username is non-empty, and `PasswordFlag()` if and only if the password
is non-empty. -/
theorem value_setters_keep_flags (calls : List SetterCall)
    (h : ∀ c ∈ calls, c.isFlagCall = false) :
    ((callAll calls NewConnectMessage).WillFlag = true ↔
        (callAll calls NewConnectMessage).WillTopic ≠ [] ∨
          (callAll calls NewConnectMessage).WillMessage ≠ []) ∧
      ((callAll calls NewConnectMessage).UsernameFlag = true ↔
        (callAll calls NewConnectMessage).Username ≠ []) ∧
      ((callAll calls NewConnectMessage).PasswordFlag = true ↔
        (callAll calls NewConnectMessage).Password ≠ []) :=
  callAll_invariant FlagsInStep (fun c => c.isFlagCall = false)
    (fun c m hc hm => run_inStep c m hc hm) calls NewConnectMessage NewConnectMessage_inStep h

/-- C23 witness: after the calls of `sampleCalls` the will message is "m", the
will topic and the username are empty and the password is "x"; the will flag
and the password flag are set and the username flag is clear. -/
theorem value_setters_keep_flags_witness :
    (∀ c ∈ sampleCalls, c.isFlagCall = false) ∧
      (callAll sampleCalls NewConnectMessage).WillTopic = [] ∧
      (callAll sampleCalls NewConnectMessage).WillMessage = [109] ∧
      (callAll sampleCalls NewConnectMessage).WillFlag = true ∧
      (callAll sampleCalls NewConnectMessage).UsernameFlag = false ∧
      ((callAll sampleCalls NewConnectMessage).PasswordFlag = true ↔
        (callAll sampleCalls NewConnectMessage).Password ≠ []) :=
  have h := value_setters_keep_flags sampleCalls (by decide)
  ⟨by decide, by decide, by decide, h.1.mpr (Or.inr (by decide)), by decide, h.2.2⟩

end Mqtt
